import Mathlib

/-! VLC Opus decoder and encoder (`modules/codec/opus.c`)

A shallow embedding of `modules/codec/opus.c`: the decode path (`Flush`,
`ProcessPacket`, `DecodePacket`), the header path (`OpenDecoder`,
`DecodeBlock`, `ProcessHeaders`, `ProcessInitialHeader`, `DecoderCreate`) and
the encoder (`OpenEncoder`, `Encode`, `fill_buffer`), together with the
properties of the sample clock, of the end-trim arithmetic, of the header
validation and channel reordering, and of the frame accumulator.  The track
cycling of the gesture interface (`modules/control/gestures.c`, `RunIntf`) is
embedded in the namespace `Gestures`.

Conventions of the embedding

* `vlc_tick_t` (a signed 64-bit count of microseconds, from
  `include/vlc_tick.h`) and the C `int` locals are `Int`; signed overflow is undefined in C and is outside the
  model.  The one conversion that wraps in practice, `unsigned` to `int`
  for the sample count of a block, is modelled by `to_int32`.
* C integer division truncates toward zero: `Int.tdiv`.
* libopus and the host callbacks (`decoder_UpdateAudioFormat`,
  `decoder_NewAudioBuffer`) are external: each call receives their answers
  in a `DecEnv` record.
* A PCM buffer is a function from the index of an interleaved float to the
  sample stored there; `i_buffer` is its declared length in bytes.
* Every result records whether `DecoderDecodeFloat` was reached, so that
  "the codec decoder is not invoked" can be stated; header processing records
  in the same way whether `opus_header_parse` and `DecoderCreate` were reached,
  and `Encode` records the frames it hands to the codec.
* The loop of `Encode` can run forever; it is run with a bound on the number
  of iterations and gives no result when the bound is reached.
* The sample counts of the encoder (`unsigned` in C) are natural numbers; the
  delay counter (`int` in C) is an `Int`.  Neither comes near the width of its
  C type: the accumulator never holds more than 960 samples.
-/

namespace Opus

/-! ## Ticks and dates (VLC core) -/

/-- Modelled from the spec: the "undefined" sentinel of the sample clock,
`VLC_TICK_INVALID` of `include/vlc_tick.h` (value 0), not among the sources. -/
def VLC_TICK_INVALID : Int := 0

/-- Modelled from the spec: `CLOCK_FREQ` of `include/vlc_tick.h`, the number
of ticks per second (microseconds), not among the sources. -/
def CLOCK_FREQ : Int := 1000000

/-- Modelled from the spec: `vlc_tick_from_samples` of `include/vlc_tick.h`
(not among the sources): a sample count "converted to time units" at the
given rate, `CLOCK_FREQ * samples / samp_rate` in integer arithmetic. -/
def vlc_tick_from_samples (samples : Int) (samp_rate : Int) : Int :=
  Int.tdiv (CLOCK_FREQ * samples) samp_rate

/-- Modelled from the spec: `samples_from_vlc_tick` of `include/vlc_tick.h`
(not among the sources): a duration converted to a sample count at the given
rate, `t * samp_rate / CLOCK_FREQ` in integer arithmetic. -/
def samples_from_vlc_tick (t : Int) (samp_rate : Int) : Int :=
  Int.tdiv (t * samp_rate) CLOCK_FREQ

/-- Modelled from the spec: the macro `VLC_CLIP(v, min, max)` of
`include/vlc_common.h` (not among the sources), the clamp of `v` to
`[min, max]`, defined there as `__MIN(__MAX(v, min), max)`. -/
def VLC_CLIP (v lo hi : Int) : Int := min (max v lo) hi

/-- Modelled from the spec: `date_t` of `include/vlc_tick.h` (not among the
sources), the sample clock: a running position in ticks, the sample rate as a
fraction `i_divider_num / i_divider_den`, and the sub-tick remainder that
keeps the clock exact. -/
structure date_t where
  date : Int
  i_divider_num : Nat
  i_divider_den : Nat
  i_remainder : Nat
deriving DecidableEq, Repr

/-- Modelled from the spec: `date_Init` of the VLC core (not among the
sources): an undefined clock counting at rate `num / den`. -/
def date_Init (i_divider_n i_divider_d : Nat) : date_t :=
  { date := VLC_TICK_INVALID, i_divider_num := i_divider_n,
    i_divider_den := i_divider_d, i_remainder := 0 }

/-- Modelled from the spec: `date_Set` of the VLC core (not among the
sources): sets the running position and clears the remainder. -/
def date_Set (p_date : date_t) (value : Int) : date_t :=
  { p_date with date := value, i_remainder := 0 }

/-- Modelled from the spec: `date_Get` of the VLC core (not among the
sources): the current value of the clock. -/
def date_Get (p_date : date_t) : Int := p_date.date

/-- Modelled from the spec: `date_Increment` of the VLC core
(`src/misc/mtime.c`, not among the sources): advances the clock by a sample
count and returns the new value.  An undefined clock stays undefined.  The
quotient of `samples * den * CLOCK_FREQ / num` is added to the date and the
rest is carried in the remainder, so that no fraction of a tick is lost. -/
def date_Increment (p_date : date_t) (i_nb_samples : Nat) : date_t × Int :=
  if p_date.date = VLC_TICK_INVALID then (p_date, VLC_TICK_INVALID)
  else
    let i_dividend : Int := vlc_tick_from_samples i_nb_samples 1 * p_date.i_divider_den
    let quot : Int := Int.tdiv i_dividend p_date.i_divider_num
    let rem : Int := Int.tmod i_dividend p_date.i_divider_num
    let date := p_date.date + quot
    let i_remainder := p_date.i_remainder + rem.toNat
    if i_remainder ≥ p_date.i_divider_num then
      ({ p_date with date := date + 1,
                     i_remainder := i_remainder - p_date.i_divider_num }, date + 1)
    else
      ({ p_date with date := date, i_remainder := i_remainder }, date)

/-! ## Decoder state -/

/-- Modelled from the spec: `OpusHeader` of `modules/codec/opus_header.h`
(not among the sources): the parsed stream header with the fields that
`opus.c` reads. -/
structure OpusHeader where
  version : Nat
  channels : Nat
  preskip : Nat
  input_sample_rate : Nat
  gain : Int
  channel_mapping : Nat
  nb_streams : Nat
  nb_coupled : Nat
  stream_map : List Nat
  dmatrix : List Nat
deriving DecidableEq, Repr

/-- The handle returned by `opus_multistream_decoder_create`: the arguments
the decoder was created with. -/
structure OpusMSDecoder where
  Fs : Nat
  channels : Nat
  streams : Nat
  coupled_streams : Nat
  mapping : List Nat
deriving DecidableEq, Repr

/-- The handle returned by `opus_projection_decoder_create`. -/
structure OpusProjectionDecoder where
  Fs : Nat
  channels : Nat
  streams : Nat
  coupled_streams : Nat
  demixing_matrix : List Nat
deriving DecidableEq, Repr

/-- The decoder descriptor `decoder_sys_t`. -/
structure decoder_sys_t where
  b_has_headers : Bool
  header : OpusHeader
  p_st : Option OpusMSDecoder
  p_pr : Option OpusProjectionDecoder
  end_date : date_t
deriving DecidableEq, Repr

/-- The flag bits of `block_t.i_flags` that `ProcessPacket` tests. -/
structure block_flags where
  BLOCK_FLAG_CORRUPTED : Bool
  BLOCK_FLAG_DISCONTINUITY : Bool
  BLOCK_FLAG_END_OF_SEQUENCE : Bool
deriving DecidableEq, Repr

/-- An input `block_t`: one compressed packet with its metadata. -/
structure block_t where
  p_buffer : List Nat
  i_flags : block_flags
  i_pts : Int
  i_length : Int
  i_nb_samples : Nat
deriving DecidableEq, Repr

/-- An output `block_t`: a PCM buffer of interleaved floats.  `p_buffer k` is
the float at index `k`; `i_buffer` is the declared length in bytes. -/
structure aout_block_t (α : Type) where
  p_buffer : Nat → α
  i_buffer : Nat
  i_nb_samples : Int
  i_pts : Int
  i_length : Int

/-- What the outside world answers during one decode call: libopus and the
host callbacks.  `OPUS_SET_GAIN` tells whether libopus offers gain control
(a compile-time switch in the source); `gain_scale g x` is the product of the
sample `x` and `pow(10., g/5120.)`. -/
structure DecEnv (α : Type) where
  opus_packet_get_nb_frames : List Nat → Int
  opus_packet_get_samples_per_frame : List Nat → Int
  decoder_UpdateAudioFormat : Int
  decoder_NewAudioBuffer : Bool
  DecoderDecodeFloat : List Nat → Int → Int × (Nat → α)
  OPUS_SET_GAIN : Bool
  gain_scale : Int → α → α

/-- The outcome of one call: the buffer returned (if any), the decoder state
afterwards, and whether `DecoderDecodeFloat` was invoked. -/
structure DecodeResult (α : Type) where
  out : Option (aout_block_t α)
  sys : decoder_sys_t
  decoded : Bool

/-- Conversion of an `unsigned` to `int` as done when `p_block->i_nb_samples`
is passed to `DecodePacket`: the value modulo 2^32, read as two's
complement. -/
def to_int32 (x : Nat) : Int :=
  if x % 4294967296 < 2147483648 then (x % 4294967296 : Nat)
  else ((x % 4294967296 : Nat) : Int) - 4294967296

/-- The C `memmove(buf, buf + src_off, len)` on a buffer of floats. -/
def memmove {α : Type} (buf : Nat → α) (src_off len : Nat) : Nat → α :=
  fun k => if k < len then buf (src_off + k) else buf k

/-! ## The decode path -/

/-- `Flush`: resets the sample clock to undefined. -/
def Flush (p_sys : decoder_sys_t) : decoder_sys_t :=
  { p_sys with end_date := date_Set p_sys.end_date VLC_TICK_INVALID }

/-- The sample count estimated from the packet itself, lines 557-558 of
`DecodePacket`: the frame count, multiplied by the samples per frame when the
frame count is positive. -/
def packet_spp {α : Type} (env : DecEnv α) (p_oggpacket : List Nat) : Int :=
  let spp := env.opus_packet_get_nb_frames p_oggpacket
  if spp > 0 then spp * env.opus_packet_get_samples_per_frame p_oggpacket else spp

/-- The sample count requested for the output, lines 563-564: the count
declared by the caller, or the estimate when the caller declared 0. -/
def requested_samples (i_nb_samples spp : Int) : Int :=
  if i_nb_samples = 0 then spp else i_nb_samples

/-- The end-trim count, lines 577-582; `spp` is the number of samples the
codec decoded. -/
def end_trim (i_duration : Int) (spp i_nb_samples : Int) : Int :=
  if i_duration > 0 ∧ spp > 0 ∧ i_duration < vlc_tick_from_samples i_nb_samples 48000 then
    spp - VLC_CLIP (samples_from_vlc_tick i_duration 48000) 0 spp
  else 0

/-- The manual gain of lines 604-612 as it acts on one float: the product
with `pow(10., gain/5120.)` when libopus has no gain control and the header
gain is not 0, nothing otherwise. -/
def manual_gain {α : Type} (env : DecEnv α) (gain : Int) : α → α :=
  if env.OPUS_SET_GAIN = false ∧ gain ≠ 0 then env.gain_scale gain else id

/-- The loop of lines 609-610: the manual gain applied to the first `count`
floats of the buffer. -/
def apply_gain {α : Type} (env : DecEnv α) (gain : Int) (count : Nat)
    (buf : Nat → α) : Nat → α :=
  fun k => if k < count then manual_gain env gain (buf k) else buf k

/-- `DecodePacket`: decodes one Opus packet into at most one PCM buffer. -/
def DecodePacket {α : Type} (env : DecEnv α) (p_sys : decoder_sys_t)
    (p_oggpacket : List Nat) (i_nb_samples : Int) (i_duration : Int) :
    DecodeResult α :=
  if p_oggpacket.length = 0 then ⟨none, p_sys, false⟩
  else
    let spp := packet_spp env p_oggpacket
    if spp < 120 ∨ spp > 120 * 48 then ⟨none, p_sys, false⟩
    else
      let i_nb_samples := requested_samples i_nb_samples spp
      if env.decoder_UpdateAudioFormat ≠ 0 then ⟨none, p_sys, false⟩
      else if env.decoder_NewAudioBuffer = false then ⟨none, p_sys, false⟩
      else
        let r := env.DecoderDecodeFloat p_oggpacket spp
        let spp := r.1
        let i_end_trim := end_trim i_duration spp i_nb_samples
        if spp < 0 ∨ i_nb_samples ≤ 0 ∨ i_end_trim ≥ i_nb_samples then
          ⟨none, p_sys, true⟩
        else
          let channels := p_sys.header.channels
          let floats := (i_nb_samples - i_end_trim).toNat * channels
          let buf :=
            if spp > i_nb_samples then
              memmove r.2 ((spp - i_nb_samples).toNat * channels) floats
            else r.2
          let i_nb_samples := i_nb_samples - i_end_trim
          let buf := apply_gain env p_sys.header.gain (i_nb_samples.toNat * channels) buf
          let i_pts := date_Get p_sys.end_date
          let inc := date_Increment p_sys.end_date i_nb_samples.toNat
          ⟨some { p_buffer := buf, i_buffer := floats * 4,
                  i_nb_samples := i_nb_samples, i_pts := i_pts,
                  i_length := inc.2 - i_pts },
           { p_sys with end_date := inc.1 }, true⟩

/-- The date management of `ProcessPacket`, lines 519-524: a block with a
valid timestamp that differs from the clock sets the clock to it. -/
def date_management (p_sys : decoder_sys_t) (i_pts : Int) : decoder_sys_t :=
  if i_pts ≠ VLC_TICK_INVALID ∧ i_pts ≠ date_Get p_sys.end_date then
    { p_sys with end_date := date_Set p_sys.end_date i_pts }
  else p_sys

/-- The trimming info of `ProcessPacket`, lines 533-535: the length of the
block when it ends a sequence, 0 otherwise. -/
def i_max_duration (p_block : block_t) : Int :=
  if p_block.i_flags.BLOCK_FLAG_END_OF_SEQUENCE then p_block.i_length else 0

/-- `ProcessPacket`: flag handling and date management around `DecodePacket`. -/
def ProcessPacket {α : Type} (env : DecEnv α) (p_sys : decoder_sys_t)
    (p_block : block_t) : DecodeResult α :=
  let flagged := p_block.i_flags.BLOCK_FLAG_CORRUPTED
                  || p_block.i_flags.BLOCK_FLAG_DISCONTINUITY
  let p_sys := if flagged then Flush p_sys else p_sys
  if flagged ∧ p_block.i_flags.BLOCK_FLAG_CORRUPTED then ⟨none, p_sys, false⟩
  else
    let p_sys := date_management p_sys p_block.i_pts
    if date_Get p_sys.end_date = VLC_TICK_INVALID then ⟨none, p_sys, false⟩
    else
      DecodePacket env p_sys p_block.p_buffer (to_int32 p_block.i_nb_samples)
        (i_max_duration p_block)

/-- A sequence of `ProcessPacket` calls on one decoder instance, each with
its own answers from the outside world: the buffers returned, in order, and
the final state. -/
def ProcessPackets {α : Type} (p_sys : decoder_sys_t) :
    List (DecEnv α × block_t) → List (Option (aout_block_t α)) × decoder_sys_t
  | [] => ([], p_sys)
  | (env, p_block) :: rest =>
    let r := ProcessPacket env p_sys p_block
    let rs := ProcessPackets r.sys rest
    (r.out :: rs.1, rs.2)

/-- The timestamps of the buffers that were emitted, in order. -/
def emitted_pts {α : Type} (outs : List (Option (aout_block_t α))) : List Int :=
  outs.filterMap (fun o => o.map (fun b => b.i_pts))

/-- A sequence of direct `DecodePacket` calls on one decoder instance, with
nothing touching the clock in between: the buffers returned, in order. -/
def DecodePackets {α : Type} (p_sys : decoder_sys_t) :
    List (DecEnv α × List Nat × Int × Int) → List (Option (aout_block_t α))
  | [] => []
  | (env, p_oggpacket, i_nb_samples, i_duration) :: rest =>
    let r := DecodePacket env p_sys p_oggpacket i_nb_samples i_duration
    r.out :: DecodePackets r.sys rest

/-- The buffers that were emitted, in order. -/
def emitted {α : Type} (outs : List (Option (aout_block_t α))) : List (aout_block_t α) :=
  outs.filterMap id

/-- The number of samples the codec reports as decoded for this packet: the
value `DecoderDecodeFloat` returns at line 575. -/
def decoded_samples {α : Type} (env : DecEnv α) (p_oggpacket : List Nat) : Int :=
  (env.DecoderDecodeFloat p_oggpacket (packet_spp env p_oggpacket)).1

/-- The floats the codec wrote for this packet at line 575. -/
def decoded_buffer {α : Type} (env : DecEnv α) (p_oggpacket : List Nat) : Nat → α :=
  (env.DecoderDecodeFloat p_oggpacket (packet_spp env p_oggpacket)).2

/-- No block of the sequence carries the corrupted or the discontinuity
flag. -/
def no_flush_flags {α : Type} (calls : List (DecEnv α × block_t)) : Prop :=
  ∀ c ∈ calls, c.2.i_flags.BLOCK_FLAG_CORRUPTED = false
    ∧ c.2.i_flags.BLOCK_FLAG_DISCONTINUITY = false

/-- No block of the sequence carries a valid timestamp that lies before the
value the clock has when the block arrives. -/
def pts_never_behind {α : Type} (p_sys : decoder_sys_t) :
    List (DecEnv α × block_t) → Prop
  | [] => True
  | (env, p_block) :: rest =>
    (p_block.i_pts = VLC_TICK_INVALID ∨ date_Get p_sys.end_date ≤ p_block.i_pts)
      ∧ pts_never_behind (ProcessPacket env p_sys p_block).sys rest

/-- The state in which a block that is not corrupted reaches the test of line
526: flushed if the block is flagged as a discontinuity, then passed through
the date management. -/
def synced (p_sys : decoder_sys_t) (p_block : block_t) : decoder_sys_t :=
  date_management
    (if p_block.i_flags.BLOCK_FLAG_DISCONTINUITY then Flush p_sys else p_sys)
    p_block.i_pts

/-- The timestamp of the last block of the list that carries a valid
timestamp, if there is one. -/
def last_valid_pts (blocks : List block_t) : Option Int :=
  ((blocks.filter (fun b => b.i_pts != VLC_TICK_INVALID)).getLast?).map (fun b => b.i_pts)

/-! ## Headers and decoder construction -/

/-- Modelled from the spec: the status codes of `include/vlc_common.h` (not
among the sources) that `opus.c` returns; callers only test a status against
`VLC_SUCCESS`. -/
inductive vlc_status where
  | VLC_SUCCESS
  | VLC_EGENERIC
  | VLC_ENOMEM
deriving DecidableEq, Repr

/-- The libopus status `OPUS_OK`. -/
def OPUS_OK : Int := 0

/-- Modelled from the spec: the codec tag `VLC_CODEC_OPUS` of
`include/vlc_fourcc.h` (not among the sources), the four characters "Opus". -/
def VLC_CODEC_OPUS : Nat := 0x7375704F

/-- Modelled from the spec: the codec tag `VLC_CODEC_FL32` of
`include/vlc_fourcc.h` (not among the sources), the four characters "fl32". -/
def VLC_CODEC_FL32 : Nat := 0x32336C66

/-- Modelled from the spec: the positional roles `AOUT_CHAN_*` of
`include/vlc_es.h` (not among the sources), one bit each: front center. -/
def AOUT_CHAN_CENTER : Nat := 0x1
/-- Modelled from the spec: `AOUT_CHAN_LEFT` of `include/vlc_es.h`, front left. -/
def AOUT_CHAN_LEFT : Nat := 0x2
/-- Modelled from the spec: `AOUT_CHAN_RIGHT` of `include/vlc_es.h`, front right. -/
def AOUT_CHAN_RIGHT : Nat := 0x4
/-- Modelled from the spec: `AOUT_CHAN_REARCENTER` of `include/vlc_es.h`. -/
def AOUT_CHAN_REARCENTER : Nat := 0x10
/-- Modelled from the spec: `AOUT_CHAN_REARLEFT` of `include/vlc_es.h`. -/
def AOUT_CHAN_REARLEFT : Nat := 0x20
/-- Modelled from the spec: `AOUT_CHAN_REARRIGHT` of `include/vlc_es.h`. -/
def AOUT_CHAN_REARRIGHT : Nat := 0x40
/-- Modelled from the spec: `AOUT_CHAN_MIDDLELEFT` of `include/vlc_es.h`. -/
def AOUT_CHAN_MIDDLELEFT : Nat := 0x100
/-- Modelled from the spec: `AOUT_CHAN_MIDDLERIGHT` of `include/vlc_es.h`. -/
def AOUT_CHAN_MIDDLERIGHT : Nat := 0x200
/-- Modelled from the spec: `AOUT_CHAN_LFE` of `include/vlc_es.h`, low frequency. -/
def AOUT_CHAN_LFE : Nat := 0x1000

/-- The table `pi_channels_maps[9]`: the physical channels for each channel
count. -/
def pi_channels_maps : List Nat :=
  [ 0,
    AOUT_CHAN_CENTER,
    AOUT_CHAN_LEFT ||| AOUT_CHAN_RIGHT,
    AOUT_CHAN_CENTER ||| AOUT_CHAN_LEFT ||| AOUT_CHAN_RIGHT,
    AOUT_CHAN_LEFT ||| AOUT_CHAN_RIGHT ||| AOUT_CHAN_REARLEFT ||| AOUT_CHAN_REARRIGHT,
    AOUT_CHAN_LEFT ||| AOUT_CHAN_RIGHT ||| AOUT_CHAN_CENTER
      ||| AOUT_CHAN_REARLEFT ||| AOUT_CHAN_REARRIGHT,
    AOUT_CHAN_LEFT ||| AOUT_CHAN_RIGHT ||| AOUT_CHAN_CENTER
      ||| AOUT_CHAN_REARLEFT ||| AOUT_CHAN_REARRIGHT ||| AOUT_CHAN_LFE,
    AOUT_CHAN_LEFT ||| AOUT_CHAN_RIGHT ||| AOUT_CHAN_CENTER
      ||| AOUT_CHAN_REARCENTER ||| AOUT_CHAN_MIDDLELEFT
      ||| AOUT_CHAN_MIDDLERIGHT ||| AOUT_CHAN_LFE,
    AOUT_CHAN_LEFT ||| AOUT_CHAN_RIGHT ||| AOUT_CHAN_CENTER ||| AOUT_CHAN_REARLEFT
      ||| AOUT_CHAN_REARRIGHT ||| AOUT_CHAN_MIDDLELEFT ||| AOUT_CHAN_MIDDLERIGHT
      ||| AOUT_CHAN_LFE ]

/-- Recommended vorbis channel order for 8 channels. -/
def pi_8channels_in : List Nat :=
  [ AOUT_CHAN_LEFT, AOUT_CHAN_CENTER, AOUT_CHAN_RIGHT,
    AOUT_CHAN_MIDDLELEFT, AOUT_CHAN_MIDDLERIGHT,
    AOUT_CHAN_REARLEFT, AOUT_CHAN_REARRIGHT, AOUT_CHAN_LFE, 0 ]

/-- Recommended vorbis channel order for 7 channels. -/
def pi_7channels_in : List Nat :=
  [ AOUT_CHAN_LEFT, AOUT_CHAN_CENTER, AOUT_CHAN_RIGHT,
    AOUT_CHAN_MIDDLELEFT, AOUT_CHAN_MIDDLERIGHT,
    AOUT_CHAN_REARCENTER, AOUT_CHAN_LFE, 0 ]

/-- Recommended vorbis channel order for 6 channels. -/
def pi_6channels_in : List Nat :=
  [ AOUT_CHAN_LEFT, AOUT_CHAN_CENTER, AOUT_CHAN_RIGHT,
    AOUT_CHAN_REARLEFT, AOUT_CHAN_REARRIGHT, AOUT_CHAN_LFE, 0 ]

/-- Recommended vorbis channel order for 5 channels. -/
def pi_5channels_in : List Nat :=
  [ AOUT_CHAN_LEFT, AOUT_CHAN_CENTER, AOUT_CHAN_RIGHT,
    AOUT_CHAN_REARLEFT, AOUT_CHAN_REARRIGHT, 0 ]

/-- Recommended vorbis channel order for 4 channels. -/
def pi_4channels_in : List Nat :=
  [ AOUT_CHAN_LEFT, AOUT_CHAN_RIGHT, AOUT_CHAN_REARLEFT, AOUT_CHAN_REARRIGHT, 0 ]

/-- Recommended vorbis channel order for 3 channels. -/
def pi_3channels_in : List Nat :=
  [ AOUT_CHAN_LEFT, AOUT_CHAN_CENTER, AOUT_CHAN_RIGHT, 0 ]

/-- The table `pi_ch[6]` of `DecoderCreate`: the reference order for 3 to 8
channels. -/
def pi_ch : List (List Nat) :=
  [ pi_3channels_in, pi_4channels_in, pi_5channels_in,
    pi_6channels_in, pi_7channels_in, pi_8channels_in ]

/-- Modelled from the spec: `opus_header_init` of `modules/codec/opus_header.c`
(not among the sources): an empty header. -/
def opus_header_init : OpusHeader :=
  { version := 0, channels := 0, preskip := 0, input_sample_rate := 0, gain := 0,
    channel_mapping := 0, nb_streams := 0, nb_coupled := 0, stream_map := [],
    dmatrix := [] }

/-- The fields of the input format `p_dec->fmt_in` that `opus.c` reads;
`i_extra` is the length of `p_extra`. -/
structure es_format_t where
  i_codec : Nat
  p_extra : List Nat
  audio_i_channels : Nat
  audio_i_rate : Nat
deriving DecidableEq, Repr

/-- Modelled from the spec: `audio_channel_type_t` of `include/vlc_es.h` (not
among the sources): a channel bitmap or an ambisonic layout. -/
inductive audio_channel_type_t where
  | AUDIO_CHANNEL_TYPE_BITMAP
  | AUDIO_CHANNEL_TYPE_AMBISONICS
deriving DecidableEq, Repr

/-- The fields of the output format `p_dec->fmt_out` that `opus.c` writes. -/
structure fmt_out_t where
  i_codec : Nat
  audio_i_channels : Nat
  audio_i_rate : Nat
  audio_i_physical_channels : Nat
  audio_channel_type : audio_channel_type_t
deriving DecidableEq, Repr

/-- The decoder object `decoder_t` as far as `opus.c` uses it. -/
structure decoder_t where
  fmt_in : es_format_t
  fmt_out : fmt_out_t
  p_sys : decoder_sys_t
deriving DecidableEq, Repr

/-- What the outside world answers while the headers are processed: the header
parser and writer of `opus_header.c`, `xiph_SplitHeaders`,
`aout_CheckChannelReorder`, libopus, and the two compile-time switches.
`opus_header_parse packet h` gives the return value (0 on failure) and the
header as the call leaves it; `xiph_SplitHeaders` gives the packets, or nothing
on error; `opus_write_header` gives its return value and the bytes written;
`uninitialised k` is what entry `k` of the local array `new_stream_map` holds
before it is written. -/
structure HeaderEnv where
  opus_header_parse : List Nat → OpusHeader → Int × OpusHeader
  xiph_SplitHeaders : List Nat → Option (List (List Nat))
  opus_prepare_header : Nat → Nat → OpusHeader → OpusHeader
  opus_write_header : OpusHeader → Int × List Nat
  aout_CheckChannelReorder : List Nat → Nat → List Nat
  uninitialised : Nat → Nat
  OPUS_HAVE_OPUS_PROJECTION_H : Bool
  opus_projection_decoder_create : Nat → Nat → Nat → Nat → List Nat → Int
  opus_multistream_decoder_create : Nat → Nat → Nat → Nat → List Nat → Int
  OPUS_SET_GAIN : Bool
  opus_projection_decoder_ctl_SET_GAIN : Int → Int
  opus_multistream_decoder_ctl_SET_GAIN : Int → Int

/-- The outcome of header processing: the status returned, the decoder object
afterwards, whether `opus_header_parse` was invoked and whether
`DecoderCreate` was invoked. -/
structure HeaderResult where
  ret : vlc_status
  dec : decoder_t
  parsed : Bool
  created : Bool
deriving DecidableEq, Repr

/-- The outcome of one `DecodeBlock` call: the buffer returned, the decoder
object afterwards, and whether `ProcessHeaders`, `opus_header_parse`,
`DecoderCreate` and `DecoderDecodeFloat` were invoked. -/
structure BlockResult (α : Type) where
  out : Option (aout_block_t α)
  dec : decoder_t
  headers : Bool
  parsed : Bool
  created : Bool
  decoded : Bool

/-- `DecoderDestroy`: releases the codec decoder that exists. -/
def DecoderDestroy (env : HeaderEnv) (p_sys : decoder_sys_t) : decoder_sys_t :=
  if env.OPUS_HAVE_OPUS_PROJECTION_H = true ∧ p_sys.p_pr.isSome = true then
    { p_sys with p_pr := none }
  else if p_sys.p_st.isSome = true then { p_sys with p_st := none }
  else p_sys

/-- `SetDecoderGain`: pushes the header gain into the codec decoder. -/
def SetDecoderGain (env : HeaderEnv) (p_sys : decoder_sys_t) (gain : Int) : vlc_status :=
  if env.OPUS_HAVE_OPUS_PROJECTION_H = true ∧ p_sys.p_pr.isSome = true then
    if env.opus_projection_decoder_ctl_SET_GAIN gain ≠ OPUS_OK then vlc_status.VLC_EGENERIC
    else vlc_status.VLC_SUCCESS
  else
    if env.opus_multistream_decoder_ctl_SET_GAIN gain ≠ OPUS_OK then vlc_status.VLC_EGENERIC
    else vlc_status.VLC_SUCCESS

/-- The loop of lines 253-254: slot `i` of the header's stream map is written
to position `pi_chan_table[i]` of the local array. -/
def new_stream_map (init pi_chan_table stream_map : List Nat) (channels : Nat) : List Nat :=
  (List.range channels).foldl
    (fun m i => m.set (pi_chan_table.getD i 0) (stream_map.getD i 0)) init

/-- The stream map that `DecoderCreate` hands to
`opus_multistream_decoder_create`, lines 239-258, and whether it is the local
array `new_stream_map` (true) or the header's own `stream_map` (false). -/
def DecoderCreate_stream_map (env : HeaderEnv) (p_header : OpusHeader) : Bool × List Nat :=
  if p_header.channel_mapping ≤ 1 then
    if p_header.channels > 2 then
      let pi_chan_table := env.aout_CheckChannelReorder
        (pi_ch.getD (p_header.channels - 3) []) (pi_channels_maps.getD p_header.channels 0)
      (true, new_stream_map ((List.range 8).map env.uninitialised) pi_chan_table
        p_header.stream_map p_header.channels)
    else (false, p_header.stream_map)
  else (false, p_header.stream_map)

/-- `DecoderCreate`: creates the projection decoder (mapping family 3, when
libopus has it) or the multistream decoder. -/
def DecoderCreate (env : HeaderEnv) (p_sys : decoder_sys_t) : vlc_status × decoder_sys_t :=
  let p_header := p_sys.header
  if env.OPUS_HAVE_OPUS_PROJECTION_H = true ∧ p_header.channel_mapping = 3 then
    let err := env.opus_projection_decoder_create 48000 p_header.channels
      p_header.nb_streams p_header.nb_coupled p_header.dmatrix
    let p_pr : Option OpusProjectionDecoder :=
      if err = OPUS_OK then
        some { Fs := 48000, channels := p_header.channels, streams := p_header.nb_streams,
               coupled_streams := p_header.nb_coupled, demixing_matrix := p_header.dmatrix }
      else none
    (if err = OPUS_OK then vlc_status.VLC_SUCCESS else vlc_status.VLC_EGENERIC,
     { p_sys with p_pr := p_pr })
  else
    let p_stream_map := (DecoderCreate_stream_map env p_header).2
    let err := env.opus_multistream_decoder_create 48000 p_header.channels
      p_header.nb_streams p_header.nb_coupled p_stream_map
    let p_st : Option OpusMSDecoder :=
      if err = OPUS_OK then
        some { Fs := 48000, channels := p_header.channels, streams := p_header.nb_streams,
               coupled_streams := p_header.nb_coupled, mapping := p_stream_map }
      else none
    (if err = OPUS_OK then vlc_status.VLC_SUCCESS else vlc_status.VLC_EGENERIC,
     { p_sys with p_st := p_st })

/-- `OpenDecoder`: checks the codec tag and allocates the descriptor; `malloc`
is what the allocation returns, nothing or a descriptor with arbitrary
contents.  The headers are not looked at. -/
def OpenDecoder (p_dec : decoder_t) (malloc : Option decoder_sys_t) :
    vlc_status × decoder_t :=
  if p_dec.fmt_in.i_codec ≠ VLC_CODEC_OPUS then (vlc_status.VLC_EGENERIC, p_dec)
  else
    match malloc with
    | none => (vlc_status.VLC_ENOMEM, p_dec)
    | some p_sys =>
      (vlc_status.VLC_SUCCESS,
       { p_dec with
         fmt_out := { p_dec.fmt_out with i_codec := VLC_CODEC_FL32 }
         p_sys := { b_has_headers := false, header := opus_header_init,
                    p_st := none, p_pr := none,
                    end_date := date_Set p_sys.end_date VLC_TICK_INVALID } })

/-- The test of lines 435-438: the channel count exceeds what the mapping
family allows. -/
@[reducible]
def unsupported_channel_mapping (p_header : OpusHeader) : Prop :=
  (p_header.channels > 2 ∧ p_header.channel_mapping = 0) ∨
  (p_header.channels > 8 ∧ p_header.channel_mapping = 1) ∨
  (p_header.channels > 18 ∧ p_header.channel_mapping = 2) ∨
  (p_header.channels > 18 ∧ p_header.channel_mapping = 3)

/-- The value of `floor(sqrt(n))` at line 445 for a channel count `n`: the
largest `k` with `k * k ≤ n`.  The floating-point computation gives exactly
this integer for every count a header can hold. -/
def floor_sqrt (n : Nat) : Nat := Nat.findGreatest (fun k => k * k ≤ n) n

/-- The non-diegetic channel count of line 446. -/
def i_nondiegetic (p_header : OpusHeader) : Nat :=
  p_header.channels - floor_sqrt p_header.channels * floor_sqrt p_header.channels

/-- `ProcessInitialHeader`: parses and validates the initial Opus header, sets
the output format and creates the codec decoder. -/
def ProcessInitialHeader (env : HeaderEnv) (p_dec : decoder_t) (p_oggpacket : List Nat) :
    HeaderResult :=
  let r := env.opus_header_parse p_oggpacket p_dec.p_sys.header
  let p_dec := { p_dec with p_sys := { p_dec.p_sys with header := r.2 } }
  let p_header := p_dec.p_sys.header
  if r.1 = 0 then ⟨vlc_status.VLC_EGENERIC, p_dec, true, false⟩
  else if unsupported_channel_mapping p_header then
    ⟨vlc_status.VLC_EGENERIC, p_dec, true, false⟩
  else if p_header.channel_mapping ≥ 2
      ∧ (i_nondiegetic p_header ≠ 0 ∧ i_nondiegetic p_header ≠ 2) then
    ⟨vlc_status.VLC_EGENERIC, p_dec, true, false⟩
  else
    let fmt_out := { p_dec.fmt_out with audio_i_channels := p_header.channels,
                                        audio_i_rate := 48000 }
    let fmt_out :=
      if p_header.channel_mapping ≤ 1 then
        { fmt_out with
          audio_i_physical_channels := pi_channels_maps.getD p_header.channels 0 }
      else
        { fmt_out with
          audio_channel_type := audio_channel_type_t.AUDIO_CHANNEL_TYPE_AMBISONICS }
    let p_dec := { p_dec with fmt_out := fmt_out }
    let c := DecoderCreate env p_dec.p_sys
    let p_dec := { p_dec with p_sys := c.2 }
    if c.1 ≠ vlc_status.VLC_SUCCESS then ⟨vlc_status.VLC_EGENERIC, p_dec, true, true⟩
    else if env.OPUS_SET_GAIN = true
        ∧ SetDecoderGain env p_dec.p_sys p_header.gain ≠ vlc_status.VLC_SUCCESS then
      ⟨vlc_status.VLC_EGENERIC,
       { p_dec with p_sys := DecoderDestroy env p_dec.p_sys }, true, true⟩
    else
      ⟨vlc_status.VLC_SUCCESS,
       { p_dec with p_sys := { p_dec.p_sys with end_date := date_Init 48000 1 } },
       true, true⟩

/-- The magic tag "OpusHead". -/
def OpusHead : List Nat := [79, 112, 117, 115, 72, 101, 97, 100]

/-- The header packet that `ProcessHeaders` selects, lines 356-397, or the
status with which it gives up: the first Xiph packet, a header made from the
negotiated format, or the raw extradata. -/
def ProcessHeaders_packet (env : HeaderEnv) (fmt_in : es_format_t) :
    Except vlc_status (List Nat) :=
  let p_extra := fmt_in.p_extra
  let i_extra := p_extra.length
  if i_extra > 21 ∧ (p_extra.drop 2).take 8 = OpusHead then
    match env.xiph_SplitHeaders p_extra with
    | none => Except.error vlc_status.VLC_EGENERIC
    | some packets =>
      if packets.length < 2 then Except.error vlc_status.VLC_EGENERIC
      else Except.ok (packets.headD [])
  else if i_extra < 19 ∨ p_extra.take 8 ≠ OpusHead then
    let header := env.opus_prepare_header
      (if fmt_in.audio_i_channels ≠ 0 then fmt_in.audio_i_channels else 2)
      (if fmt_in.audio_i_rate ≠ 0 then fmt_in.audio_i_rate else 48000)
      opus_header_init
    let w := env.opus_write_header header
    if w.1 ≠ 0 ∨ w.2.length < 21 then Except.error vlc_status.VLC_ENOMEM
    else Except.ok ((w.2.drop 2).take (w.2.getD 1 0))
  else Except.ok p_extra

/-- `ProcessHeaders`: selects the header packet and hands it to
`ProcessInitialHeader`; on failure the header is reset. -/
def ProcessHeaders (env : HeaderEnv) (p_dec : decoder_t) : HeaderResult :=
  match ProcessHeaders_packet env p_dec.fmt_in with
  | Except.error e => ⟨e, p_dec, false, false⟩
  | Except.ok p_oggpacket =>
    let r := ProcessInitialHeader env p_dec p_oggpacket
    if r.ret ≠ vlc_status.VLC_SUCCESS then
      { r with dec := { r.dec with p_sys := { r.dec.p_sys with header := opus_header_init } } }
    else r

/-- `DecodeBlock`: processes the headers if that has not succeeded yet, then
the packet. -/
def DecodeBlock {α : Type} (henv : HeaderEnv) (env : DecEnv α) (p_dec : decoder_t)
    (p_block : block_t) : BlockResult α :=
  if p_dec.p_sys.b_has_headers = false then
    let h := ProcessHeaders henv p_dec
    if h.ret ≠ vlc_status.VLC_SUCCESS then ⟨none, h.dec, true, h.parsed, h.created, false⟩
    else
      let p_dec := { h.dec with p_sys := { h.dec.p_sys with b_has_headers := true } }
      let r := ProcessPacket env p_dec.p_sys p_block
      ⟨r.out, { p_dec with p_sys := r.sys }, true, h.parsed, h.created, r.decoded⟩
  else
    let r := ProcessPacket env p_dec.p_sys p_block
    ⟨r.out, { p_dec with p_sys := r.sys }, false, false, false, r.decoded⟩

/-- A sequence of `DecodeBlock` calls on one decoder object: the outcome of
each call, in order. -/
def DecodeBlocks {α : Type} (p_dec : decoder_t) :
    List (HeaderEnv × DecEnv α × block_t) → List (BlockResult α)
  | [] => []
  | (henv, env, p_block) :: rest =>
    let r := DecodeBlock henv env p_dec p_block
    r :: DecodeBlocks r.dec rest

/-! ## The encoder -/

/-- The frame size `OPUS_FRAME_SIZE`: 20 ms at 48 kHz. -/
def OPUS_FRAME_SIZE : Nat := 960

/-- A block of PCM input, or the padding block: `p_buffer k` is the float at
index `k`, `i_nb_samples` the number of samples still to be consumed. -/
structure pcm_block_t (α : Type) where
  p_buffer : Nat → α
  i_nb_samples : Nat
  i_pts : Int

/-- A compressed block as `Encode` returns it; `i_buffer` is the number of
bytes the codec wrote. -/
structure enc_block_t where
  i_pts : Int
  i_dts : Int
  i_length : Int
  i_buffer : Int
deriving DecidableEq, Repr

/-- The encoder descriptor `encoder_sys_t`.  `buffer k` is the float at index
`k` of the accumulator; the codec encoder handle `enc` is external and is
represented by the answers of `EncEnv`.  The sample counts are C `unsigned`
values; they are natural numbers here and stay far below 2^32. -/
structure encoder_sys_t (α : Type) where
  buffer : Nat → α
  i_nb_samples : Nat
  i_samples_delay : Int
  padding : Option (pcm_block_t α)
  nb_streams : Nat

/-- The encoder object `encoder_t` as far as `opus.c` uses it. -/
structure encoder_t (α : Type) where
  fmt_in_i_codec : Nat
  fmt_in_audio_i_rate : Nat
  fmt_in_audio_i_channels : Nat
  fmt_out_i_codec : Nat
  fmt_out_audio_i_rate : Nat
  fmt_out_audio_i_channels : Nat
  fmt_out_p_extra : List Nat
  p_sys : encoder_sys_t α

/-- What the outside world answers during one `Encode` call, by the number of
the loop iteration (from 0): whether `block_Alloc` succeeds, and the value
`opus_multistream_encode_float` returns for the frame it is handed. -/
structure EncEnv (α : Type) where
  block_Alloc : Nat → Bool
  opus_multistream_encode_float : Nat → List α → Int

/-- What the outside world answers during `OpenEncoder`: the allocations, the
header functions of `opus_header.c`, and libopus.
`opus_multistream_surround_encoder_create` gives the error code and the header
with the stream layout it filled in; `OPUS_GET_LOOKAHEAD` gives the status of
the request and the value left in `i_samples_delay`. -/
structure OpenEncEnv where
  malloc : Bool
  opus_prepare_header : Nat → Nat → OpusHeader → OpusHeader
  opus_multistream_surround_encoder_create : Nat → Nat → OpusHeader → Int × OpusHeader
  vlc_alloc : Bool
  OPUS_GET_LOOKAHEAD : Int × Int
  opus_write_header : OpusHeader → Int × List Nat
  block_Alloc : Bool

/-- `fill_buffer`: copies `samples` samples of `src`, from float `src_start`
on, behind the samples the accumulator holds; returns the descriptor, the
source block with its count reduced, and the new `src_start`. -/
def fill_buffer {α : Type} (channels : Nat) (p_sys : encoder_sys_t α) (src_start : Nat)
    (src : pcm_block_t α) (samples : Nat) : encoder_sys_t α × pcm_block_t α × Nat :=
  let dest := p_sys.i_nb_samples * channels
  let len := samples * channels
  ({ p_sys with
     buffer := fun k =>
       if dest ≤ k ∧ k < dest + len then src.p_buffer (src_start + (k - dest))
       else p_sys.buffer k
     i_nb_samples := p_sys.i_nb_samples + samples },
   { src with i_nb_samples := src.i_nb_samples - samples },
   src_start + len)

/-- The local state of the loop of `Encode`, with the frames handed to the
codec so far, the number of iterations made, and whether `block_Alloc`
failed. -/
structure EncodeLoop (α : Type) where
  sys : encoder_sys_t α
  buf : pcm_block_t α
  i_pts : Int
  src_start : Nat
  padding_start : Nat
  result : List enc_block_t
  handed : List (List α)
  iter : Nat
  oom : Bool

/-- The padding part of one iteration, lines 698-709. -/
def Encode_padding {α : Type} (channels : Nat) (st : EncodeLoop α) : EncodeLoop α :=
  match st.sys.padding with
  | none => st
  | some padding =>
    let leftover_space := OPUS_FRAME_SIZE - st.sys.i_nb_samples
    let f := fill_buffer channels st.sys st.padding_start padding
      (min padding.i_nb_samples leftover_space)
    { st with
      sys := { f.1 with padding := if f.2.1.i_nb_samples ≤ 0 then none else some f.2.1 }
      padding_start := f.2.2 }

/-- The input part of one iteration, lines 711-718. -/
def Encode_input {α : Type} (channels : Nat) (st : EncodeLoop α) : EncodeLoop α :=
  match st.sys.padding with
  | some _ => st
  | none =>
    let leftover_space := OPUS_FRAME_SIZE - st.sys.i_nb_samples
    let f := fill_buffer channels st.sys st.src_start st.buf
      (min st.buf.i_nb_samples leftover_space)
    { st with sys := f.1, buf := f.2.1, src_start := f.2.2 }

/-- The frame handed to the codec: the first `OPUS_FRAME_SIZE * channels`
floats of the accumulator. -/
def frame_of {α : Type} (channels : Nat) (p_sys : encoder_sys_t α) : List α :=
  (List.range (OPUS_FRAME_SIZE * channels)).map p_sys.buffer

/-- The encoding part of one iteration, lines 720-742. -/
def Encode_frame {α : Type} (env : EncEnv α) (channels rate : Nat) (st : EncodeLoop α) :
    EncodeLoop α :=
  let frame := frame_of channels st.sys
  let bytes_encoded := env.opus_multistream_encode_float st.iter frame
  let st := { st with handed := st.handed ++ [frame], iter := st.iter + 1 }
  if bytes_encoded < 0 then st
  else
    let i_length := vlc_tick_from_samples OPUS_FRAME_SIZE rate
    { st with
      result := st.result ++ [{ i_pts := st.i_pts, i_dts := st.i_pts,
                                i_length := i_length, i_buffer := bytes_encoded }]
      sys := { st.sys with
               i_samples_delay := st.sys.i_samples_delay - OPUS_FRAME_SIZE
               i_nb_samples := 0 }
      i_pts := st.i_pts + i_length }

/-- The loop of `Encode`, lines 689-743, run for at most `fuel` iterations:
nothing when the loop is still running after `fuel` iterations. -/
def Encode_loop {α : Type} (env : EncEnv α) (channels rate : Nat) :
    Nat → EncodeLoop α → Option (EncodeLoop α)
  | fuel, st =>
    if st.sys.i_nb_samples + st.buf.i_nb_samples ≥ OPUS_FRAME_SIZE then
      match fuel with
      | 0 => none
      | fuel + 1 =>
        if env.block_Alloc st.iter = false then some { st with oom := true }
        else
          Encode_loop env channels rate fuel
            (Encode_frame env channels rate
              (Encode_input channels (Encode_padding channels st)))
    else some st

/-- The outcome of one `Encode` call: the chain of compressed blocks returned
(empty for NULL), the encoder object and the input block afterwards, and the
frames that were handed to the codec, in order. -/
structure EncodeResult (α : Type) where
  result : List enc_block_t
  enc : encoder_t α
  buf : Option (pcm_block_t α)
  handed : List (List α)

/-- The state in which `Encode` enters its loop, lines 677-685: the timestamp
of the first frame is the timestamp of the block minus the delay, and the
delay grows by the samples of the block. -/
def Encode_start {α : Type} (enc : encoder_t α) (buf : pcm_block_t α) : EncodeLoop α :=
  { sys := { enc.p_sys with
             i_samples_delay := enc.p_sys.i_samples_delay + buf.i_nb_samples }
    buf := buf
    i_pts := buf.i_pts
      - vlc_tick_from_samples enc.p_sys.i_samples_delay enc.fmt_in_audio_i_rate
    src_start := 0, padding_start := 0, result := [], handed := [], iter := 0,
    oom := false }

/-- `Encode`, with its loop run for at most `fuel` iterations: nothing when
the call has not returned by then. -/
def Encode {α : Type} (env : EncEnv α) (enc : encoder_t α) (buf : Option (pcm_block_t α))
    (fuel : Nat) : Option (EncodeResult α) :=
  match buf with
  | none => some ⟨[], enc, none, []⟩
  | some buf =>
    let channels := enc.fmt_out_audio_i_channels
    match Encode_loop env channels enc.fmt_in_audio_i_rate fuel (Encode_start enc buf) with
    | none => none
    | some st =>
      if st.oom = true then some ⟨[], { enc with p_sys := st.sys }, some st.buf, st.handed⟩
      else if st.buf.i_nb_samples > 0 then
        let f := fill_buffer channels st.sys st.src_start st.buf st.buf.i_nb_samples
        some ⟨st.result, { enc with p_sys := f.1 }, some f.2.1, st.handed⟩
      else some ⟨st.result, { enc with p_sys := st.sys }, some st.buf, st.handed⟩

/-- `OpenEncoder`: checks the codec tag, creates the codec encoder, asks for
its lookahead and prepares as many samples of silence. -/
def OpenEncoder {α : Type} [Zero α] (env : OpenEncEnv) (enc : encoder_t α) :
    vlc_status × encoder_t α :=
  if enc.fmt_out_i_codec ≠ VLC_CODEC_OPUS then (vlc_status.VLC_EGENERIC, enc)
  else if env.malloc = false then (vlc_status.VLC_ENOMEM, enc)
  else
    let enc := { enc with fmt_in_i_codec := VLC_CODEC_FL32, fmt_in_audio_i_rate := 48000,
                          fmt_out_audio_i_rate := 48000,
                          fmt_out_audio_i_channels := enc.fmt_in_audio_i_channels }
    let header := env.opus_prepare_header enc.fmt_out_audio_i_channels
      enc.fmt_out_audio_i_rate opus_header_init
    let nb_streams := header.nb_streams
    let c := env.opus_multistream_surround_encoder_create enc.fmt_in_audio_i_rate
      enc.fmt_in_audio_i_channels header
    let header := c.2
    if c.1 ≠ OPUS_OK then (vlc_status.VLC_EGENERIC, enc)
    else if env.vlc_alloc = false then (vlc_status.VLC_ENOMEM, enc)
    else
      let i_samples_delay := env.OPUS_GET_LOOKAHEAD.2
      let header := { header with preskip := i_samples_delay.toNat }
      let w := env.opus_write_header header
      if w.1 ≠ 0 then (vlc_status.VLC_ENOMEM, enc)
      else
        let enc := { enc with fmt_out_p_extra := w.2 }
        if i_samples_delay > 0 then
          if env.block_Alloc = false then (vlc_status.VLC_ENOMEM, enc)
          else
            (vlc_status.VLC_SUCCESS,
             { enc with p_sys :=
                { buffer := enc.p_sys.buffer, i_nb_samples := 0,
                  i_samples_delay := i_samples_delay,
                  padding := some { p_buffer := fun _ => 0,
                                    i_nb_samples := i_samples_delay.toNat, i_pts := 0 },
                  nb_streams := nb_streams } })
        else
          (vlc_status.VLC_SUCCESS,
           { enc with p_sys :=
              { buffer := enc.p_sys.buffer, i_nb_samples := 0,
                i_samples_delay := i_samples_delay, padding := none,
                nb_streams := nb_streams } })

/-- A sequence of `Encode` calls on one encoder object, each with its own
answers from the outside world and its own fuel: the outcome of each call, in
order, or nothing when one of the calls does not return. -/
def Encodes {α : Type} (enc : encoder_t α) :
    List (EncEnv α × pcm_block_t α × Nat) → Option (List (EncodeResult α))
  | [] => some []
  | (env, buf, fuel) :: rest =>
    match Encode env enc (some buf) fuel with
    | none => none
    | some r =>
      match Encodes r.enc rest with
      | none => none
      | some rs => some (r :: rs)

/-- The three places `ProcessHeaders` can take the header packet from. -/
inductive header_source_t where
  | xiph
  | synthesized
  | raw
deriving DecidableEq, Repr

/-- The source of the header packet that the tests of lines 361 and 375 of
`ProcessHeaders` select for an extradata. -/
def header_source (fmt_in : es_format_t) : header_source_t :=
  if fmt_in.p_extra.length > 21 ∧ (fmt_in.p_extra.drop 2).take 8 = OpusHead then
    header_source_t.xiph
  else if fmt_in.p_extra.length < 19 ∨ fmt_in.p_extra.take 8 ≠ OpusHead then
    header_source_t.synthesized
  else header_source_t.raw

/-- The number of padding samples not yet consumed: `padding->i_nb_samples`,
or 0 once the padding block is released. -/
def padding_left {α : Type} (p_sys : encoder_sys_t α) : Nat :=
  match p_sys.padding with
  | none => 0
  | some padding => padding.i_nb_samples

/-- One iteration of the loop of `Encode` after `block_Alloc` succeeded, lines
698-742. -/
def Encode_iteration {α : Type} (env : EncEnv α) (channels rate : Nat)
    (st : EncodeLoop α) : EncodeLoop α :=
  Encode_frame env channels rate (Encode_input channels (Encode_padding channels st))

/-- The states in which the iterations of the loop of `Encode` start, in
order, for at most `fuel` iterations: the loop condition holds and
`block_Alloc` succeeded. -/
def Encode_heads {α : Type} (env : EncEnv α) (channels rate : Nat) :
    Nat → EncodeLoop α → List (EncodeLoop α)
  | 0, _ => []
  | fuel + 1, st =>
    if st.sys.i_nb_samples + st.buf.i_nb_samples ≥ OPUS_FRAME_SIZE then
      if env.block_Alloc st.iter = false then []
      else st :: Encode_heads env channels rate fuel (Encode_iteration env channels rate st)
    else []

/-- The calls of `fill_buffer` that one iteration makes, lines 699-718, each
as the number of samples in the accumulator before the call and the number of
samples copied. -/
def Encode_fill_calls {α : Type} (channels : Nat) (st : EncodeLoop α) : List (Nat × Nat) :=
  (match st.sys.padding with
   | none => []
   | some padding =>
     [(st.sys.i_nb_samples,
       min padding.i_nb_samples (OPUS_FRAME_SIZE - st.sys.i_nb_samples))])
  ++
  (match (Encode_padding channels st).sys.padding with
   | some _ => []
   | none =>
     [((Encode_padding channels st).sys.i_nb_samples,
       min (Encode_padding channels st).buf.i_nb_samples
         (OPUS_FRAME_SIZE - (Encode_padding channels st).sys.i_nb_samples))])

/-- The encoder object after a sequence of `Encode` calls with the given
outcomes. -/
def final_enc {α : Type} (enc : encoder_t α) (rs : List (EncodeResult α)) : encoder_t α :=
  rs.foldl (fun _ r => r.enc) enc

/-- The number of compressed frames returned by a sequence of `Encode`
calls. -/
def frames_emitted {α : Type} (rs : List (EncodeResult α)) : Nat :=
  (rs.map (fun r => r.result.length)).sum

/-- The number of input samples given to a sequence of `Encode` calls. -/
def samples_received {α : Type} (calls : List (EncEnv α × pcm_block_t α × Nat)) : Nat :=
  (calls.map (fun c => c.2.1.i_nb_samples)).sum

end Opus

/-! ## The gesture interface (`modules/control/gestures.c`) -/

namespace Gestures

/-- The search of lines 324-328 and 366-372 of `RunIntf`: the index of the
first choice equal to the current value, or the number of choices when there
is none. -/
def find_choice (val : Int) (p_values : List Int) : Nat :=
  p_values.findIdx (fun v => val == v)

/-- The audio track selected by the gesture UP-RIGHT, lines 315-340: nothing
when there is at most one choice, otherwise the index of the choice that is
set. -/
def next_audio_es (val : Int) (p_values : List Int) : Option Nat :=
  let i_count := p_values.length
  if i_count ≤ 1 then none
  else
    let i := find_choice val p_values
    if i = i_count then some 0
    else if i = i_count - 1 then some 1
    else some (i + 1)

/-- The subtitle track selected by the gesture DOWN-RIGHT, lines 356-384. -/
def next_spu_es (val : Int) (p_values : List Int) : Option Nat :=
  let i_count := p_values.length
  if i_count ≤ 1 then none
  else
    let i := find_choice val p_values
    if i = i_count then some 0
    else if i = i_count - 1 then some 0
    else some (i + 1)

end Gestures

namespace Opus

/-! ## Concrete inputs -/

/-- A libopus that reports one frame of 960 samples for every packet and
decodes as many samples as it is asked for; float `k` of the decoded buffer
holds the value `k`. -/
def env960 : DecEnv Int :=
  { opus_packet_get_nb_frames := fun _ => 1
    opus_packet_get_samples_per_frame := fun _ => 960
    decoder_UpdateAudioFormat := 0
    decoder_NewAudioBuffer := true
    DecoderDecodeFloat := fun _ spp => (spp, fun k => (k : Int))
    OPUS_SET_GAIN := true
    gain_scale := fun _ x => x }

/-- A mono header without gain. -/
def mono_header : OpusHeader :=
  { version := 1, channels := 1, preskip := 0, input_sample_rate := 48000,
    gain := 0, channel_mapping := 0, nb_streams := 1, nb_coupled := 0,
    stream_map := [0], dmatrix := [] }

/-- A decoder whose headers were processed: the clock counts at 48 kHz and is
still undefined. -/
def ready_sys : decoder_sys_t :=
  { b_has_headers := true, header := mono_header,
    p_st := some { Fs := 48000, channels := 1, streams := 1,
                   coupled_streams := 0, mapping := [0] },
    p_pr := none, end_date := date_Init 48000 1 }

/-- The same decoder with its clock at one second. -/
def running_sys : decoder_sys_t :=
  { ready_sys with end_date := date_Set (date_Init 48000 1) 1000000 }

/-- A one-byte packet declared to hold 960 samples, without flags. -/
def plain_block (i_pts : Int) : block_t :=
  { p_buffer := [0], i_flags := ⟨false, false, false⟩, i_pts := i_pts,
    i_length := 20000, i_nb_samples := 960 }

/-- The last packet of a segment: 960 samples declared, and a duration hint. -/
def last_block (i_pts i_length : Int) : block_t :=
  { p_buffer := [0], i_flags := ⟨false, false, true⟩, i_pts := i_pts,
    i_length := i_length, i_nb_samples := 960 }

/-- A block flagged as corrupted. -/
def corrupted_block (i_pts : Int) : block_t :=
  { p_buffer := [0], i_flags := ⟨true, false, false⟩, i_pts := i_pts,
    i_length := 20000, i_nb_samples := 960 }

/-- A libopus that reports three frames of 2880 samples, 8640 samples in all,
for every packet. -/
def env8640 : DecEnv Int :=
  { env960 with opus_packet_get_nb_frames := fun _ => 3
                opus_packet_get_samples_per_frame := fun _ => 2880 }

/-- A stand-in for `opus_header_parse`: a packet of at least 19 bytes that
starts with the magic is accepted; the version is byte 8, the channel count
byte 9, the mapping family byte 18, and for a family other than 0 the stream
count, the coupled count and the stream map follow. -/
def parse_fields (packet : List Nat) (h : OpusHeader) : Int × OpusHeader :=
  if packet.take 8 = OpusHead ∧ 19 ≤ packet.length then
    (1, { h with
          version := packet.getD 8 0, channels := packet.getD 9 0,
          channel_mapping := packet.getD 18 0,
          nb_streams := if packet.getD 18 0 = 0 then 1 else packet.getD 19 0,
          nb_coupled := if packet.getD 18 0 = 0 then packet.getD 9 0 - 1
                        else packet.getD 20 0,
          stream_map := if packet.getD 18 0 = 0 then [0, 1]
                        else (packet.drop 21).take (packet.getD 9 0) })
  else (0, h)

/-- A header packet with the given channel count, mapping family, stream
counts and stream map. -/
def header_bytes (channels family streams coupled : Nat) (stream_map : List Nat) : List Nat :=
  OpusHead ++ [1, channels, 0, 0, 128, 187, 0, 0, 0, 0, family, streams, coupled]
    ++ stream_map

/-- The channel order of the VLC core, `pi_vlc_chan_order_wg4`. -/
def pi_vlc_chan_order_wg4 : List Nat :=
  [ AOUT_CHAN_LEFT, AOUT_CHAN_RIGHT, AOUT_CHAN_MIDDLELEFT, AOUT_CHAN_MIDDLERIGHT,
    AOUT_CHAN_REARLEFT, AOUT_CHAN_REARRIGHT, AOUT_CHAN_REARCENTER,
    AOUT_CHAN_CENTER, AOUT_CHAN_LFE ]

/-- A stand-in for `aout_CheckChannelReorder` with the VLC order as output
order: for each channel of `chans_in` that is in the mask, the number of
channels of the mask that come before it in the VLC order. -/
def wg4_reorder (chans_in : List Nat) (mask : Nat) : List Nat :=
  ((chans_in.takeWhile (fun c => c != 0)).filter (fun c => mask &&& c != 0)).map
    (fun chan =>
      ((pi_vlc_chan_order_wg4.takeWhile (fun c => c != chan)).filter
        (fun c => mask &&& c != 0)).length)

/-- An outside world in which everything succeeds: no Xiph headers, headers
written with a two-byte wrapper, libopus with projection and gain support. -/
def henv_ok : HeaderEnv :=
  { opus_header_parse := parse_fields
    xiph_SplitHeaders := fun _ => none
    opus_prepare_header := fun channels rate h =>
      { h with version := 1, channels := channels, input_sample_rate := rate,
               channel_mapping := if channels > 2 then 1 else 0,
               nb_streams := 1, nb_coupled := channels - 1, stream_map := [0, 1] }
    opus_write_header := fun h =>
      (0, [1, 19] ++ header_bytes h.channels h.channel_mapping h.nb_streams h.nb_coupled [])
    aout_CheckChannelReorder := wg4_reorder
    uninitialised := fun _ => 255
    OPUS_HAVE_OPUS_PROJECTION_H := true
    opus_projection_decoder_create := fun _ _ _ _ _ => 0
    opus_multistream_decoder_create := fun _ _ _ _ _ => 0
    OPUS_SET_GAIN := true
    opus_projection_decoder_ctl_SET_GAIN := fun _ => 0
    opus_multistream_decoder_ctl_SET_GAIN := fun _ => 0 }

/-- The same outside world, except that libopus refuses to create a
multistream decoder. -/
def henv_no_decoder : HeaderEnv :=
  { henv_ok with opus_multistream_decoder_create := fun _ _ _ _ _ => -1 }

/-- A decoder object before `OpenDecoder`, for an Opus stream with the given
extradata. -/
def closed_dec (p_extra : List Nat) : decoder_t :=
  { fmt_in := { i_codec := VLC_CODEC_OPUS, p_extra := p_extra,
                audio_i_channels := 2, audio_i_rate := 48000 }
    fmt_out := { i_codec := 0, audio_i_channels := 0, audio_i_rate := 0,
                 audio_i_physical_channels := 0,
                 audio_channel_type := audio_channel_type_t.AUDIO_CHANNEL_TYPE_BITMAP }
    p_sys := { b_has_headers := false, header := opus_header_init, p_st := none,
               p_pr := none, end_date := date_Init 0 0 } }

/-- The decoder object that `OpenDecoder` returns for that stream. -/
def opened_dec (p_extra : List Nat) : decoder_t :=
  (OpenDecoder (closed_dec p_extra) (some ready_sys)).2

/-- Extradata of 21 bytes whose first byte spoils the magic tag. -/
def bad_magic_extra : List Nat := 88 :: (header_bytes 2 0 1 1 []).drop 1

/-- An outside world in which `OpenEncoder` succeeds and libopus reports the
given lookahead. -/
def open_env (lookahead : Int) : OpenEncEnv :=
  { malloc := true
    opus_prepare_header := fun channels rate h =>
      { h with version := 1, channels := channels, input_sample_rate := rate,
               channel_mapping := if channels > 2 then 1 else 0,
               nb_streams := 1, nb_coupled := channels - 1, stream_map := [0, 1] }
    opus_multistream_surround_encoder_create := fun _ _ h => (0, h)
    vlc_alloc := true
    OPUS_GET_LOOKAHEAD := (0, lookahead)
    opus_write_header := fun h =>
      (0, [1, 19] ++ header_bytes h.channels h.channel_mapping h.nb_streams h.nb_coupled [])
    block_Alloc := true }

/-- A mono encoder object before `OpenEncoder`. -/
def closed_enc : encoder_t Int :=
  { fmt_in_i_codec := 0, fmt_in_audio_i_rate := 44100, fmt_in_audio_i_channels := 1,
    fmt_out_i_codec := VLC_CODEC_OPUS, fmt_out_audio_i_rate := 0,
    fmt_out_audio_i_channels := 0, fmt_out_p_extra := [],
    p_sys := { buffer := fun _ => 0, i_nb_samples := 0, i_samples_delay := 0,
               padding := none, nb_streams := 0 } }

/-- The encoder object that `OpenEncoder` returns when libopus reports the
given lookahead. -/
def opened_enc (lookahead : Int) : encoder_t Int :=
  (OpenEncoder (open_env lookahead) closed_enc).2

/-- An input block of `n` mono samples, all different from 0: sample `k` holds
the value `first + k`, with `first` positive. -/
def tone_block (first n : Nat) (i_pts : Int) : pcm_block_t Int :=
  { p_buffer := fun k => ((first + k : Nat) : Int), i_nb_samples := n, i_pts := i_pts }

/-- A codec encoder that accepts every frame and writes 100 bytes. -/
def enc_accepting : EncEnv Int :=
  { block_Alloc := fun _ => true, opus_multistream_encode_float := fun _ _ => 100 }

/-- A codec encoder that refuses every frame. -/
def enc_refusing : EncEnv Int :=
  { block_Alloc := fun _ => true, opus_multistream_encode_float := fun _ _ => -1 }

/-- A codec encoder that refuses the frame of the first iteration and accepts
the frames of the later ones. -/
def enc_refusing_once : EncEnv Int :=
  { block_Alloc := fun _ => true
    opus_multistream_encode_float := fun iter _ => if iter = 0 then -1 else 100 }

/-- A block without flags that declares `n` samples. -/
def declared_block (i_pts : Int) (n : Nat) : block_t :=
  { p_buffer := [0], i_flags := ⟨false, false, false⟩, i_pts := i_pts,
    i_length := 20000, i_nb_samples := n }

/-- An outside world in which no output block can be allocated. -/
def enc_no_memory : EncEnv Int :=
  { block_Alloc := fun _ => false, opus_multistream_encode_float := fun _ _ => 100 }

/-- An outside world in which only the output block of the first iteration can
be allocated. -/
def enc_memory_once : EncEnv Int :=
  { block_Alloc := fun iter => decide (iter = 0)
    opus_multistream_encode_float := fun _ _ => 100 }

/-! ## Ticks and the clock -/

theorem vlc_tick_from_samples_nonneg (n : Nat) : 0 ≤ vlc_tick_from_samples n 1 := by
  unfold vlc_tick_from_samples CLOCK_FREQ
  apply Int.tdiv_nonneg <;> omega

theorem date_Increment_snd (d : date_t) (n : Nat) :
    (date_Increment d n).2 = date_Get (date_Increment d n).1 := by
  unfold date_Increment date_Get
  simp only
  split_ifs <;> simp_all [VLC_TICK_INVALID]

theorem date_Increment_le (d : date_t) (n : Nat) :
    date_Get d ≤ date_Get (date_Increment d n).1 := by
  have h0 := vlc_tick_from_samples_nonneg n
  have hq : 0 ≤ Int.tdiv (vlc_tick_from_samples n 1 * (d.i_divider_den : Int))
      (d.i_divider_num : Int) :=
    Int.tdiv_nonneg (mul_nonneg h0 (Int.ofNat_nonneg _)) (Int.ofNat_nonneg _)
  unfold date_Increment date_Get
  simp only
  split_ifs <;> dsimp only <;> omega

/-! ## One call of `DecodePacket` -/

theorem DecodePacket_none_sys {α : Type} (env : DecEnv α) (p_sys : decoder_sys_t)
    (pkt : List Nat) (n : Int) (dur : Int)
    (h : (DecodePacket env p_sys pkt n dur).out = none) :
    (DecodePacket env p_sys pkt n dur).sys = p_sys := by
  unfold DecodePacket at h ⊢
  simp only at h ⊢
  split_ifs at h ⊢ <;> simp_all

theorem DecodePacket_some {α : Type} (env : DecEnv α) (p_sys : decoder_sys_t)
    (pkt : List Nat) (n : Int) (dur : Int) (b : aout_block_t α)
    (h : (DecodePacket env p_sys pkt n dur).out = some b) :
    pkt.length ≠ 0 ∧ 120 ≤ packet_spp env pkt ∧ packet_spp env pkt ≤ 5760 ∧
    env.decoder_UpdateAudioFormat = 0 ∧ env.decoder_NewAudioBuffer = true ∧
    0 ≤ decoded_samples env pkt ∧
    0 < requested_samples n (packet_spp env pkt) ∧
    end_trim dur (decoded_samples env pkt) (requested_samples n (packet_spp env pkt))
      < requested_samples n (packet_spp env pkt) ∧
    b.i_nb_samples = requested_samples n (packet_spp env pkt)
      - end_trim dur (decoded_samples env pkt) (requested_samples n (packet_spp env pkt)) ∧
    b.i_pts = date_Get p_sys.end_date ∧
    b.i_length = (date_Increment p_sys.end_date b.i_nb_samples.toNat).2 - b.i_pts ∧
    b.i_buffer = b.i_nb_samples.toNat * p_sys.header.channels * 4 ∧
    b.p_buffer = apply_gain env p_sys.header.gain
      (b.i_nb_samples.toNat * p_sys.header.channels)
      (if decoded_samples env pkt > requested_samples n (packet_spp env pkt) then
        memmove (decoded_buffer env pkt)
          ((decoded_samples env pkt - requested_samples n (packet_spp env pkt)).toNat
            * p_sys.header.channels)
          (b.i_nb_samples.toNat * p_sys.header.channels)
       else decoded_buffer env pkt) ∧
    (DecodePacket env p_sys pkt n dur).sys =
      { p_sys with end_date := (date_Increment p_sys.end_date b.i_nb_samples.toNat).1 } ∧
    (DecodePacket env p_sys pkt n dur).decoded = true := by
  unfold DecodePacket at h ⊢
  unfold decoded_samples decoded_buffer
  simp only at h ⊢
  split_ifs at h ⊢ <;> simp only [Option.some.injEq, reduceCtorEq] at h
  all_goals subst h
  all_goals simp_all

/-! ## One call of `ProcessPacket` -/

theorem ProcessPacket_unflagged {α : Type} (env : DecEnv α) (p_sys : decoder_sys_t)
    (p_block : block_t) (hc : p_block.i_flags.BLOCK_FLAG_CORRUPTED = false)
    (hd : p_block.i_flags.BLOCK_FLAG_DISCONTINUITY = false) :
    ProcessPacket env p_sys p_block =
      if date_Get (date_management p_sys p_block.i_pts).end_date = VLC_TICK_INVALID then
        ⟨none, date_management p_sys p_block.i_pts, false⟩
      else
        DecodePacket env (date_management p_sys p_block.i_pts) p_block.p_buffer
          (to_int32 p_block.i_nb_samples) (i_max_duration p_block) := by
  unfold ProcessPacket
  simp [hc, hd]

theorem date_management_le (p_sys : decoder_sys_t) (i_pts : Int)
    (h : i_pts = VLC_TICK_INVALID ∨ date_Get p_sys.end_date ≤ i_pts) :
    date_Get p_sys.end_date ≤ date_Get (date_management p_sys i_pts).end_date := by
  unfold date_management
  split_ifs with hc
  · simp only [date_Set, date_Get] at *
    omega
  · exact le_refl _

theorem ProcessPacket_step_le {α : Type} (env : DecEnv α) (p_sys : decoder_sys_t)
    (p_block : block_t) (hc : p_block.i_flags.BLOCK_FLAG_CORRUPTED = false)
    (hd : p_block.i_flags.BLOCK_FLAG_DISCONTINUITY = false)
    (h : p_block.i_pts = VLC_TICK_INVALID ∨ date_Get p_sys.end_date ≤ p_block.i_pts) :
    date_Get p_sys.end_date ≤ date_Get (ProcessPacket env p_sys p_block).sys.end_date ∧
    ∀ b, (ProcessPacket env p_sys p_block).out = some b →
      date_Get p_sys.end_date ≤ b.i_pts ∧
      b.i_pts ≤ date_Get (ProcessPacket env p_sys p_block).sys.end_date := by
  have hm := date_management_le p_sys p_block.i_pts h
  rw [ProcessPacket_unflagged env p_sys p_block hc hd]
  split_ifs with hv
  · exact ⟨hm, fun b hb => by simp at hb⟩
  · constructor
    · cases ho : (DecodePacket env (date_management p_sys p_block.i_pts) p_block.p_buffer
          (to_int32 p_block.i_nb_samples) (i_max_duration p_block)).out with
      | none => rw [DecodePacket_none_sys _ _ _ _ _ ho]; exact hm
      | some b =>
        have hs := DecodePacket_some _ _ _ _ _ b ho
        rw [hs.2.2.2.2.2.2.2.2.2.2.2.2.2.1]
        exact le_trans hm (date_Increment_le _ _)
    · intro b hb
      have hs := DecodePacket_some _ _ _ _ _ b hb
      rw [hs.2.2.2.2.2.2.2.2.2.1, hs.2.2.2.2.2.2.2.2.2.2.2.2.2.1]
      exact ⟨hm, date_Increment_le _ _⟩

theorem ProcessPackets_sorted {α : Type} (calls : List (DecEnv α × block_t)) :
    ∀ p_sys : decoder_sys_t, no_flush_flags calls → pts_never_behind p_sys calls →
      (∀ y ∈ (emitted_pts (ProcessPackets p_sys calls).1).head?,
        date_Get p_sys.end_date ≤ y) ∧
      List.Chain' (fun a b : Int => a ≤ b) (emitted_pts (ProcessPackets p_sys calls).1) ∧
      date_Get p_sys.end_date ≤ date_Get (ProcessPackets p_sys calls).2.end_date := by
  induction calls with
  | nil => intro p_sys _ _; simp [ProcessPackets, emitted_pts]
  | cons c rest ih =>
    intro p_sys hf hp
    obtain ⟨env, p_block⟩ := c
    have hfc := hf (env, p_block) (List.mem_cons_self _ _)
    have hfr : no_flush_flags rest := fun c hc => hf c (List.mem_cons_of_mem _ hc)
    obtain ⟨hp1, hp2⟩ := hp
    obtain ⟨hstep, hout⟩ := ProcessPacket_step_le env p_sys p_block hfc.1 hfc.2 hp1
    obtain ⟨ih1, ih2, ih3⟩ := ih (ProcessPacket env p_sys p_block).sys hfr hp2
    simp only [ProcessPackets, emitted_pts] at ih1 ih2 ih3 ⊢
    cases ho : (ProcessPacket env p_sys p_block).out with
    | none =>
      simp only [List.filterMap_cons, Option.map_none']
      exact ⟨fun y hy => le_trans hstep (ih1 y hy), ih2, le_trans hstep ih3⟩
    | some b =>
      obtain ⟨hb1, hb2⟩ := hout b ho
      simp only [List.filterMap_cons, Option.map_some', List.head?_cons, Option.mem_def,
        Option.some.injEq, forall_eq']
      refine ⟨hb1, ?_, le_trans hstep ih3⟩
      rw [List.chain'_cons']
      exact ⟨fun y hy => le_trans hb2 (ih1 y hy), ih2⟩

theorem date_Increment_exact (d : date_t) (n : Nat) (hv : d.date ≠ VLC_TICK_INVALID)
    (hn : d.i_divider_num = 48000) (hd : d.i_divider_den = 1) (hr : d.i_remainder < 48000) :
    (date_Increment d n).1.date * 48000 + (date_Increment d n).1.i_remainder
      = d.date * 48000 + d.i_remainder + 1000000 * n ∧
    (date_Increment d n).1.i_remainder < 48000 ∧
    (date_Increment d n).1.i_divider_num = 48000 ∧
    (date_Increment d n).1.i_divider_den = 1 := by
  have e1 : vlc_tick_from_samples n 1 = 1000000 * (n : Int) := by
    simp [vlc_tick_from_samples, CLOCK_FREQ]
  have e2 : Int.tdiv (1000000 * (n : Int)) 48000 = 1000000 * (n : Int) / 48000 :=
    Int.tdiv_eq_ediv (by omega) (by omega)
  have e3 : Int.tmod (1000000 * (n : Int)) 48000 = 1000000 * (n : Int) % 48000 :=
    Int.tmod_eq_emod (by omega) (by omega)
  unfold date_Increment
  simp only [hv, if_false, hn, hd, e1, Nat.cast_one, mul_one, Nat.cast_ofNat, e2, e3]
  split_ifs with h <;> dsimp only <;> omega

theorem DecodePackets_head {α : Type}
    (calls : List (DecEnv α × List Nat × Int × Int)) :
    ∀ (p_sys : decoder_sys_t) (b : aout_block_t α),
      (emitted (DecodePackets p_sys calls)).head? = some b →
      b.i_pts = date_Get p_sys.end_date := by
  induction calls with
  | nil => intro p_sys b h; simp [DecodePackets, emitted] at h
  | cons c rest ih =>
    intro p_sys b h
    obtain ⟨env, pkt, n, dur⟩ := c
    simp only [DecodePackets, emitted] at h ih
    cases ho : (DecodePacket env p_sys pkt n dur).out with
    | none =>
      rw [ho] at h
      simp only [List.filterMap_cons, id_eq] at h
      have := ih _ b h
      rwa [DecodePacket_none_sys _ _ _ _ _ ho] at this
    | some b1 =>
      rw [ho] at h
      simp only [List.filterMap_cons, id_eq, List.head?_cons, Option.some.injEq] at h
      subst h
      exact (DecodePacket_some _ _ _ _ _ _ ho).2.2.2.2.2.2.2.2.2.1

theorem samples_from_vlc_tick_eq_100 (x : Int)
    (h : samples_from_vlc_tick x 48000 = 100) : 2084 ≤ x ∧ x ≤ 2104 := by
  unfold samples_from_vlc_tick CLOCK_FREQ at h
  rcases le_or_lt 0 x with hx | hx
  · rw [Int.tdiv_eq_ediv (by omega) (by omega)] at h
    omega
  · have e : Int.tdiv (x * 48000) 1000000 = -(Int.tdiv (-(x * 48000)) 1000000) := by
      rw [Int.neg_tdiv, neg_neg]
    rw [e, Int.tdiv_eq_ediv (by omega) (by omega)] at h
    omega

theorem end_trim_hint_100 (x : Int) (h : samples_from_vlc_tick x 48000 = 100) :
    end_trim x 960 960 = 860 := by
  obtain ⟨h1, h2⟩ := samples_from_vlc_tick_eq_100 x h
  have e : vlc_tick_from_samples 960 48000 = 20000 := by decide
  unfold end_trim
  rw [e, h]
  have hc : VLC_CLIP 100 0 960 = 100 := by decide
  rw [hc, if_pos ⟨by omega, by omega, by omega⟩]
  norm_num

theorem ProcessPacket_some {α : Type} (env : DecEnv α) (p_sys : decoder_sys_t)
    (p_block : block_t) (b : aout_block_t α)
    (h : (ProcessPacket env p_sys p_block).out = some b) :
    p_block.i_flags.BLOCK_FLAG_CORRUPTED = false ∧
    ∃ s : decoder_sys_t, s.header = p_sys.header ∧
      date_Get s.end_date ≠ VLC_TICK_INVALID ∧
      (p_block.i_pts ≠ VLC_TICK_INVALID → date_Get s.end_date = p_block.i_pts) ∧
      (p_block.i_pts = VLC_TICK_INVALID →
        p_block.i_flags.BLOCK_FLAG_DISCONTINUITY = false ∧ s = p_sys) ∧
      ProcessPacket env p_sys p_block =
        DecodePacket env s p_block.p_buffer (to_int32 p_block.i_nb_samples)
          (i_max_duration p_block) := by
  unfold ProcessPacket at h ⊢
  simp only at h ⊢
  split_ifs at h ⊢
  all_goals refine ⟨by simp_all, _, ?_, ‹_›, ?_, ?_, rfl⟩
  all_goals
    simp only [date_management, Flush, date_Set, date_Get, VLC_TICK_INVALID] at *
    split_ifs at * <;> simp_all

theorem buffer_index_lt (j c N ch : Nat) (hj : j < N) (hc : c < ch) :
    j * ch + c < N * ch := by
  have h1 : (j + 1) * ch ≤ N * ch := Nat.mul_le_mul_right ch hj
  have h2 : (j + 1) * ch = j * ch + ch := by ring
  omega

theorem DecodePacket_window {α : Type} (env : DecEnv α) (p_sys : decoder_sys_t)
    (pkt : List Nat) (n : Int) (dur : Int) (b : aout_block_t α)
    (h : (DecodePacket env p_sys pkt n dur).out = some b)
    (hge : requested_samples n (packet_spp env pkt) ≤ decoded_samples env pkt)
    (k : Nat) (hk : k < b.i_nb_samples.toNat * p_sys.header.channels) :
    b.p_buffer k = manual_gain env p_sys.header.gain
      (decoded_buffer env pkt
        ((decoded_samples env pkt - requested_samples n (packet_spp env pkt)).toNat
          * p_sys.header.channels + k)) := by
  obtain ⟨-, -, -, -, -, -, -, -, -, -, -, -, hbuf, -⟩ := DecodePacket_some env p_sys pkt _ _ b h
  rw [hbuf]
  unfold apply_gain
  rw [if_pos hk]
  congr 1
  split_ifs with hgt
  · unfold memmove
    rw [if_pos hk]
  · have hz : decoded_samples env pkt - requested_samples n (packet_spp env pkt) = 0 := by
      omega
    rw [hz]
    simp

theorem DecodePacket_hint_100 {α : Type} (env : DecEnv α) (p_sys : decoder_sys_t)
    (pkt : List Nat) (n : Int) (dur : Int) (b : aout_block_t α)
    (hhint : samples_from_vlc_tick dur 48000 = 100)
    (hreq : requested_samples n (packet_spp env pkt) = 960)
    (hdec : decoded_samples env pkt = 960)
    (h : (DecodePacket env p_sys pkt n dur).out = some b) :
    b.i_nb_samples = 100 ∧ b.i_buffer = 100 * p_sys.header.channels * 4 ∧
    (∀ k, k < 100 * p_sys.header.channels →
      b.p_buffer k = manual_gain env p_sys.header.gain (decoded_buffer env pkt k)) ∧
    (env.OPUS_SET_GAIN = true ∨ p_sys.header.gain = 0 →
      ∀ k, k < 100 * p_sys.header.channels → b.p_buffer k = decoded_buffer env pkt k) := by
  have hs := DecodePacket_some env p_sys pkt _ _ b h
  obtain ⟨-, -, -, -, -, -, -, -, hcount, -, -, hbytes, -⟩ := hs
  rw [hreq, hdec, end_trim_hint_100 _ hhint] at hcount
  have hc : b.i_nb_samples = 100 := by rw [hcount]; norm_num
  have hwin : ∀ k, k < 100 * p_sys.header.channels →
      b.p_buffer k = manual_gain env p_sys.header.gain (decoded_buffer env pkt k) := by
    intro k hk
    have := DecodePacket_window env p_sys pkt n dur b h (by rw [hreq, hdec])
      k (by rw [hc]; exact hk)
    rw [this, hreq, hdec]
    simp
  refine ⟨hc, by rw [hbytes, hc]; rfl, hwin, ?_⟩
  intro hg k hk
  rw [hwin k hk]
  unfold manual_gain
  rw [if_neg]
  · rfl
  · rcases hg with hg | hg <;> simp [hg]

theorem end_trim_nonneg (dur spp n : Int) : 0 ≤ end_trim dur spp n := by
  unfold end_trim VLC_CLIP
  split_ifs with h
  · have := min_le_right (max (samples_from_vlc_tick dur 48000) 0) spp
    omega
  · exact le_refl _

theorem ProcessPacket_not_corrupted {α : Type} (env : DecEnv α) (p_sys : decoder_sys_t)
    (p_block : block_t) (hc : p_block.i_flags.BLOCK_FLAG_CORRUPTED = false) :
    ProcessPacket env p_sys p_block =
      if date_Get (synced p_sys p_block).end_date = VLC_TICK_INVALID then
        ⟨none, synced p_sys p_block, false⟩
      else
        DecodePacket env (synced p_sys p_block) p_block.p_buffer
          (to_int32 p_block.i_nb_samples) (i_max_duration p_block) := by
  unfold ProcessPacket synced
  simp [hc]

theorem ProcessPacket_corrupted {α : Type} (env : DecEnv α) (p_sys : decoder_sys_t)
    (p_block : block_t) (hc : p_block.i_flags.BLOCK_FLAG_CORRUPTED = true) :
    ProcessPacket env p_sys p_block = ⟨none, Flush p_sys, false⟩ := by
  unfold ProcessPacket
  simp [hc]

theorem Flush_date (p_sys : decoder_sys_t) :
    date_Get (Flush p_sys).end_date = VLC_TICK_INVALID := rfl

theorem synced_date (p_sys : decoder_sys_t) (p_block : block_t) :
    (p_block.i_pts ≠ VLC_TICK_INVALID →
      date_Get (synced p_sys p_block).end_date = p_block.i_pts) ∧
    (p_block.i_pts = VLC_TICK_INVALID →
      date_Get (synced p_sys p_block).end_date ≠ VLC_TICK_INVALID →
      synced p_sys p_block = p_sys) ∧
    (p_block.i_pts = VLC_TICK_INVALID →
      date_Get p_sys.end_date = VLC_TICK_INVALID →
      date_Get (synced p_sys p_block).end_date = VLC_TICK_INVALID) := by
  unfold synced date_management
  simp only [Flush, date_Set, date_Get, VLC_TICK_INVALID]
  refine ⟨?_, ?_, ?_⟩ <;> intro h <;> split_ifs <;> simp_all

theorem last_valid_pts_append (done : List block_t) (p_block : block_t) :
    last_valid_pts (done ++ [p_block]) =
      if p_block.i_pts ≠ VLC_TICK_INVALID then some p_block.i_pts
      else last_valid_pts done := by
  unfold last_valid_pts
  rw [List.filter_append]
  by_cases h : p_block.i_pts = VLC_TICK_INVALID
  · simp [h]
  · simp [h, List.filter_cons]

/-- The clock, when defined, holds the timestamp of the last block that carried
a valid one. -/
theorem ProcessPacket_keeps_last_pts {α : Type} (env : DecEnv α) (p_sys : decoder_sys_t)
    (p_block : block_t) (done : List block_t)
    (hinv : date_Get p_sys.end_date ≠ VLC_TICK_INVALID →
      last_valid_pts done = some (date_Get p_sys.end_date)) :
    ((ProcessPacket env p_sys p_block).out = none →
      date_Get (ProcessPacket env p_sys p_block).sys.end_date ≠ VLC_TICK_INVALID →
      last_valid_pts (done ++ [p_block])
        = some (date_Get (ProcessPacket env p_sys p_block).sys.end_date)) ∧
    (∀ b, (ProcessPacket env p_sys p_block).out = some b →
      last_valid_pts (done ++ [p_block]) = some b.i_pts) := by
  have key : date_Get (synced p_sys p_block).end_date ≠ VLC_TICK_INVALID →
      last_valid_pts (done ++ [p_block])
        = some (date_Get (synced p_sys p_block).end_date) := by
    intro hv
    obtain ⟨h1, h2, -⟩ := synced_date p_sys p_block
    rw [last_valid_pts_append]
    by_cases hp : p_block.i_pts = VLC_TICK_INVALID
    · have hs := h2 hp hv
      rw [hs] at hv ⊢
      rw [if_neg (by simpa using hp)]
      exact hinv hv
    · rw [if_pos hp, h1 hp]
  cases hc : p_block.i_flags.BLOCK_FLAG_CORRUPTED with
  | true =>
    rw [ProcessPacket_corrupted env p_sys p_block hc]
    exact ⟨fun _ hv => absurd (Flush_date p_sys) hv, fun b hb => by simp at hb⟩
  | false =>
    rw [ProcessPacket_not_corrupted env p_sys p_block hc]
    split_ifs with hv
    · exact ⟨fun _ hv2 => absurd hv hv2, fun b hb => by simp at hb⟩
    · constructor
      · intro hnone _
        rw [DecodePacket_none_sys _ _ _ _ _ hnone]
        exact key hv
      · intro b hb
        rw [(DecodePacket_some _ _ _ _ _ b hb).2.2.2.2.2.2.2.2.2.1]
        exact key hv

theorem ProcessPackets_keeps_last_pts {α : Type} (calls : List (DecEnv α × block_t)) :
    ∀ (p_sys : decoder_sys_t) (done : List block_t),
      (date_Get p_sys.end_date ≠ VLC_TICK_INVALID →
        last_valid_pts done = some (date_Get p_sys.end_date)) →
      (∀ o ∈ (ProcessPackets p_sys calls).1, o = none) →
      date_Get (ProcessPackets p_sys calls).2.end_date ≠ VLC_TICK_INVALID →
      last_valid_pts (done ++ calls.map (fun c => c.2))
        = some (date_Get (ProcessPackets p_sys calls).2.end_date) := by
  induction calls with
  | nil => intro p_sys done hinv _ hv; simpa [ProcessPackets] using hinv hv
  | cons c rest ih =>
    intro p_sys done hinv hnone hv
    obtain ⟨env, p_block⟩ := c
    simp only [ProcessPackets, List.mem_cons, forall_eq_or_imp] at hnone hv
    have hstep := (ProcessPacket_keeps_last_pts env p_sys p_block done hinv).1 hnone.1
    have := ih (ProcessPacket env p_sys p_block).sys (done ++ [p_block]) hstep hnone.2 hv
    simpa [ProcessPackets] using this

theorem ProcessPackets_undefined {α : Type} (calls : List (DecEnv α × block_t)) :
    ∀ (p_sys : decoder_sys_t), date_Get p_sys.end_date = VLC_TICK_INVALID →
      (∀ c ∈ calls, c.2.i_pts = VLC_TICK_INVALID) →
      ∀ o ∈ (ProcessPackets p_sys calls).1, o = none := by
  induction calls with
  | nil => intro p_sys _ _ o ho; simp [ProcessPackets] at ho
  | cons c rest ih =>
    intro p_sys hd hp o ho
    obtain ⟨env, p_block⟩ := c
    have hp0 : p_block.i_pts = VLC_TICK_INVALID := hp (env, p_block) (List.mem_cons_self _ _)
    have hpr : ∀ c ∈ rest, c.2.i_pts = VLC_TICK_INVALID :=
      fun c hc => hp c (List.mem_cons_of_mem _ hc)
    have hstep : (ProcessPacket env p_sys p_block).out = none ∧
        date_Get (ProcessPacket env p_sys p_block).sys.end_date = VLC_TICK_INVALID := by
      cases hc : p_block.i_flags.BLOCK_FLAG_CORRUPTED with
      | true =>
        rw [ProcessPacket_corrupted env p_sys p_block hc]
        exact ⟨rfl, rfl⟩
      | false =>
        rw [ProcessPacket_not_corrupted env p_sys p_block hc,
          if_pos ((synced_date p_sys p_block).2.2 hp0 hd)]
        exact ⟨rfl, (synced_date p_sys p_block).2.2 hp0 hd⟩
    simp only [ProcessPackets, List.mem_cons] at ho
    rcases ho with rfl | ho
    · exact hstep.1
    · exact ih _ hstep.2 hpr o ho

/-! ## The claims -/

/-- C1 (counterexample): two blocks without any flag, the first stamped one
second and the second stamped 500 microseconds, are both decoded; the second
buffer emitted carries a timestamp lower than the first. -/
theorem C1_counterexample :
    no_flush_flags [(env960, plain_block 1000000), (env960, plain_block 500)] ∧
    emitted_pts (ProcessPackets ready_sys
      [(env960, plain_block 1000000), (env960, plain_block 500)]).1 = [1000000, 500] ∧
    ¬ List.Chain' (fun a b : Int => a ≤ b) (emitted_pts (ProcessPackets ready_sys
      [(env960, plain_block 1000000), (env960, plain_block 500)]).1) := by
  have h : emitted_pts (ProcessPackets ready_sys
      [(env960, plain_block 1000000), (env960, plain_block 500)]).1 = [1000000, 500] := by
    decide
  refine ⟨?_, h, ?_⟩
  · intro c hc
    simp only [List.mem_cons, List.mem_singleton, List.not_mem_nil, or_false] at hc
    rcases hc with rfl | rfl <;> exact ⟨rfl, rfl⟩
  · rw [h]
    simp [List.chain'_cons]

/-- C1 (amended): across any sequence of decode calls in which no block is
flagged corrupted or discontinuous and no block carries a valid timestamp lower
than the value the clock has when the block arrives, every emitted buffer has a
timestamp greater than or equal to that of the buffer emitted before it, and
the clock ends no lower than it started. -/
theorem C1_clock_monotonic {α : Type} (p_sys : decoder_sys_t)
    (calls : List (DecEnv α × block_t)) (hf : no_flush_flags calls)
    (hp : pts_never_behind p_sys calls) :
    List.Chain' (fun a b : Int => a ≤ b) (emitted_pts (ProcessPackets p_sys calls).1) ∧
    date_Get p_sys.end_date ≤ date_Get (ProcessPackets p_sys calls).2.end_date :=
  (ProcessPackets_sorted calls p_sys hf hp).2

/-- C1 (amended), at a concrete input: three unflagged blocks, the second
without a timestamp and the third stamped where the clock stands, are emitted
at 1000000, 1020000 and 1040000. -/
theorem C1_clock_monotonic_witness :
    emitted_pts (ProcessPackets ready_sys
      [(env960, plain_block 1000000), (env960, plain_block 0),
       (env960, plain_block 1040000)]).1 = [1000000, 1020000, 1040000] ∧
    List.Chain' (fun a b : Int => a ≤ b) (emitted_pts (ProcessPackets ready_sys
      [(env960, plain_block 1000000), (env960, plain_block 0),
       (env960, plain_block 1040000)]).1) ∧
    date_Get ready_sys.end_date ≤ date_Get (ProcessPackets ready_sys
      [(env960, plain_block 1000000), (env960, plain_block 0),
       (env960, plain_block 1040000)]).2.end_date :=
  ⟨by decide,
   C1_clock_monotonic ready_sys
    [(env960, plain_block 1000000), (env960, plain_block 0), (env960, plain_block 1040000)]
    (by
      intro c hc
      simp only [List.mem_cons, List.mem_singleton, List.not_mem_nil, or_false] at hc
      rcases hc with rfl | rfl | rfl <;> exact ⟨rfl, rfl⟩)
    ⟨Or.inr (by decide), Or.inl rfl, Or.inr (by decide), trivial⟩⟩

/-- C2: every buffer that `DecodePacket` emits is stamped with the value the
sample clock had before the call; the clock is then advanced by
`date_Increment` with the emitted sample count (at least 1), which at 48 kHz
moves the exact position `date + remainder/48000` forward by exactly
`1000000 * samples / 48000` ticks; the duration of the buffer is the new clock
value minus the timestamp; and the next buffer emitted by later `DecodePacket`
calls on the same decoder is stamped with this timestamp plus this duration. -/
theorem C2_stamp_then_advance {α : Type} (env : DecEnv α) (p_sys : decoder_sys_t)
    (pkt : List Nat) (n : Int) (dur : Int) (b : aout_block_t α)
    (h : (DecodePacket env p_sys pkt n dur).out = some b) :
    b.i_pts = date_Get p_sys.end_date ∧
    0 < b.i_nb_samples ∧
    (DecodePacket env p_sys pkt n dur).sys.end_date
      = (date_Increment p_sys.end_date b.i_nb_samples.toNat).1 ∧
    (p_sys.end_date.date ≠ VLC_TICK_INVALID → p_sys.end_date.i_divider_num = 48000 →
      p_sys.end_date.i_divider_den = 1 → p_sys.end_date.i_remainder < 48000 →
      (DecodePacket env p_sys pkt n dur).sys.end_date.date * 48000
          + (DecodePacket env p_sys pkt n dur).sys.end_date.i_remainder
        = p_sys.end_date.date * 48000 + p_sys.end_date.i_remainder
          + 1000000 * b.i_nb_samples ∧
      (DecodePacket env p_sys pkt n dur).sys.end_date.i_remainder < 48000) ∧
    b.i_length = date_Get (DecodePacket env p_sys pkt n dur).sys.end_date - b.i_pts ∧
    (∀ (calls : List (DecEnv α × List Nat × Int × Int)) (b2 : aout_block_t α),
      (emitted (DecodePackets (DecodePacket env p_sys pkt n dur).sys calls)).head? = some b2 →
      b2.i_pts = b.i_pts + b.i_length) := by
  have hs := DecodePacket_some env p_sys pkt n dur b h
  obtain ⟨-, -, -, -, -, -, hn, ht, hcount, hpts, hlen, -, -, hsys, -⟩ := hs
  have hpos : 0 < b.i_nb_samples := by omega
  have hsys2 : (DecodePacket env p_sys pkt n dur).sys.end_date
      = (date_Increment p_sys.end_date b.i_nb_samples.toNat).1 := by rw [hsys]
  have hlen2 : b.i_length
      = date_Get (DecodePacket env p_sys pkt n dur).sys.end_date - b.i_pts := by
    rw [hlen, hsys2, date_Increment_snd]
  refine ⟨hpts, hpos, hsys2, ?_, hlen2, ?_⟩
  · intro hv h1 h2 h3
    have hx := date_Increment_exact p_sys.end_date b.i_nb_samples.toNat hv h1 h2 h3
    rw [hsys2]
    have hcast : ((b.i_nb_samples.toNat : Nat) : Int) = b.i_nb_samples :=
      Int.toNat_of_nonneg (le_of_lt hpos)
    rw [hcast] at hx
    exact ⟨hx.1, hx.2.1⟩
  · intro calls b2 h2
    rw [DecodePackets_head calls _ b2 h2, hlen2]
    ring

/-- C2, at a concrete input: with the clock at one second and a packet of 960
samples, the buffer is stamped 1000000 and lasts 20000 ticks, and the clock
ends at 1020000. -/
theorem C2_stamp_then_advance_witness :
    ∃ b, (DecodePacket env960 running_sys [0] 960 0).out = some b ∧
      b.i_pts = 1000000 ∧ b.i_nb_samples = 960 ∧ b.i_length = 20000 ∧
      date_Get (DecodePacket env960 running_sys [0] 960 0).sys.end_date = 1020000 :=
  ⟨_, rfl,
   (C2_stamp_then_advance env960 running_sys [0] 960 0 _ rfl).1.trans (by decide),
   by decide, by decide, by decide⟩

/-- C3: for every frame that `DecodePacket` emits, the output sample count is
`n - t`, where `n` is the sample count declared by the caller when it is not 0
and the count estimated from the packet otherwise, and `t` is
`d - clamp(samples_from_vlc_tick(hint), 0, d)` when the duration hint is
positive and strictly below the duration of `n` samples at 48 kHz (`d` being
the decoded sample count), and 0 in every other case. -/
theorem C3_output_sample_count {α : Type} (env : DecEnv α) (p_sys : decoder_sys_t)
    (pkt : List Nat) (i_nb_samples : Int) (i_duration : Int) (b : aout_block_t α)
    (h : (DecodePacket env p_sys pkt i_nb_samples i_duration).out = some b) :
    b.i_nb_samples =
      (if i_nb_samples ≠ 0 then i_nb_samples else packet_spp env pkt)
      - (if 0 < i_duration ∧ i_duration < vlc_tick_from_samples
              (if i_nb_samples ≠ 0 then i_nb_samples else packet_spp env pkt) 48000 then
           decoded_samples env pkt
             - VLC_CLIP (samples_from_vlc_tick i_duration 48000) 0 (decoded_samples env pkt)
         else 0) := by
  obtain ⟨-, -, -, -, -, hd, -, -, hcount, -⟩ := DecodePacket_some env p_sys pkt _ _ b h
  rw [hcount]
  have hn : requested_samples i_nb_samples (packet_spp env pkt)
      = (if i_nb_samples ≠ 0 then i_nb_samples else packet_spp env pkt) := by
    unfold requested_samples
    split_ifs <;> simp_all
  rw [hn]
  congr 1
  unfold end_trim
  rcases lt_or_eq_of_le hd with hpos | hzero
  · simp only [gt_iff_lt, hpos, true_and]
  · rw [← hzero]
    simp [VLC_CLIP]

/-- C3, at a concrete input: 960 samples declared and decoded with a hint of
2084 ticks give 960 - (960 - 100) = 100 samples; with no sample count declared
and no hint the 960 estimated samples are all emitted. -/
theorem C3_output_sample_count_witness :
    (∃ b, (DecodePacket env960 running_sys [0] 960 2084).out = some b ∧
      b.i_nb_samples = 960 - (960 - 100)) ∧
    (∃ b, (DecodePacket env960 running_sys [0] 0 0).out = some b ∧
      b.i_nb_samples = 960 - 0) :=
  ⟨⟨_, rfl, (C3_output_sample_count env960 running_sys [0] 960 2084 _ rfl).trans
      (by decide)⟩,
   ⟨_, rfl, by decide⟩⟩

/-- C4 (counterexample): a block that ends a sequence and whose length is the
duration of 100 samples at 48 kHz, `vlc_tick_from_samples(100, 48000)` = 2083
ticks, with 960 samples declared and decoded, yields a buffer of 99 samples. -/
theorem C4_counterexample :
    vlc_tick_from_samples 100 48000 = 2083 ∧
    decoded_samples env960 (last_block 1000000 2083).p_buffer = 960 ∧
    requested_samples (to_int32 (last_block 1000000 2083).i_nb_samples)
      (packet_spp env960 (last_block 1000000 2083).p_buffer) = 960 ∧
    ∃ b, (ProcessPacket env960 ready_sys
        (last_block 1000000 (vlc_tick_from_samples 100 48000))).out = some b ∧
      b.i_nb_samples = 99 ∧ b.i_nb_samples ≠ 100 :=
  ⟨by decide, by decide, by decide, _, rfl, by decide, by decide⟩

/-- C4 (amended): when a block ends a sequence with a duration hint that
`samples_from_vlc_tick` converts to exactly 100 samples at 48 kHz (a hint of
2084 to 2104 ticks) and the decoded and the requested frame both have 960
samples, the emitted buffer holds exactly 100 samples. -/
theorem C4_hint_converting_to_100 {α : Type} (env : DecEnv α) (p_sys : decoder_sys_t)
    (p_block : block_t) (b : aout_block_t α)
    (heos : p_block.i_flags.BLOCK_FLAG_END_OF_SEQUENCE = true)
    (hhint : samples_from_vlc_tick p_block.i_length 48000 = 100)
    (hreq : requested_samples (to_int32 p_block.i_nb_samples)
      (packet_spp env p_block.p_buffer) = 960)
    (hdec : decoded_samples env p_block.p_buffer = 960)
    (h : (ProcessPacket env p_sys p_block).out = some b) :
    b.i_nb_samples = 100 ∧ 2084 ≤ p_block.i_length ∧ p_block.i_length ≤ 2104 := by
  obtain ⟨-, s, -, -, -, -, heq⟩ := ProcessPacket_some env p_sys p_block b h
  rw [heq] at h
  obtain ⟨-, -, -, -, -, -, -, -, hcount, -⟩ := DecodePacket_some env s _ _ _ b h
  have hd : i_max_duration p_block = p_block.i_length := by
    simp [i_max_duration, heos]
  rw [hcount, hreq, hdec, hd, end_trim_hint_100 _ hhint]
  exact ⟨by norm_num, samples_from_vlc_tick_eq_100 _ hhint⟩

/-- C4 (amended), at a concrete input: a hint of 2084 ticks on a frame of 960
samples gives a buffer of 100 samples. -/
theorem C4_hint_converting_to_100_witness :
    samples_from_vlc_tick (last_block 1000000 2084).i_length 48000 = 100 ∧
    ∃ b, (ProcessPacket env960 ready_sys (last_block 1000000 2084)).out = some b ∧
      b.i_nb_samples = 100 :=
  ⟨by decide, _, rfl,
   (C4_hint_converting_to_100 env960 ready_sys (last_block 1000000 2084) _ rfl
      (by decide) (by decide) (by decide) rfl).1⟩

/-- C5 (counterexample): in the end-trim scenario (a hint converting to 100
samples, 960 samples decoded, float `k` of the decode buffer holding the value
`k`) the 100 samples emitted are floats 0 to 99 of the decode buffer, the head;
none of them is the float 860 places further, which the tail would hold. -/
theorem C5_counterexample :
    decoded_samples env960 (last_block 1000000 2084).p_buffer = 960 ∧
    ∃ b, (ProcessPacket env960 ready_sys (last_block 1000000 2084)).out = some b ∧
      b.i_nb_samples = 100 ∧ b.i_buffer = 100 * 4 ∧
      (∀ k, k < 100 →
        b.p_buffer k = decoded_buffer env960 (last_block 1000000 2084).p_buffer k) ∧
      (∀ k, k < 100 →
        b.p_buffer k ≠ decoded_buffer env960 (last_block 1000000 2084).p_buffer (860 + k)) := by
  obtain ⟨b, hb⟩ : ∃ b, (ProcessPacket env960 ready_sys
      (last_block 1000000 2084)).out = some b := ⟨_, rfl⟩
  refine ⟨by decide, b, hb, ?_⟩
  obtain ⟨-, s, hhdr, -, -, -, heq⟩ := ProcessPacket_some env960 ready_sys _ b hb
  rw [heq] at hb
  obtain ⟨h1, h2, -, h4⟩ := DecodePacket_hint_100 env960 s _ _ _ b
    (by decide) (by decide) (by decide) hb
  have hch : s.header.channels = 1 := by rw [hhdr]; rfl
  rw [hch] at h2 h4
  refine ⟨h1, h2, fun k hk => h4 (Or.inl rfl) k (by omega), fun k hk => ?_⟩
  rw [h4 (Or.inl rfl) k (by omega)]
  simp only [decoded_buffer, env960]
  omega

/-- C5 (amended): in the end-trim scenario (a hint converting to 100 samples,
960 samples requested and decoded) the emitted samples are the head of the
decode buffer: the buffer declares 100 samples, its floats are the first
`100 * channels` floats of the decode buffer in place (each passed through the
manual gain, which is the identity when libopus applies the gain or the gain
is 0), and the last 860 decoded samples are discarded. -/
theorem C5_head_retained {α : Type} (env : DecEnv α) (p_sys : decoder_sys_t)
    (pkt : List Nat) (n : Int) (dur : Int) (b : aout_block_t α)
    (hhint : samples_from_vlc_tick dur 48000 = 100)
    (hreq : requested_samples n (packet_spp env pkt) = 960)
    (hdec : decoded_samples env pkt = 960)
    (h : (DecodePacket env p_sys pkt n dur).out = some b) :
    b.i_nb_samples = 100 ∧ b.i_buffer = 100 * p_sys.header.channels * 4 ∧
    (∀ k, k < 100 * p_sys.header.channels →
      b.p_buffer k = manual_gain env p_sys.header.gain (decoded_buffer env pkt k)) ∧
    (env.OPUS_SET_GAIN = true ∨ p_sys.header.gain = 0 →
      ∀ k, k < 100 * p_sys.header.channels → b.p_buffer k = decoded_buffer env pkt k) :=
  DecodePacket_hint_100 env p_sys pkt n dur b hhint hreq hdec h

/-- C5 (amended), at a concrete input: with a hint of 2084 ticks the buffer
holds floats 0 to 99 of the decode buffer. -/
theorem C5_head_retained_witness :
    ∃ b, (DecodePacket env960 running_sys [0] 960 2084).out = some b ∧
      b.i_nb_samples = 100 ∧ b.p_buffer 0 = 0 ∧ b.p_buffer 99 = 99 :=
  ⟨_, rfl,
   (C5_head_retained env960 running_sys [0] 960 2084 _ (by decide) (by decide)
      (by decide) rfl).1,
   by decide, by decide⟩

/-- C6: for every emitted frame in which the codec decoded `d` samples with
`d` at least the requested count `n`, and with end-trim `t`, the buffer holds
`n - t` samples and output sample `j` of every channel `c` is decoded sample
`(d - n) + j` of that channel, for every `j < n - t` (passed through the manual
gain, which is the identity when libopus applies the gain or the gain is 0):
the retained window starts `d - n` samples into the decode buffer and stops
`t` samples before its end. -/
theorem C6_window_shift {α : Type} (env : DecEnv α) (p_sys : decoder_sys_t)
    (pkt : List Nat) (n : Int) (dur : Int) (b : aout_block_t α)
    (h : (DecodePacket env p_sys pkt n dur).out = some b)
    (hge : requested_samples n (packet_spp env pkt) ≤ decoded_samples env pkt) :
    b.i_nb_samples = requested_samples n (packet_spp env pkt)
      - end_trim dur (decoded_samples env pkt) (requested_samples n (packet_spp env pkt)) ∧
    (∀ j c : Nat, (j : Int) < b.i_nb_samples → c < p_sys.header.channels →
      b.p_buffer (j * p_sys.header.channels + c)
        = manual_gain env p_sys.header.gain (decoded_buffer env pkt
            (((decoded_samples env pkt - requested_samples n (packet_spp env pkt)).toNat + j)
              * p_sys.header.channels + c))) ∧
    (env.OPUS_SET_GAIN = true ∨ p_sys.header.gain = 0 →
      ∀ j c : Nat, (j : Int) < b.i_nb_samples → c < p_sys.header.channels →
        b.p_buffer (j * p_sys.header.channels + c)
          = decoded_buffer env pkt
            (((decoded_samples env pkt - requested_samples n (packet_spp env pkt)).toNat + j)
              * p_sys.header.channels + c)) ∧
    (decoded_samples env pkt - requested_samples n (packet_spp env pkt)) + b.i_nb_samples
      = decoded_samples env pkt
        - end_trim dur (decoded_samples env pkt) (requested_samples n (packet_spp env pkt)) := by
  have hs := DecodePacket_some env p_sys pkt _ _ b h
  obtain ⟨-, -, -, -, -, -, -, -, hcount, -⟩ := hs
  have hwin : ∀ j c : Nat, (j : Int) < b.i_nb_samples → c < p_sys.header.channels →
      b.p_buffer (j * p_sys.header.channels + c)
        = manual_gain env p_sys.header.gain (decoded_buffer env pkt
            (((decoded_samples env pkt - requested_samples n (packet_spp env pkt)).toNat + j)
              * p_sys.header.channels + c)) := by
    intro j c hj hc
    have hj2 : j < b.i_nb_samples.toNat := by omega
    rw [DecodePacket_window env p_sys pkt n dur b h hge _
      (buffer_index_lt j c _ _ hj2 hc)]
    congr 2
    ring
  refine ⟨hcount, hwin, ?_, by omega⟩
  intro hg j c hj hc
  rw [hwin j c hj hc]
  unfold manual_gain
  rw [if_neg]
  · rfl
  · rcases hg with hg | hg <;> simp [hg]

/-- C6, at a concrete input: 960 samples decoded for 480 requested; the buffer
holds 480 samples and starts at decoded sample 480. -/
theorem C6_window_shift_witness :
    requested_samples 480 (packet_spp env960 [0]) ≤ decoded_samples env960 [0] ∧
    ∃ b, (DecodePacket env960 running_sys [0] 480 0).out = some b ∧
      b.i_nb_samples = 480 ∧
      b.p_buffer (0 * 1 + 0) = decoded_buffer env960 [0] ((480 + 0) * 1 + 0) ∧
      b.p_buffer (479 * 1 + 0) = decoded_buffer env960 [0] ((480 + 479) * 1 + 0) :=
  ⟨by decide, _, rfl,
   (C6_window_shift env960 running_sys [0] 480 0 _ rfl (by decide)).1.trans (by decide),
   by decide, by decide⟩

/-- C7: whenever the end-trim count computed for a packet is greater than or
equal to the requested sample count, `DecodePacket` emits no buffer and leaves
the decoder state, the sample clock included, unchanged; and every buffer it
does emit holds at least 1 sample and at most the requested sample count. -/
theorem C7_over_trim_drops {α : Type} (env : DecEnv α) (p_sys : decoder_sys_t)
    (pkt : List Nat) (n : Int) (dur : Int) :
    (requested_samples n (packet_spp env pkt)
        ≤ end_trim dur (decoded_samples env pkt) (requested_samples n (packet_spp env pkt)) →
      (DecodePacket env p_sys pkt n dur).out = none ∧
      (DecodePacket env p_sys pkt n dur).sys = p_sys) ∧
    (∀ b, (DecodePacket env p_sys pkt n dur).out = some b →
      1 ≤ b.i_nb_samples ∧ b.i_nb_samples ≤ requested_samples n (packet_spp env pkt)) := by
  constructor
  · intro hover
    cases ho : (DecodePacket env p_sys pkt n dur).out with
    | none => exact ⟨rfl, DecodePacket_none_sys _ _ _ _ _ ho⟩
    | some b =>
      have := (DecodePacket_some _ _ _ _ _ b ho).2.2.2.2.2.2.2.1
      omega
  · intro b hb
    obtain ⟨-, -, -, -, -, -, -, ht, hcount, -⟩ := DecodePacket_some _ _ _ _ _ b hb
    have := end_trim_nonneg dur (decoded_samples env pkt)
      (requested_samples n (packet_spp env pkt))
    omega

/-- C7, at a concrete input: a hint of one tick on a frame of 960 samples asks
to trim all 960 samples; nothing is emitted and the clock stays at one
second. -/
theorem C7_over_trim_drops_witness :
    end_trim 1 (decoded_samples env960 [0]) (requested_samples 960 (packet_spp env960 [0]))
      = 960 ∧
    (DecodePacket env960 running_sys [0] 960 1).out = none ∧
    (DecodePacket env960 running_sys [0] 960 1).sys = running_sys :=
  ⟨by decide, (C7_over_trim_drops env960 running_sys [0] 960 1).1 (by decide)⟩

/-- C8: a packet whose estimated sample count is below 120 or above 5760
produces no output, does not reach the codec decoder and leaves the decoder
state, the sample clock included, unchanged; a non-empty packet whose estimate
lies in [120, 5760] is not rejected: the codec decoder is called as soon as the
host accepts the format and provides a buffer.  The estimate of lines 557-558
is outside [120, 5760] exactly when the frame count times the samples per
frame is, the samples per frame being positive. -/
theorem C8_frame_size_envelope {α : Type} (env : DecEnv α) (p_sys : decoder_sys_t)
    (pkt : List Nat) (n : Int) (dur : Int) :
    (0 < env.opus_packet_get_samples_per_frame pkt →
      ((env.opus_packet_get_nb_frames pkt * env.opus_packet_get_samples_per_frame pkt < 120
          ∨ 5760 < env.opus_packet_get_nb_frames pkt
              * env.opus_packet_get_samples_per_frame pkt)
        ↔ (packet_spp env pkt < 120 ∨ 5760 < packet_spp env pkt))) ∧
    (packet_spp env pkt < 120 ∨ 5760 < packet_spp env pkt →
      (DecodePacket env p_sys pkt n dur).out = none ∧
      (DecodePacket env p_sys pkt n dur).decoded = false ∧
      (DecodePacket env p_sys pkt n dur).sys = p_sys) ∧
    (pkt.length ≠ 0 → 120 ≤ packet_spp env pkt → packet_spp env pkt ≤ 5760 →
      env.decoder_UpdateAudioFormat = 0 → env.decoder_NewAudioBuffer = true →
      (DecodePacket env p_sys pkt n dur).decoded = true) := by
  refine ⟨?_, ?_, ?_⟩
  · intro hspf
    simp only [packet_spp]
    split_ifs with hnb
    · exact Iff.rfl
    · have hprod : env.opus_packet_get_nb_frames pkt
          * env.opus_packet_get_samples_per_frame pkt ≤ 0 :=
        mul_nonpos_of_nonpos_of_nonneg (by omega) (le_of_lt hspf)
      constructor <;> intro _ <;> left <;> omega
  · intro h
    have h2 : packet_spp env pkt < 120 ∨ packet_spp env pkt > 120 * 48 := by omega
    unfold DecodePacket
    simp only
    split_ifs <;> simp_all
  · intro h1 h2 h3 h4 h5
    have h6 : ¬ (packet_spp env pkt < 120 ∨ packet_spp env pkt > 120 * 48) := by omega
    unfold DecodePacket
    simp only
    rw [if_neg h1, if_neg h6, if_neg (by simpa using h4), if_neg (by simpa using h5)]
    split_ifs <;> rfl

/-- C8, at a concrete input: a packet of 3 frames of 2880 samples, 8640 in
all, is dropped without decoding; a packet of 960 samples is decoded. -/
theorem C8_frame_size_envelope_witness :
    packet_spp env8640 [0] = 8640 ∧
    (DecodePacket env8640 running_sys [0] 0 0).out = none ∧
    (DecodePacket env8640 running_sys [0] 0 0).decoded = false ∧
    (DecodePacket env8640 running_sys [0] 0 0).sys = running_sys ∧
    (DecodePacket env960 running_sys [0] 0 0).decoded = true :=
  ⟨by decide,
   ((C8_frame_size_envelope env8640 running_sys [0] 0 0).2.1 (Or.inr (by decide))).1,
   ((C8_frame_size_envelope env8640 running_sys [0] 0 0).2.1 (Or.inr (by decide))).2.1,
   ((C8_frame_size_envelope env8640 running_sys [0] 0 0).2.1 (Or.inr (by decide))).2.2,
   (C8_frame_size_envelope env960 running_sys [0] 0 0).2.2 (by decide) (by decide)
     (by decide) rfl rfl⟩

/-- C9: for every input block flagged as corrupted, whatever its timestamp,
`ProcessPacket` returns no output, does not invoke the codec decoder, and
leaves the decoder flushed: the sample clock is undefined after the call. -/
theorem C9_corrupted_block_dropped {α : Type} (env : DecEnv α) (p_sys : decoder_sys_t)
    (p_block : block_t) (hc : p_block.i_flags.BLOCK_FLAG_CORRUPTED = true) :
    (ProcessPacket env p_sys p_block).out = none ∧
    (ProcessPacket env p_sys p_block).decoded = false ∧
    (ProcessPacket env p_sys p_block).sys = Flush p_sys ∧
    date_Get (ProcessPacket env p_sys p_block).sys.end_date = VLC_TICK_INVALID := by
  rw [ProcessPacket_corrupted env p_sys p_block hc]
  exact ⟨rfl, rfl, rfl, rfl⟩

/-- C9, at a concrete input: a corrupted block stamped two seconds, sent to a
decoder whose clock is at one second, leaves the clock undefined. -/
theorem C9_corrupted_block_dropped_witness :
    (corrupted_block 2000000).i_pts ≠ VLC_TICK_INVALID ∧
    date_Get running_sys.end_date = 1000000 ∧
    (ProcessPacket env960 running_sys (corrupted_block 2000000)).out = none ∧
    (ProcessPacket env960 running_sys (corrupted_block 2000000)).decoded = false ∧
    (ProcessPacket env960 running_sys (corrupted_block 2000000)).sys = Flush running_sys ∧
    date_Get (ProcessPacket env960 running_sys (corrupted_block 2000000)).sys.end_date
      = VLC_TICK_INVALID :=
  ⟨by decide, by decide, C9_corrupted_block_dropped env960 running_sys _ rfl⟩

/-- C10: after a `Flush`, as long as only blocks without a valid timestamp
arrive nothing is emitted; the first buffer emitted afterwards is stamped with
the timestamp of the last block that carried a valid one (the emitting block
itself when it carries one), whatever the clock held before the flush; and a
block flagged as a discontinuity is processed exactly as if a `Flush` had come
just before it. -/
theorem C10_first_buffer_after_flush {α : Type} (p_sys : decoder_sys_t) :
    (∀ calls : List (DecEnv α × block_t),
      (∀ c ∈ calls, c.2.i_pts = VLC_TICK_INVALID) →
      ∀ o ∈ (ProcessPackets (Flush p_sys) calls).1, o = none) ∧
    (∀ (calls : List (DecEnv α × block_t)) (env : DecEnv α) (p_block : block_t)
        (b : aout_block_t α),
      (∀ o ∈ (ProcessPackets (Flush p_sys) calls).1, o = none) →
      (ProcessPacket env (ProcessPackets (Flush p_sys) calls).2 p_block).out = some b →
      last_valid_pts (calls.map (fun c => c.2) ++ [p_block]) = some b.i_pts ∧
      (p_block.i_pts ≠ VLC_TICK_INVALID → b.i_pts = p_block.i_pts)) ∧
    (∀ (env : DecEnv α) (p_block : block_t),
      p_block.i_flags.BLOCK_FLAG_DISCONTINUITY = true →
      ProcessPacket env p_sys p_block = ProcessPacket env (Flush p_sys) p_block) := by
  refine ⟨?_, ?_, ?_⟩
  · intro calls hp
    exact ProcessPackets_undefined calls (Flush p_sys) (Flush_date p_sys) hp
  · intro calls env p_block b hnone hb
    have hinv := ProcessPackets_keeps_last_pts calls (Flush p_sys) []
      (fun hv => absurd (Flush_date p_sys) hv) hnone
    rw [List.nil_append] at hinv
    have hlast := (ProcessPacket_keeps_last_pts env _ p_block _ hinv).2 b hb
    refine ⟨hlast, fun hp => ?_⟩
    rw [last_valid_pts_append, if_pos hp] at hlast
    exact (Option.some.inj hlast).symm
  · intro env p_block hd
    unfold ProcessPacket
    simp [hd, Flush, date_Set]

/-- C10, at a concrete input: a decoder whose clock stood at one second is
flushed; two blocks without timestamp are dropped and the block stamped three
seconds is emitted at three seconds. -/
theorem C10_first_buffer_after_flush_witness :
    (ProcessPackets (Flush running_sys)
      [(env960, plain_block 0), (env960, plain_block 0)]).1 = [none, none] ∧
    ∃ b, (ProcessPacket env960 (ProcessPackets (Flush running_sys)
        [(env960, plain_block 0), (env960, plain_block 0)]).2
        (plain_block 3000000)).out = some b ∧
      b.i_pts = 3000000 :=
  ⟨by
    have h := (C10_first_buffer_after_flush running_sys).1
      [(env960, plain_block 0), (env960, plain_block 0)] (by
        intro c hc
        simp only [List.mem_cons, List.mem_singleton, List.not_mem_nil, or_false] at hc
        rcases hc with rfl | rfl <;> rfl)
    simp only [ProcessPackets] at h ⊢
    simp only [List.mem_cons, List.not_mem_nil, or_false, forall_eq_or_imp, forall_eq] at h
    rw [h.1, h.2],
   _, rfl,
   ((C10_first_buffer_after_flush running_sys).2.1
      [(env960, plain_block 0), (env960, plain_block 0)] env960 (plain_block 3000000) _
      (by
        intro o ho
        have h := (C10_first_buffer_after_flush running_sys).1
          [(env960, plain_block 0), (env960, plain_block 0)] (by
            intro c hc
            simp only [List.mem_cons, List.mem_singleton, List.not_mem_nil, or_false] at hc
            rcases hc with rfl | rfl <;> rfl)
        exact h o ho)
      rfl).2 (by decide)⟩

/-! ## Header validation and decoder construction -/

theorem floor_sqrt_spec (n : Nat) :
    floor_sqrt n * floor_sqrt n ≤ n ∧ n < (floor_sqrt n + 1) * (floor_sqrt n + 1) := by
  unfold floor_sqrt
  have h1 : Nat.findGreatest (fun k => k * k ≤ n) n * Nat.findGreatest (fun k => k * k ≤ n) n
      ≤ n :=
    Nat.findGreatest_spec (P := fun k => k * k ≤ n) (Nat.zero_le n) (by simp)
  refine ⟨h1, ?_⟩
  have hle := Nat.findGreatest_le (P := fun k => k * k ≤ n) n
  by_cases hk : Nat.findGreatest (fun k => k * k ≤ n) n + 1 ≤ n
  · have := Nat.findGreatest_is_greatest (P := fun k => k * k ≤ n)
      (Nat.lt_succ_self _) hk
    simpa using this
  · have he : Nat.findGreatest (fun k => k * k ≤ n) n = n := by omega
    rw [he]
    nlinarith

theorem ProcessInitialHeader_parse_failed (env : HeaderEnv) (p_dec : decoder_t)
    (pkt : List Nat) (h : (env.opus_header_parse pkt p_dec.p_sys.header).1 = 0) :
    (ProcessInitialHeader env p_dec pkt).ret = vlc_status.VLC_EGENERIC ∧
    (ProcessInitialHeader env p_dec pkt).created = false := by
  unfold ProcessInitialHeader
  simp [h]

theorem ProcessInitialHeader_unsupported (env : HeaderEnv) (p_dec : decoder_t)
    (pkt : List Nat) (hparse : (env.opus_header_parse pkt p_dec.p_sys.header).1 ≠ 0)
    (h : unsupported_channel_mapping (env.opus_header_parse pkt p_dec.p_sys.header).2) :
    ProcessInitialHeader env p_dec pkt =
      ⟨vlc_status.VLC_EGENERIC,
       { p_dec with p_sys := { p_dec.p_sys with
           header := (env.opus_header_parse pkt p_dec.p_sys.header).2 } },
       true, false⟩ := by
  unfold ProcessInitialHeader
  simp only [if_neg hparse, if_pos h]

theorem ProcessInitialHeader_created (env : HeaderEnv) (p_dec : decoder_t)
    (pkt : List Nat) (hparse : (env.opus_header_parse pkt p_dec.p_sys.header).1 ≠ 0)
    (h : ¬ unsupported_channel_mapping (env.opus_header_parse pkt p_dec.p_sys.header).2) :
    ((ProcessInitialHeader env p_dec pkt).created = true ↔
      ¬ ((env.opus_header_parse pkt p_dec.p_sys.header).2.channel_mapping ≥ 2 ∧
        (i_nondiegetic (env.opus_header_parse pkt p_dec.p_sys.header).2 ≠ 0 ∧
         i_nondiegetic (env.opus_header_parse pkt p_dec.p_sys.header).2 ≠ 2))) ∧
    ((env.opus_header_parse pkt p_dec.p_sys.header).2.channel_mapping ≥ 2 ∧
        (i_nondiegetic (env.opus_header_parse pkt p_dec.p_sys.header).2 ≠ 0 ∧
         i_nondiegetic (env.opus_header_parse pkt p_dec.p_sys.header).2 ≠ 2) →
      (ProcessInitialHeader env p_dec pkt).ret = vlc_status.VLC_EGENERIC) := by
  unfold ProcessInitialHeader
  simp only [if_neg hparse, if_neg h]
  by_cases ha : (env.opus_header_parse pkt p_dec.p_sys.header).2.channel_mapping ≥ 2 ∧
        (i_nondiegetic (env.opus_header_parse pkt p_dec.p_sys.header).2 ≠ 0 ∧
         i_nondiegetic (env.opus_header_parse pkt p_dec.p_sys.header).2 ≠ 2)
  · simp only [if_pos ha]
    simp [ha]
  · simp only [if_neg ha]
    refine ⟨?_, fun h => absurd h ha⟩
    simp only [ha, not_false_eq_true, iff_true]
    split_ifs <;> rfl

/-! ## The claims on headers -/

/-- C11: for every header that `opus_header_parse` accepts, `ProcessInitialHeader`
returns an error, does not call `DecoderCreate` and leaves both decoder handles
as they were whenever the channel count exceeds the limit of the mapping
family: more than 2 channels with family 0, more than 8 with family 1, or more
than 18 with family 2 or 3. -/
theorem C11_channel_limit_rejected (env : HeaderEnv) (p_dec : decoder_t) (pkt : List Nat)
    (hparse : (env.opus_header_parse pkt p_dec.p_sys.header).1 ≠ 0)
    (hlimit :
      ((env.opus_header_parse pkt p_dec.p_sys.header).2.channel_mapping = 0 ∧
        2 < (env.opus_header_parse pkt p_dec.p_sys.header).2.channels) ∨
      ((env.opus_header_parse pkt p_dec.p_sys.header).2.channel_mapping = 1 ∧
        8 < (env.opus_header_parse pkt p_dec.p_sys.header).2.channels) ∨
      (((env.opus_header_parse pkt p_dec.p_sys.header).2.channel_mapping = 2 ∨
         (env.opus_header_parse pkt p_dec.p_sys.header).2.channel_mapping = 3) ∧
        18 < (env.opus_header_parse pkt p_dec.p_sys.header).2.channels)) :
    (ProcessInitialHeader env p_dec pkt).ret = vlc_status.VLC_EGENERIC ∧
    (ProcessInitialHeader env p_dec pkt).created = false ∧
    (ProcessInitialHeader env p_dec pkt).dec.p_sys.p_st = p_dec.p_sys.p_st ∧
    (ProcessInitialHeader env p_dec pkt).dec.p_sys.p_pr = p_dec.p_sys.p_pr := by
  have hu : unsupported_channel_mapping (env.opus_header_parse pkt p_dec.p_sys.header).2 := by
    unfold unsupported_channel_mapping
    omega
  rw [ProcessInitialHeader_unsupported env p_dec pkt hparse hu]
  exact ⟨rfl, rfl, rfl, rfl⟩

/-- C11, at a concrete input: a header with 3 channels and mapping family 0 is
rejected and no decoder is created. -/
theorem C11_channel_limit_rejected_witness :
    (ProcessInitialHeader henv_ok (opened_dec []) (header_bytes 3 0 1 2 [])).ret
      = vlc_status.VLC_EGENERIC ∧
    (ProcessInitialHeader henv_ok (opened_dec []) (header_bytes 3 0 1 2 [])).created = false ∧
    (ProcessInitialHeader henv_ok (opened_dec []) (header_bytes 3 0 1 2 [])).dec.p_sys.p_st
      = none ∧
    (ProcessInitialHeader henv_ok (opened_dec []) (header_bytes 3 0 1 2 [])).dec.p_sys.p_pr
      = none :=
  C11_channel_limit_rejected henv_ok (opened_dec []) (header_bytes 3 0 1 2 [])
    (by decide) (Or.inl (by decide))

/-- C12: for every header that `opus_header_parse` accepts, with mapping
family at least 2, that passes the channel-limit check, let `N` be
`floor(sqrt(channels))`, the largest integer with `N * N ≤ channels`; the
validation of `ProcessInitialHeader` lets the header through to `DecoderCreate`
if and only if `channels - N * N` is 0 or 2, and for any other remainder
`ProcessInitialHeader` returns an error. -/
theorem C12_ambisonic_remainder (env : HeaderEnv) (p_dec : decoder_t) (pkt : List Nat)
    (hparse : (env.opus_header_parse pkt p_dec.p_sys.header).1 ≠ 0)
    (hfam : 2 ≤ (env.opus_header_parse pkt p_dec.p_sys.header).2.channel_mapping)
    (hlimit : ¬ (18 < (env.opus_header_parse pkt p_dec.p_sys.header).2.channels ∧
      ((env.opus_header_parse pkt p_dec.p_sys.header).2.channel_mapping = 2 ∨
       (env.opus_header_parse pkt p_dec.p_sys.header).2.channel_mapping = 3))) :
    floor_sqrt (env.opus_header_parse pkt p_dec.p_sys.header).2.channels
        * floor_sqrt (env.opus_header_parse pkt p_dec.p_sys.header).2.channels
      ≤ (env.opus_header_parse pkt p_dec.p_sys.header).2.channels ∧
    (env.opus_header_parse pkt p_dec.p_sys.header).2.channels
      < (floor_sqrt (env.opus_header_parse pkt p_dec.p_sys.header).2.channels + 1)
        * (floor_sqrt (env.opus_header_parse pkt p_dec.p_sys.header).2.channels + 1) ∧
    ((ProcessInitialHeader env p_dec pkt).created = true ↔
      ((env.opus_header_parse pkt p_dec.p_sys.header).2.channels
          - floor_sqrt (env.opus_header_parse pkt p_dec.p_sys.header).2.channels
            * floor_sqrt (env.opus_header_parse pkt p_dec.p_sys.header).2.channels = 0 ∨
       (env.opus_header_parse pkt p_dec.p_sys.header).2.channels
          - floor_sqrt (env.opus_header_parse pkt p_dec.p_sys.header).2.channels
            * floor_sqrt (env.opus_header_parse pkt p_dec.p_sys.header).2.channels = 2)) ∧
    (¬ ((env.opus_header_parse pkt p_dec.p_sys.header).2.channels
          - floor_sqrt (env.opus_header_parse pkt p_dec.p_sys.header).2.channels
            * floor_sqrt (env.opus_header_parse pkt p_dec.p_sys.header).2.channels = 0 ∨
       (env.opus_header_parse pkt p_dec.p_sys.header).2.channels
          - floor_sqrt (env.opus_header_parse pkt p_dec.p_sys.header).2.channels
            * floor_sqrt (env.opus_header_parse pkt p_dec.p_sys.header).2.channels = 2) →
      (ProcessInitialHeader env p_dec pkt).ret = vlc_status.VLC_EGENERIC ∧
      (ProcessInitialHeader env p_dec pkt).created = false) := by
  have hu : ¬ unsupported_channel_mapping
      (env.opus_header_parse pkt p_dec.p_sys.header).2 := by
    unfold unsupported_channel_mapping
    omega
  obtain ⟨hc, hr⟩ := ProcessInitialHeader_created env p_dec pkt hparse hu
  obtain ⟨hs1, hs2⟩ := floor_sqrt_spec (env.opus_header_parse pkt p_dec.p_sys.header).2.channels
  unfold i_nondiegetic at hc hr
  refine ⟨hs1, hs2, ?_, ?_⟩
  · rw [hc]
    constructor
    · intro h
      by_contra hn
      exact h ⟨hfam, by omega, by omega⟩
    · rintro h ⟨-, h0, h2⟩
      omega
  · intro hn
    have hret := hr ⟨hfam, by omega, by omega⟩
    refine ⟨hret, ?_⟩
    by_contra hcr
    have : (ProcessInitialHeader env p_dec pkt).created = true := by
      simpa using hcr
    exact (hc.mp this) ⟨hfam, by omega, by omega⟩

/-- C12, at a concrete input: with mapping family 2, 6 channels (4 + 2) reach
`DecoderCreate` and 5 channels (4 + 1) are rejected. -/
theorem C12_ambisonic_remainder_witness :
    (ProcessInitialHeader henv_ok (opened_dec [])
      (header_bytes 6 2 4 2 [0, 1, 2, 3, 4, 5])).created = true ∧
    (ProcessInitialHeader henv_ok (opened_dec [])
      (header_bytes 5 2 4 1 [0, 1, 2, 3, 4])).ret = vlc_status.VLC_EGENERIC :=
  ⟨(C12_ambisonic_remainder henv_ok (opened_dec [])
      (header_bytes 6 2 4 2 [0, 1, 2, 3, 4, 5]) (by decide) (by decide)
      (by decide)).2.2.1.mpr (Or.inr (by decide)),
   ((C12_ambisonic_remainder henv_ok (opened_dec [])
      (header_bytes 5 2 4 1 [0, 1, 2, 3, 4]) (by decide) (by decide)
      (by decide)).2.2.2 (by decide)).1⟩

theorem getD_set_self (l : List Nat) (k v : Nat) (hk : k < l.length) :
    (l.set k v).getD k 0 = v := by
  simp [List.getD_eq_getElem?_getD, List.getElem?_set, hk]

theorem getD_set_other (l : List Nat) (k j v : Nat) (hk : k ≠ j) :
    (l.set k v).getD j 0 = l.getD j 0 := by
  simp [List.getD_eq_getElem?_getD, List.getElem?_set, hk]

theorem new_stream_map_succ (init t s : List Nat) (c : Nat) :
    new_stream_map init t s (c + 1)
      = (new_stream_map init t s c).set (t.getD c 0) (s.getD c 0) := by
  unfold new_stream_map
  rw [List.range_succ, List.foldl_append]
  rfl

theorem new_stream_map_length (init t s : List Nat) (c : Nat) :
    (new_stream_map init t s c).length = init.length := by
  induction c with
  | zero => rfl
  | succ c ih => rw [new_stream_map_succ, List.length_set, ih]

theorem new_stream_map_getD (init t s : List Nat) (c : Nat)
    (hrange : ∀ i, i < c → t.getD i 0 < init.length)
    (hinj : ∀ i j, i < c → j < c → t.getD i 0 = t.getD j 0 → i = j) :
    ∀ i, i < c → (new_stream_map init t s c).getD (t.getD i 0) 0 = s.getD i 0 := by
  induction c with
  | zero => intro i hi; omega
  | succ c ih =>
    intro i hi
    rw [new_stream_map_succ]
    rcases Nat.lt_succ_iff_lt_or_eq.mp hi with hlt | heq
    · have hne : t.getD c 0 ≠ t.getD i 0 := by
        intro he
        have := hinj c i (Nat.lt_succ_self c) hi he
        omega
      rw [getD_set_other _ _ _ _ hne]
      exact ih (fun k hk => hrange k (Nat.lt_succ_of_lt hk))
        (fun a b ha hb => hinj a b (Nat.lt_succ_of_lt ha) (Nat.lt_succ_of_lt hb)) i hlt
    · subst heq
      apply getD_set_self
      rw [new_stream_map_length]
      exact hrange i hi

theorem table_onto (t : List Nat) (c : Nat) (hrange : ∀ i, i < c → t.getD i 0 < c)
    (hinj : ∀ i j, i < c → j < c → t.getD i 0 = t.getD j 0 → i = j) :
    ∀ j, j < c → ∃ i, i < c ∧ t.getD i 0 = j := by
  intro j hj
  let f : Fin c → Fin c := fun i => ⟨t.getD i.1 0, hrange i.1 i.2⟩
  have hf : Function.Injective f := by
    intro a b hab
    have : t.getD a.1 0 = t.getD b.1 0 := congrArg Fin.val hab
    exact Fin.ext (hinj a.1 b.1 a.2 b.2 this)
  obtain ⟨i, hi⟩ := Finite.surjective_of_injective hf ⟨j, hj⟩
  exact ⟨i.1, i.2, congrArg Fin.val hi⟩

/-- C13: `DecoderCreate` hands `opus_multistream_decoder_create` the local,
reordered array `new_stream_map` if and only if the mapping family is at most 1
and the channel count exceeds 2; in every other case it hands over the header's
own `stream_map`; and the multistream decoder that is created holds exactly the
map that was handed over. -/
theorem C13_stream_map_selection (env : HeaderEnv) (p_sys : decoder_sys_t) :
    ((DecoderCreate_stream_map env p_sys.header).1 = true ↔
      (p_sys.header.channel_mapping ≤ 1 ∧ 2 < p_sys.header.channels)) ∧
    (p_sys.header.channel_mapping ≤ 1 ∧ 2 < p_sys.header.channels →
      (DecoderCreate_stream_map env p_sys.header).2
        = new_stream_map ((List.range 8).map env.uninitialised)
            (env.aout_CheckChannelReorder (pi_ch.getD (p_sys.header.channels - 3) [])
              (pi_channels_maps.getD p_sys.header.channels 0))
            p_sys.header.stream_map p_sys.header.channels) ∧
    (p_sys.header.channels ≤ 2 ∨ 2 ≤ p_sys.header.channel_mapping →
      (DecoderCreate_stream_map env p_sys.header).2 = p_sys.header.stream_map) ∧
    (¬ (env.OPUS_HAVE_OPUS_PROJECTION_H = true ∧ p_sys.header.channel_mapping = 3) →
      ((DecoderCreate env p_sys).1 = vlc_status.VLC_SUCCESS →
        ∃ st, (DecoderCreate env p_sys).2.p_st = some st ∧
          st.mapping = (DecoderCreate_stream_map env p_sys.header).2) ∧
      (∀ st, (DecoderCreate env p_sys).2.p_st = some st →
        st.mapping = (DecoderCreate_stream_map env p_sys.header).2)) := by
  refine ⟨?_, ?_, ?_, ?_⟩
  · unfold DecoderCreate_stream_map
    split_ifs with h1 h2
    · simp [h1, h2]
    · simp [h2]
    · simp [h1]
  · rintro ⟨h1, h2⟩
    unfold DecoderCreate_stream_map
    rw [if_pos h1, if_pos h2]
  · intro h
    unfold DecoderCreate_stream_map
    split_ifs with h1 h2
    · omega
    · rfl
    · rfl
  · intro hp
    unfold DecoderCreate
    simp only [if_neg hp]
    constructor
    · intro hs
      split_ifs at hs ⊢ with he
      · exact ⟨_, rfl, rfl⟩
    · intro st hst
      split_ifs at hst with he
      · simp only [Option.some.injEq] at hst
        rw [← hst]

/-- C13, at a concrete input: the stereo header keeps its stream map `[0, 1]`;
for the 6-channel header of family 1 the decoder receives the reordered map. -/
theorem C13_stream_map_selection_witness :
    (DecoderCreate_stream_map henv_ok
      (parse_fields (header_bytes 2 0 1 1 []) opus_header_init).2)
      = (false, [0, 1]) ∧
    (DecoderCreate_stream_map henv_ok
      (parse_fields (header_bytes 6 1 4 2 [0, 4, 1, 2, 3, 5]) opus_header_init).2)
      = (true, [0, 1, 2, 3, 4, 5, 255, 255]) ∧
    ((DecoderCreate_stream_map henv_ok ready_sys.header).1 = true ↔
      (ready_sys.header.channel_mapping ≤ 1 ∧ 2 < ready_sys.header.channels)) :=
  ⟨by decide, by decide, (C13_stream_map_selection henv_ok ready_sys).1⟩

/-- C14: for every header with mapping family at most 1 and channel count `c`
from 3 to 8, and every reorder table that is a permutation of `0..c-1`, the
stream map built by `DecoderCreate` satisfies `new_map[perm[i]] = stream_map[i]`
for every `i < c`; every position `j < c` is written from the one slot `i` with
`perm[i] = j`; and reading the new map back through the permutation gives the
first `c` entries of the original stream map. -/
theorem C14_reorder_round_trip (env : HeaderEnv) (p_header : OpusHeader)
    (hfam : p_header.channel_mapping ≤ 1) (h3 : 3 ≤ p_header.channels)
    (h8 : p_header.channels ≤ 8) (perm : List Nat)
    (hperm : env.aout_CheckChannelReorder (pi_ch.getD (p_header.channels - 3) [])
      (pi_channels_maps.getD p_header.channels 0) = perm)
    (hrange : ∀ i, i < p_header.channels → perm.getD i 0 < p_header.channels)
    (hinj : ∀ i j, i < p_header.channels → j < p_header.channels →
      perm.getD i 0 = perm.getD j 0 → i = j) :
    (DecoderCreate_stream_map env p_header).1 = true ∧
    (∀ i, i < p_header.channels →
      (DecoderCreate_stream_map env p_header).2.getD (perm.getD i 0) 0
        = p_header.stream_map.getD i 0) ∧
    (∀ j, j < p_header.channels → ∃ i, i < p_header.channels ∧ perm.getD i 0 = j ∧
      (DecoderCreate_stream_map env p_header).2.getD j 0 = p_header.stream_map.getD i 0) ∧
    (List.range p_header.channels).map
        (fun i => (DecoderCreate_stream_map env p_header).2.getD (perm.getD i 0) 0)
      = (List.range p_header.channels).map (fun i => p_header.stream_map.getD i 0) := by
  have hsel : DecoderCreate_stream_map env p_header
      = (true, new_stream_map ((List.range 8).map env.uninitialised) perm
          p_header.stream_map p_header.channels) := by
    unfold DecoderCreate_stream_map
    rw [if_pos hfam, if_pos (by omega), hperm]
  have hget := new_stream_map_getD ((List.range 8).map env.uninitialised) perm
    p_header.stream_map p_header.channels
    (fun i hi => by
      have := hrange i hi
      simp only [List.length_map, List.length_range]
      omega) hinj
  rw [hsel]
  refine ⟨rfl, hget, ?_, ?_⟩
  · intro j hj
    obtain ⟨i, hi, hij⟩ := table_onto perm p_header.channels hrange hinj j hj
    exact ⟨i, hi, hij, by rw [← hij]; exact hget i hi⟩
  · apply List.map_congr_left
    intro i hi
    exact hget i (List.mem_range.mp hi)

/-- C14, at a concrete input: 6 channels, family 1, declared stream map
`[0, 4, 1, 2, 3, 5]` and reorder table `[0, 4, 1, 2, 3, 5]`. -/
theorem C14_reorder_round_trip_witness :
    (List.range 6).map (fun i =>
        (DecoderCreate_stream_map henv_ok
          (parse_fields (header_bytes 6 1 4 2 [0, 4, 1, 2, 3, 5]) opus_header_init).2).2.getD
          ([0, 4, 1, 2, 3, 5].getD i 0) 0)
      = (List.range 6).map (fun i => [0, 4, 1, 2, 3, 5].getD i 0) :=
  (C14_reorder_round_trip henv_ok
    (parse_fields (header_bytes 6 1 4 2 [0, 4, 1, 2, 3, 5]) opus_header_init).2
    (by decide) (by decide) (by decide) [0, 4, 1, 2, 3, 5] (by decide)
    (by decide)
    (by
      intro i j hi hj
      have hc : (parse_fields (header_bytes 6 1 4 2 [0, 4, 1, 2, 3, 5])
          opus_header_init).2.channels = 6 := by decide
      rw [hc] at hi hj
      interval_cases i <;> interval_cases j <;> decide)).2.2.2

/-! ## The life of a decoder -/

theorem DecodePacket_sys_frame {α : Type} (env : DecEnv α) (p_sys : decoder_sys_t)
    (pkt : List Nat) (n : Int) (dur : Int) :
    (DecodePacket env p_sys pkt n dur).sys.b_has_headers = p_sys.b_has_headers ∧
    (DecodePacket env p_sys pkt n dur).sys.header = p_sys.header ∧
    (DecodePacket env p_sys pkt n dur).sys.p_st = p_sys.p_st ∧
    (DecodePacket env p_sys pkt n dur).sys.p_pr = p_sys.p_pr := by
  unfold DecodePacket
  simp only
  split_ifs <;> exact ⟨rfl, rfl, rfl, rfl⟩

theorem synced_frame (p_sys : decoder_sys_t) (p_block : block_t) :
    (synced p_sys p_block).b_has_headers = p_sys.b_has_headers ∧
    (synced p_sys p_block).header = p_sys.header ∧
    (synced p_sys p_block).p_st = p_sys.p_st ∧
    (synced p_sys p_block).p_pr = p_sys.p_pr := by
  unfold synced date_management Flush
  split_ifs <;> exact ⟨rfl, rfl, rfl, rfl⟩

theorem ProcessPacket_sys_frame {α : Type} (env : DecEnv α) (p_sys : decoder_sys_t)
    (p_block : block_t) :
    (ProcessPacket env p_sys p_block).sys.b_has_headers = p_sys.b_has_headers ∧
    (ProcessPacket env p_sys p_block).sys.header = p_sys.header ∧
    (ProcessPacket env p_sys p_block).sys.p_st = p_sys.p_st ∧
    (ProcessPacket env p_sys p_block).sys.p_pr = p_sys.p_pr := by
  cases hc : p_block.i_flags.BLOCK_FLAG_CORRUPTED with
  | true => rw [ProcessPacket_corrupted env p_sys p_block hc]; exact ⟨rfl, rfl, rfl, rfl⟩
  | false =>
    have hs := synced_frame p_sys p_block
    rw [ProcessPacket_not_corrupted env p_sys p_block hc]
    split_ifs
    · exact hs
    · have hd := DecodePacket_sys_frame env (synced p_sys p_block) p_block.p_buffer
        (to_int32 p_block.i_nb_samples) (i_max_duration p_block)
      exact ⟨hd.1.trans hs.1, hd.2.1.trans hs.2.1, hd.2.2.1.trans hs.2.2.1,
        hd.2.2.2.trans hs.2.2.2⟩

theorem DecoderCreate_frame (env : HeaderEnv) (p_sys : decoder_sys_t) :
    (DecoderCreate env p_sys).2.b_has_headers = p_sys.b_has_headers := by
  unfold DecoderCreate
  simp only
  split_ifs <;> rfl

theorem DecoderDestroy_frame (env : HeaderEnv) (p_sys : decoder_sys_t) :
    (DecoderDestroy env p_sys).b_has_headers = p_sys.b_has_headers := by
  unfold DecoderDestroy
  split_ifs <;> rfl

theorem ProcessInitialHeader_frame (env : HeaderEnv) (p_dec : decoder_t) (pkt : List Nat) :
    (ProcessInitialHeader env p_dec pkt).dec.fmt_in = p_dec.fmt_in ∧
    (ProcessInitialHeader env p_dec pkt).dec.p_sys.b_has_headers
      = p_dec.p_sys.b_has_headers ∧
    (ProcessInitialHeader env p_dec pkt).parsed = true := by
  unfold ProcessInitialHeader
  simp only
  split_ifs
  all_goals refine ⟨rfl, ?_, rfl⟩
  all_goals first
    | rfl
    | (simp only [DecoderDestroy_frame, DecoderCreate_frame])

theorem ProcessHeaders_frame (env : HeaderEnv) (p_dec : decoder_t) :
    (ProcessHeaders env p_dec).dec.fmt_in = p_dec.fmt_in ∧
    (ProcessHeaders env p_dec).dec.p_sys.b_has_headers = p_dec.p_sys.b_has_headers := by
  unfold ProcessHeaders
  cases ProcessHeaders_packet env p_dec.fmt_in with
  | error e => exact ⟨rfl, rfl⟩
  | ok pkt =>
    have h := ProcessInitialHeader_frame env p_dec pkt
    simp only
    split_ifs
    · exact ⟨h.1, h.2.1⟩
    · exact ⟨h.1, h.2.1⟩

theorem ProcessHeaders_raw_rejected (env : HeaderEnv) (p_dec : decoder_t) (pkt : List Nat)
    (hpkt : ProcessHeaders_packet env p_dec.fmt_in = Except.ok pkt)
    (h : (env.opus_header_parse pkt p_dec.p_sys.header).1 = 0 ∨
      unsupported_channel_mapping (env.opus_header_parse pkt p_dec.p_sys.header).2) :
    (ProcessHeaders env p_dec).ret = vlc_status.VLC_EGENERIC ∧
    (ProcessHeaders env p_dec).created = false := by
  have hr : (ProcessInitialHeader env p_dec pkt).ret = vlc_status.VLC_EGENERIC ∧
      (ProcessInitialHeader env p_dec pkt).created = false := by
    by_cases hp : (env.opus_header_parse pkt p_dec.p_sys.header).1 = 0
    · exact ProcessInitialHeader_parse_failed env p_dec pkt hp
    · rcases h with h | h
      · exact absurd h hp
      · rw [ProcessInitialHeader_unsupported env p_dec pkt hp h]
        exact ⟨rfl, rfl⟩
  unfold ProcessHeaders
  rw [hpkt]
  simp only
  rw [if_pos (by rw [hr.1]; decide)]
  exact hr

theorem DecodeBlock_eq_failed {α : Type} (henv : HeaderEnv) (env : DecEnv α)
    (p_dec : decoder_t) (p_block : block_t) (hb : p_dec.p_sys.b_has_headers = false)
    (hf : (ProcessHeaders henv p_dec).ret ≠ vlc_status.VLC_SUCCESS) :
    DecodeBlock henv env p_dec p_block =
      ⟨none, (ProcessHeaders henv p_dec).dec, true, (ProcessHeaders henv p_dec).parsed,
        (ProcessHeaders henv p_dec).created, false⟩ := by
  unfold DecodeBlock
  rw [if_pos hb]
  simp only
  rw [if_pos hf]

theorem DecodeBlock_eq_done {α : Type} (henv : HeaderEnv) (env : DecEnv α)
    (p_dec : decoder_t) (p_block : block_t) (hb : p_dec.p_sys.b_has_headers = true) :
    DecodeBlock henv env p_dec p_block =
      ⟨(ProcessPacket env p_dec.p_sys p_block).out,
       { p_dec with p_sys := (ProcessPacket env p_dec.p_sys p_block).sys },
       false, false, false, (ProcessPacket env p_dec.p_sys p_block).decoded⟩ := by
  unfold DecodeBlock
  rw [if_neg (by rw [hb]; decide)]

theorem DecodeBlock_eq_succeeded {α : Type} (henv : HeaderEnv) (env : DecEnv α)
    (p_dec : decoder_t) (p_block : block_t) (hb : p_dec.p_sys.b_has_headers = false)
    (hs : (ProcessHeaders henv p_dec).ret = vlc_status.VLC_SUCCESS) :
    DecodeBlock henv env p_dec p_block =
      ⟨(ProcessPacket env { (ProcessHeaders henv p_dec).dec.p_sys with
            b_has_headers := true } p_block).out,
       { (ProcessHeaders henv p_dec).dec with
         p_sys := (ProcessPacket env { (ProcessHeaders henv p_dec).dec.p_sys with
            b_has_headers := true } p_block).sys },
       true, (ProcessHeaders henv p_dec).parsed, (ProcessHeaders henv p_dec).created,
       (ProcessPacket env { (ProcessHeaders henv p_dec).dec.p_sys with
            b_has_headers := true } p_block).decoded⟩ := by
  unfold DecodeBlock
  rw [if_pos hb]
  simp only
  rw [if_neg (by rw [hs]; decide)]

theorem DecodeBlock_headers_failed {α : Type} (henv : HeaderEnv) (env : DecEnv α)
    (p_dec : decoder_t) (p_block : block_t) (hb : p_dec.p_sys.b_has_headers = false)
    (hf : (ProcessHeaders henv p_dec).ret ≠ vlc_status.VLC_SUCCESS) :
    (DecodeBlock henv env p_dec p_block).out = none ∧
    (DecodeBlock henv env p_dec p_block).decoded = false ∧
    (DecodeBlock henv env p_dec p_block).headers = true ∧
    (DecodeBlock henv env p_dec p_block).dec.p_sys.b_has_headers = false ∧
    (DecodeBlock henv env p_dec p_block).dec.fmt_in = p_dec.fmt_in := by
  rw [DecodeBlock_eq_failed henv env p_dec p_block hb hf]
  exact ⟨rfl, rfl, rfl, (ProcessHeaders_frame henv p_dec).2.trans hb,
    (ProcessHeaders_frame henv p_dec).1⟩

theorem DecodeBlock_headers_done {α : Type} (henv : HeaderEnv) (env : DecEnv α)
    (p_dec : decoder_t) (p_block : block_t) (hb : p_dec.p_sys.b_has_headers = true) :
    (DecodeBlock henv env p_dec p_block).headers = false ∧
    (DecodeBlock henv env p_dec p_block).parsed = false ∧
    (DecodeBlock henv env p_dec p_block).created = false ∧
    (DecodeBlock henv env p_dec p_block).dec.p_sys.b_has_headers = true := by
  rw [DecodeBlock_eq_done henv env p_dec p_block hb]
  exact ⟨rfl, rfl, rfl, (ProcessPacket_sys_frame env p_dec.p_sys p_block).1.trans hb⟩

theorem DecodeBlock_headers_succeeded {α : Type} (henv : HeaderEnv) (env : DecEnv α)
    (p_dec : decoder_t) (p_block : block_t) (hb : p_dec.p_sys.b_has_headers = false)
    (hs : (ProcessHeaders henv p_dec).ret = vlc_status.VLC_SUCCESS) :
    (DecodeBlock henv env p_dec p_block).headers = true ∧
    (DecodeBlock henv env p_dec p_block).dec.p_sys.b_has_headers = true := by
  rw [DecodeBlock_eq_succeeded henv env p_dec p_block hb hs]
  exact ⟨rfl, (ProcessPacket_sys_frame env _ p_block).1⟩

theorem DecodeBlocks_headers_failing {α : Type}
    (calls : List (HeaderEnv × DecEnv α × block_t)) :
    ∀ p_dec : decoder_t, p_dec.p_sys.b_has_headers = false →
      (∀ c ∈ calls, ∀ d : decoder_t, d.fmt_in = p_dec.fmt_in →
        (ProcessHeaders c.1 d).ret ≠ vlc_status.VLC_SUCCESS) →
      ∀ r ∈ DecodeBlocks p_dec calls,
        r.out = none ∧ r.decoded = false ∧ r.dec.p_sys.b_has_headers = false := by
  induction calls with
  | nil => intro p_dec _ _ r hr; simp [DecodeBlocks] at hr
  | cons c rest ih =>
    intro p_dec hb hf r hr
    obtain ⟨henv, env, p_block⟩ := c
    have h1 := DecodeBlock_headers_failed henv env p_dec p_block hb
      (hf (henv, env, p_block) (List.mem_cons_self _ _) p_dec rfl)
    simp only [DecodeBlocks, List.mem_cons] at hr
    rcases hr with rfl | hr
    · exact ⟨h1.1, h1.2.1, h1.2.2.2.1⟩
    · exact ih _ h1.2.2.2.1
        (fun c hc d hd => hf c (List.mem_cons_of_mem _ hc) d (hd.trans h1.2.2.2.2)) r hr

theorem DecodeBlocks_headers_done {α : Type}
    (calls : List (HeaderEnv × DecEnv α × block_t)) :
    ∀ p_dec : decoder_t, p_dec.p_sys.b_has_headers = true →
      ∀ r ∈ DecodeBlocks p_dec calls,
        r.headers = false ∧ r.parsed = false ∧ r.created = false
          ∧ r.dec.p_sys.b_has_headers = true := by
  induction calls with
  | nil => intro p_dec _ r hr; simp [DecodeBlocks] at hr
  | cons c rest ih =>
    intro p_dec hb r hr
    obtain ⟨henv, env, p_block⟩ := c
    have h1 := DecodeBlock_headers_done henv env p_dec p_block hb
    simp only [DecodeBlocks, List.mem_cons] at hr
    rcases hr with rfl | hr
    · exact h1
    · exact ih _ h1.2.2.2 r hr

/-- C15 (counterexample): for a stream whose header has 3 channels with
mapping family 0, `OpenDecoder` returns `VLC_SUCCESS` although header
processing rejects that header; and for extradata whose magic tag is spoiled,
`OpenDecoder` succeeds, header processing succeeds on a header made from the
negotiated format, and the first decode call emits a buffer. -/
theorem C15_counterexample :
    (OpenDecoder (closed_dec (header_bytes 3 0 1 2 [])) (some ready_sys)).1
      = vlc_status.VLC_SUCCESS ∧
    (ProcessHeaders henv_ok
      (OpenDecoder (closed_dec (header_bytes 3 0 1 2 [])) (some ready_sys)).2).ret
      = vlc_status.VLC_EGENERIC ∧
    bad_magic_extra.take 8 ≠ OpusHead ∧
    (OpenDecoder (closed_dec bad_magic_extra) (some ready_sys)).1
      = vlc_status.VLC_SUCCESS ∧
    (ProcessHeaders henv_ok
      (OpenDecoder (closed_dec bad_magic_extra) (some ready_sys)).2).ret
      = vlc_status.VLC_SUCCESS ∧
    ((DecodeBlock henv_ok env960
      (OpenDecoder (closed_dec bad_magic_extra) (some ready_sys)).2
      (plain_block 1000000)).out.map (fun b => b.i_pts)) = some 1000000 := by
  refine ⟨by decide, by decide, by decide, by decide, by decide, by decide⟩

/-- C15 (amended): `OpenDecoder` does not look at the header: for an Opus
stream it succeeds whatever the extradata holds, as soon as the descriptor is
allocated.  A malformed or unsupported header is met by the decode calls: when
the selected header packet cannot be parsed or has an unsupported
mapping-family/channel-count combination, header processing fails without
creating a codec decoder; and every decode call whose header processing fails
returns no buffer, decodes nothing and leaves `b_has_headers` false, so that as
long as header processing keeps failing no call emits anything. -/
theorem C15_bad_header_never_decodes {α : Type} (p_dec : decoder_t) :
    (p_dec.fmt_in.i_codec = VLC_CODEC_OPUS → ∀ (p_extra : List Nat) (m : decoder_sys_t),
      (OpenDecoder { p_dec with fmt_in := { p_dec.fmt_in with p_extra := p_extra } }
        (some m)).1 = vlc_status.VLC_SUCCESS) ∧
    (∀ (henv : HeaderEnv) (pkt : List Nat),
      ProcessHeaders_packet henv p_dec.fmt_in = Except.ok pkt →
      ((henv.opus_header_parse pkt p_dec.p_sys.header).1 = 0 ∨
        unsupported_channel_mapping (henv.opus_header_parse pkt p_dec.p_sys.header).2) →
      (ProcessHeaders henv p_dec).ret = vlc_status.VLC_EGENERIC ∧
      (ProcessHeaders henv p_dec).created = false) ∧
    (∀ (henv : HeaderEnv) (env : DecEnv α) (p_block : block_t),
      p_dec.p_sys.b_has_headers = false →
      (ProcessHeaders henv p_dec).ret ≠ vlc_status.VLC_SUCCESS →
      (DecodeBlock henv env p_dec p_block).out = none ∧
      (DecodeBlock henv env p_dec p_block).decoded = false ∧
      (DecodeBlock henv env p_dec p_block).dec.p_sys.b_has_headers = false) ∧
    (∀ calls : List (HeaderEnv × DecEnv α × block_t),
      p_dec.p_sys.b_has_headers = false →
      (∀ c ∈ calls, ∀ d : decoder_t, d.fmt_in = p_dec.fmt_in →
        (ProcessHeaders c.1 d).ret ≠ vlc_status.VLC_SUCCESS) →
      ∀ r ∈ DecodeBlocks p_dec calls,
        r.out = none ∧ r.decoded = false ∧ r.dec.p_sys.b_has_headers = false) := by
  refine ⟨?_, ?_, ?_, ?_⟩
  · intro hc p_extra m
    unfold OpenDecoder
    simp [hc]
  · intro henv pkt hpkt h
    exact ProcessHeaders_raw_rejected henv p_dec pkt hpkt h
  · intro henv env p_block hb hf
    have h := DecodeBlock_headers_failed henv env p_dec p_block hb hf
    exact ⟨h.1, h.2.1, h.2.2.2.1⟩
  · intro calls hb hf
    exact DecodeBlocks_headers_failing calls p_dec hb hf

/-- C15 (amended), at a concrete input: the stream whose header has 3 channels
with mapping family 0 is opened, and its first decode call returns nothing,
decodes nothing and leaves `b_has_headers` false. -/
theorem C15_bad_header_never_decodes_witness :
    (OpenDecoder (closed_dec (header_bytes 3 0 1 2 [])) (some ready_sys)).1
      = vlc_status.VLC_SUCCESS ∧
    (DecodeBlock henv_ok env960 (opened_dec (header_bytes 3 0 1 2 []))
      (plain_block 1000000)).out = none ∧
    (DecodeBlock henv_ok env960 (opened_dec (header_bytes 3 0 1 2 []))
      (plain_block 1000000)).decoded = false ∧
    (DecodeBlock henv_ok env960 (opened_dec (header_bytes 3 0 1 2 []))
      (plain_block 1000000)).dec.p_sys.b_has_headers = false :=
  ⟨by decide,
   (C15_bad_header_never_decodes (opened_dec (header_bytes 3 0 1 2 []))).2.2.1
     henv_ok env960 (plain_block 1000000) rfl (by decide)⟩

/-- C16 (counterexample): libopus refuses to create the decoder in the first
decode call; the second decode call on the same instance runs header
processing, header parsing and decoder construction again; and when libopus
then accepts, that second call emits a buffer, so the failure was not
terminal. -/
theorem C16_counterexample :
    (DecodeBlocks (opened_dec (header_bytes 2 0 1 1 []))
      [(henv_no_decoder, env960, plain_block 1000000),
       (henv_no_decoder, env960, plain_block 1020000)]).map
        (fun r => (r.out.isSome, r.headers, r.parsed, r.created))
      = [(false, true, true, true), (false, true, true, true)] ∧
    (DecodeBlocks (opened_dec (header_bytes 2 0 1 1 []))
      [(henv_no_decoder, env960, plain_block 1000000),
       (henv_ok, env960, plain_block 1020000)]).map
        (fun r => (r.out.isSome, r.headers, r.parsed, r.created))
      = [(false, true, true, true), (true, true, true, true)] := by
  refine ⟨by decide, by decide⟩

/-- C16 (amended): header processing, and with it decoder construction, is
attempted in every decode call until it has succeeded once, and never after:
a call made while `b_has_headers` is false runs `ProcessHeaders`, and leaves
`b_has_headers` true exactly when that succeeded, so that after a failure the
next call runs it again; once `b_has_headers` is true no later call runs
`ProcessHeaders`, `opus_header_parse` or `DecoderCreate`. -/
theorem C16_headers_until_success {α : Type} (p_dec : decoder_t) :
    (p_dec.p_sys.b_has_headers = false →
      ∀ (henv : HeaderEnv) (env : DecEnv α) (p_block : block_t),
        (DecodeBlock henv env p_dec p_block).headers = true ∧
        ((DecodeBlock henv env p_dec p_block).dec.p_sys.b_has_headers = true ↔
          (ProcessHeaders henv p_dec).ret = vlc_status.VLC_SUCCESS) ∧
        ((ProcessHeaders henv p_dec).ret ≠ vlc_status.VLC_SUCCESS →
          ∀ (henv2 : HeaderEnv) (env2 : DecEnv α) (p_block2 : block_t),
            (DecodeBlock henv2 env2 (DecodeBlock henv env p_dec p_block).dec
              p_block2).headers = true)) ∧
    (p_dec.p_sys.b_has_headers = true →
      ∀ calls : List (HeaderEnv × DecEnv α × block_t),
        ∀ r ∈ DecodeBlocks p_dec calls,
          r.headers = false ∧ r.parsed = false ∧ r.created = false
            ∧ r.dec.p_sys.b_has_headers = true) := by
  constructor
  · intro hb henv env p_block
    by_cases hs : (ProcessHeaders henv p_dec).ret = vlc_status.VLC_SUCCESS
    · have h := DecodeBlock_headers_succeeded henv env p_dec p_block hb hs
      exact ⟨h.1, ⟨fun _ => hs, fun _ => h.2⟩, fun hn => absurd hs hn⟩
    · have h := DecodeBlock_headers_failed henv env p_dec p_block hb hs
      refine ⟨h.2.2.1, ⟨fun ht => ?_, fun ht => absurd ht hs⟩, ?_⟩
      · rw [h.2.2.2.1] at ht
        exact absurd ht (by decide)
      · intro _ henv2 env2 p_block2
        by_cases hs2 : (ProcessHeaders henv2 (DecodeBlock henv env p_dec p_block).dec).ret
            = vlc_status.VLC_SUCCESS
        · exact (DecodeBlock_headers_succeeded henv2 env2 _ p_block2 h.2.2.2.1 hs2).1
        · exact (DecodeBlock_headers_failed henv2 env2 _ p_block2 h.2.2.2.1 hs2).2.2.1
  · intro hb calls
    exact DecodeBlocks_headers_done calls p_dec hb

/-- C16 (amended), at a concrete input: after a successful first call the
second call does not process headers again. -/
theorem C16_headers_until_success_witness :
    (DecodeBlocks (opened_dec (header_bytes 2 0 1 1 []))
      [(henv_ok, env960, plain_block 1000000),
       (henv_ok, env960, plain_block 1020000)]).map
        (fun r => (r.out.isSome, r.headers, r.parsed, r.created))
      = [(true, true, true, true), (true, false, false, false)] ∧
    (DecodeBlock henv_ok env960 (opened_dec (header_bytes 2 0 1 1 []))
      (plain_block 1000000)).headers = true :=
  ⟨by decide,
   ((C16_headers_until_success (opened_dec (header_bytes 2 0 1 1 []))).1 rfl
      henv_ok env960 (plain_block 1000000)).1⟩

/-- C17: `Flush` changes only the sample clock, which it sets to undefined:
the has-headers flag, the parsed header and both codec decoder handles are
left as they were, as is the rate of the clock; and flushing twice gives the
same state as flushing once. -/
theorem C17_flush_frame (p_sys : decoder_sys_t) :
    date_Get (Flush p_sys).end_date = VLC_TICK_INVALID ∧
    (Flush p_sys).b_has_headers = p_sys.b_has_headers ∧
    (Flush p_sys).header = p_sys.header ∧
    (Flush p_sys).p_st = p_sys.p_st ∧
    (Flush p_sys).p_pr = p_sys.p_pr ∧
    (Flush p_sys).end_date.i_divider_num = p_sys.end_date.i_divider_num ∧
    (Flush p_sys).end_date.i_divider_den = p_sys.end_date.i_divider_den ∧
    Flush p_sys = { p_sys with end_date := date_Set p_sys.end_date VLC_TICK_INVALID } ∧
    Flush (Flush p_sys) = Flush p_sys :=
  ⟨rfl, rfl, rfl, rfl, rfl, rfl, rfl, rfl, rfl⟩

/-! ## The loop of `Encode` -/

theorem Encode_loop_done {α : Type} (env : EncEnv α) (channels rate fuel : Nat)
    (st : EncodeLoop α)
    (h : ¬ (st.sys.i_nb_samples + st.buf.i_nb_samples ≥ OPUS_FRAME_SIZE)) :
    Encode_loop env channels rate fuel st = some st := by
  cases fuel <;> (unfold Encode_loop; rw [if_neg h])

theorem Encode_loop_zero {α : Type} (env : EncEnv α) (channels rate : Nat)
    (st : EncodeLoop α)
    (h : st.sys.i_nb_samples + st.buf.i_nb_samples ≥ OPUS_FRAME_SIZE) :
    Encode_loop env channels rate 0 st = none := by
  unfold Encode_loop
  rw [if_pos h]

theorem Encode_loop_step {α : Type} (env : EncEnv α) (channels rate fuel : Nat)
    (st : EncodeLoop α)
    (h : st.sys.i_nb_samples + st.buf.i_nb_samples ≥ OPUS_FRAME_SIZE)
    (ha : env.block_Alloc st.iter = true) :
    Encode_loop env channels rate (fuel + 1) st =
      Encode_loop env channels rate fuel
        (Encode_frame env channels rate
          (Encode_input channels (Encode_padding channels st))) := by
  conv_lhs => unfold Encode_loop
  rw [if_pos h]
  simp only [ha, Bool.true_eq_false, if_false]

/-- What the two filling parts of an iteration do to the sample counts when
the loop condition holds: the accumulator is full afterwards. -/
theorem Encode_fill_counts {α : Type} (channels : Nat) (st : EncodeLoop α)
    (hle : st.sys.i_nb_samples ≤ OPUS_FRAME_SIZE)
    (h : st.sys.i_nb_samples + st.buf.i_nb_samples ≥ OPUS_FRAME_SIZE) :
    (Encode_input channels (Encode_padding channels st)).sys.i_nb_samples
      = OPUS_FRAME_SIZE := by
  unfold OPUS_FRAME_SIZE at *
  unfold Encode_input Encode_padding
  cases hp : st.sys.padding with
  | none =>
    simp only [hp, fill_buffer, OPUS_FRAME_SIZE]
    omega
  | some padding =>
    simp only [fill_buffer, OPUS_FRAME_SIZE]
    by_cases hz : padding.i_nb_samples - min padding.i_nb_samples (960 - st.sys.i_nb_samples) ≤ 0
    · simp only [hz, if_true]
      omega
    · simp only [hz, if_false]
      omega

theorem Encode_frame_refused {α : Type} (env : EncEnv α) (channels rate : Nat)
    (st : EncodeLoop α)
    (h : env.opus_multistream_encode_float st.iter (frame_of channels st.sys) < 0) :
    Encode_frame env channels rate st =
      { st with handed := st.handed ++ [frame_of channels st.sys], iter := st.iter + 1 } := by
  unfold Encode_frame
  simp only [h, if_true]

theorem Encode_loop_refused {α : Type} (env : EncEnv α) (channels rate : Nat)
    (hr : ∀ k f, env.opus_multistream_encode_float k f < 0)
    (ha : ∀ k, env.block_Alloc k = true) (fuel : Nat) :
    ∀ st : EncodeLoop α, st.sys.i_nb_samples ≤ OPUS_FRAME_SIZE →
      st.sys.i_nb_samples + st.buf.i_nb_samples ≥ OPUS_FRAME_SIZE →
      Encode_loop env channels rate fuel st = none := by
  induction fuel with
  | zero => intro st _ h; exact Encode_loop_zero env channels rate st h
  | succ fuel ih =>
    intro st hle h
    rw [Encode_loop_step env channels rate fuel st h (ha _),
      Encode_frame_refused env channels rate _ (hr _ _)]
    have hfull := Encode_fill_counts channels st hle h
    apply ih
    · show (Encode_input channels (Encode_padding channels st)).sys.i_nb_samples
        ≤ OPUS_FRAME_SIZE
      rw [hfull]
    · show (Encode_input channels (Encode_padding channels st)).sys.i_nb_samples
        + (Encode_input channels (Encode_padding channels st)).buf.i_nb_samples
        ≥ OPUS_FRAME_SIZE
      rw [hfull]
      omega

/-! ## The claims on the encoder -/

set_option maxRecDepth 100000 in
/-- C18 (failing input): with a lookahead of 312 samples and input blocks of
500 and then 700 samples, the first call hands nothing to the codec and the
second call hands it one frame that begins with the 500 samples of the first
block; the 312 samples of silence come after them, followed by the first 148
samples of the second block. -/
theorem C18_padding_after_first_block :
    (Encodes (opened_enc 312)
      [(enc_accepting, tone_block 1 500 1000000, 10),
       (enc_accepting, tone_block 1001 700 1010416, 10)]).map
        (fun rs => rs.map (fun r => r.handed))
      = some [[], [(List.range 500).map (fun k => ((1 + k : Nat) : Int))
                    ++ List.replicate 312 0
                    ++ (List.range 148).map (fun k => ((1001 + k : Nat) : Int))]] := by
  decide

/-- C20 (failing input): when the accumulator is not over-full, a block brings
it to a whole frame and the codec refuses every frame it is handed, `Encode`
does not return: whatever the number of iterations allowed, the loop is still
running, because a refused frame stays in the accumulator and is handed to the
codec again. -/
theorem C20_refused_frame_never_returns {α : Type} (env : EncEnv α) (enc : encoder_t α)
    (buf : pcm_block_t α)
    (hle : enc.p_sys.i_nb_samples ≤ OPUS_FRAME_SIZE)
    (hframe : enc.p_sys.i_nb_samples + buf.i_nb_samples ≥ OPUS_FRAME_SIZE)
    (hr : ∀ k f, env.opus_multistream_encode_float k f < 0)
    (ha : ∀ k, env.block_Alloc k = true) :
    ∀ fuel, Encode env enc (some buf) fuel = none := by
  intro fuel
  unfold Encode
  simp only
  rw [Encode_loop_refused env _ _ hr ha fuel (Encode_start enc buf) hle hframe]

set_option maxRecDepth 100000 in
/-- C20 (failing input), at a concrete input: a fresh encoder without
lookahead, a block of 960 samples and a codec that refuses every frame; and
when the codec refuses only the first attempt, the very same frame is handed
over a second time and emitted, not dropped. -/
theorem C20_refused_frame_never_returns_witness :
    (∀ fuel, Encode enc_refusing (opened_enc 0) (some (tone_block 1 960 1000000)) fuel
      = none) ∧
    (Encode enc_refusing_once (opened_enc 0) (some (tone_block 1 960 1000000)) 10).map
        (fun r => (r.result.length, r.handed.length,
          r.handed.map (fun f => f.take 2), r.enc.p_sys.i_nb_samples))
      = some (1, 2, [[1, 2], [1, 2]], 0) :=
  ⟨C20_refused_frame_never_returns enc_refusing (opened_enc 0) (tone_block 1 960 1000000)
    (by decide) (by decide) (fun _ _ => by show (-1 : Int) < 0; decide) (fun _ => rfl),
   by decide⟩

theorem OpenEncoder_success {α : Type} [Zero α] (env : OpenEncEnv) (enc : encoder_t α)
    (h : (OpenEncoder env enc).1 = vlc_status.VLC_SUCCESS) :
    (OpenEncoder env enc).2.fmt_in_audio_i_rate = 48000 ∧
    (OpenEncoder env enc).2.fmt_out_audio_i_channels = enc.fmt_in_audio_i_channels ∧
    (OpenEncoder env enc).2.p_sys.i_nb_samples = 0 ∧
    (OpenEncoder env enc).2.p_sys.i_samples_delay = env.OPUS_GET_LOOKAHEAD.2 ∧
    (0 < env.OPUS_GET_LOOKAHEAD.2 →
      ∃ pad, (OpenEncoder env enc).2.p_sys.padding = some pad ∧
        pad.i_nb_samples = env.OPUS_GET_LOOKAHEAD.2.toNat ∧ ∀ k, pad.p_buffer k = 0) ∧
    (env.OPUS_GET_LOOKAHEAD.2 ≤ 0 → (OpenEncoder env enc).2.p_sys.padding = none) := by
  unfold OpenEncoder at h ⊢
  simp only at h ⊢
  split_ifs at h ⊢
  · refine ⟨rfl, rfl, rfl, rfl, fun _ => ⟨_, rfl, rfl, fun _ => rfl⟩, fun hn => ?_⟩
    omega
  · refine ⟨rfl, rfl, rfl, rfl, fun hp => ?_, fun _ => rfl⟩
    omega

theorem Encode_short_block {α : Type} (env : EncEnv α) (enc : encoder_t α)
    (buf : pcm_block_t α) (fuel : Nat)
    (hshort : enc.p_sys.i_nb_samples + buf.i_nb_samples < OPUS_FRAME_SIZE)
    (hpos : 0 < buf.i_nb_samples) :
    ∃ r, Encode env enc (some buf) fuel = some r ∧ r.result = [] ∧ r.handed = [] ∧
      r.enc.fmt_in_audio_i_rate = enc.fmt_in_audio_i_rate ∧
      r.enc.fmt_out_audio_i_channels = enc.fmt_out_audio_i_channels ∧
      r.enc.p_sys.i_nb_samples = enc.p_sys.i_nb_samples + buf.i_nb_samples ∧
      r.enc.p_sys.i_samples_delay = enc.p_sys.i_samples_delay + buf.i_nb_samples ∧
      r.enc.p_sys.padding = enc.p_sys.padding := by
  unfold Encode
  simp only
  rw [Encode_loop_done _ _ _ _ (Encode_start enc buf)
    (by show ¬ (enc.p_sys.i_nb_samples + buf.i_nb_samples ≥ OPUS_FRAME_SIZE); omega)]
  simp only
  rw [if_neg (by show ¬ (false = true); decide),
    if_pos (by show buf.i_nb_samples > 0; exact hpos)]
  exact ⟨_, rfl, rfl, rfl, rfl, rfl, rfl, rfl, rfl⟩

theorem Encode_padding_some {α : Type} (channels : Nat) (st : EncodeLoop α)
    (pad : pcm_block_t α) (hp : st.sys.padding = some pad) :
    (Encode_padding channels st).sys.i_nb_samples
      = st.sys.i_nb_samples
        + min pad.i_nb_samples (OPUS_FRAME_SIZE - st.sys.i_nb_samples) ∧
    (Encode_padding channels st).sys.padding
      = (if pad.i_nb_samples
            - min pad.i_nb_samples (OPUS_FRAME_SIZE - st.sys.i_nb_samples) ≤ 0 then none
         else some { pad with i_nb_samples := (pad.i_nb_samples
            - min pad.i_nb_samples (OPUS_FRAME_SIZE - st.sys.i_nb_samples)) }) ∧
    (Encode_padding channels st).sys.i_samples_delay = st.sys.i_samples_delay ∧
    (Encode_padding channels st).buf = st.buf ∧
    (Encode_padding channels st).i_pts = st.i_pts ∧
    (Encode_padding channels st).src_start = st.src_start ∧
    (Encode_padding channels st).result = st.result ∧
    (Encode_padding channels st).handed = st.handed ∧
    (Encode_padding channels st).iter = st.iter ∧
    (Encode_padding channels st).oom = st.oom := by
  unfold Encode_padding
  rw [hp]
  exact ⟨rfl, rfl, rfl, rfl, rfl, rfl, rfl, rfl, rfl, rfl⟩

theorem Encode_padding_none {α : Type} (channels : Nat) (st : EncodeLoop α)
    (hp : st.sys.padding = none) : Encode_padding channels st = st := by
  unfold Encode_padding
  simp only [hp]

theorem Encode_input_none {α : Type} (channels : Nat) (st : EncodeLoop α)
    (hp : st.sys.padding = none) :
    (Encode_input channels st).sys.i_nb_samples
      = st.sys.i_nb_samples
        + min st.buf.i_nb_samples (OPUS_FRAME_SIZE - st.sys.i_nb_samples) ∧
    (Encode_input channels st).buf.i_nb_samples
      = st.buf.i_nb_samples
        - min st.buf.i_nb_samples (OPUS_FRAME_SIZE - st.sys.i_nb_samples) ∧
    (Encode_input channels st).buf.i_pts = st.buf.i_pts ∧
    (Encode_input channels st).sys.padding = none ∧
    (Encode_input channels st).sys.i_samples_delay = st.sys.i_samples_delay ∧
    (Encode_input channels st).i_pts = st.i_pts ∧
    (Encode_input channels st).result = st.result ∧
    (Encode_input channels st).handed = st.handed ∧
    (Encode_input channels st).iter = st.iter ∧
    (Encode_input channels st).oom = st.oom := by
  unfold Encode_input
  rw [hp]
  exact ⟨rfl, rfl, rfl, hp, rfl, rfl, rfl, rfl, rfl, rfl⟩

theorem Encode_input_some {α : Type} (channels : Nat) (st : EncodeLoop α)
    (pad : pcm_block_t α) (hp : st.sys.padding = some pad) :
    Encode_input channels st = st := by
  unfold Encode_input
  simp only [hp]

theorem Encode_frame_accepted {α : Type} (env : EncEnv α) (channels rate : Nat)
    (st : EncodeLoop α)
    (h : 0 ≤ env.opus_multistream_encode_float st.iter (frame_of channels st.sys)) :
    (Encode_frame env channels rate st).result
      = st.result ++ [{ i_pts := st.i_pts, i_dts := st.i_pts,
                        i_length := vlc_tick_from_samples OPUS_FRAME_SIZE rate,
                        i_buffer := env.opus_multistream_encode_float st.iter
                          (frame_of channels st.sys) }] ∧
    (Encode_frame env channels rate st).sys.i_nb_samples = 0 ∧
    (Encode_frame env channels rate st).sys.i_samples_delay
      = st.sys.i_samples_delay - OPUS_FRAME_SIZE ∧
    (Encode_frame env channels rate st).sys.padding = st.sys.padding ∧
    (Encode_frame env channels rate st).buf = st.buf ∧
    (Encode_frame env channels rate st).i_pts
      = st.i_pts + vlc_tick_from_samples OPUS_FRAME_SIZE rate ∧
    (Encode_frame env channels rate st).handed
      = st.handed ++ [frame_of channels st.sys] ∧
    (Encode_frame env channels rate st).iter = st.iter + 1 ∧
    (Encode_frame env channels rate st).oom = st.oom := by
  unfold Encode_frame
  rw [if_neg (not_lt.mpr h)]
  exact ⟨rfl, rfl, rfl, rfl, rfl, rfl, rfl, rfl, rfl⟩

/-- The second call of the scenario: an accumulator holding 500 samples, 312
samples of padding pending, a block of 700 samples and a codec that accepts
the first frame. -/
theorem Encode_after_500 {α : Type} (env : EncEnv α) (enc : encoder_t α)
    (buf : pcm_block_t α) (pad : pcm_block_t α) (fuel : Nat)
    (hrate : enc.fmt_in_audio_i_rate = 48000)
    (hnb : enc.p_sys.i_nb_samples = 500) (hdelay : enc.p_sys.i_samples_delay = 812)
    (hpad : enc.p_sys.padding = some pad) (hpn : pad.i_nb_samples = 312)
    (hbuf : buf.i_nb_samples = 700)
    (halloc : env.block_Alloc 0 = true)
    (henc : ∀ f, 0 ≤ env.opus_multistream_encode_float 0 f) :
    ∃ r, Encode env enc (some buf) (fuel + 1) = some r ∧
      r.result.map (fun b => b.i_pts) = [buf.i_pts - vlc_tick_from_samples 812 48000] ∧
      r.handed.length = 1 ∧ r.enc.p_sys.padding = none ∧
      r.enc.p_sys.i_nb_samples = 552 ∧ r.enc.p_sys.i_samples_delay = 552 := by
  unfold Encode
  simp only
  generalize hs0 : Encode_start enc buf = s0
  have a1 : s0.sys.i_nb_samples = 500 := by rw [← hs0]; exact hnb
  have a2 : s0.sys.padding = some pad := by rw [← hs0]; exact hpad
  have a3 : s0.sys.i_samples_delay = 1512 := by
    rw [← hs0]
    show enc.p_sys.i_samples_delay + (buf.i_nb_samples : Int) = 1512
    rw [hdelay, hbuf]
    decide
  have a4 : s0.buf.i_nb_samples = 700 := by rw [← hs0]; exact hbuf
  have a5 : s0.i_pts = buf.i_pts - vlc_tick_from_samples 812 48000 := by
    rw [← hs0]
    show buf.i_pts - vlc_tick_from_samples enc.p_sys.i_samples_delay
      enc.fmt_in_audio_i_rate = _
    rw [hdelay, hrate]
    rfl
  have a6 : s0.result = [] := by rw [← hs0]; rfl
  have a7 : s0.handed = [] := by rw [← hs0]; rfl
  have a8 : s0.iter = 0 := by rw [← hs0]; rfl
  have a9 : s0.oom = false := by rw [← hs0]; rfl
  rw [Encode_loop_step _ _ _ _ _ (by rw [a1, a4]; decide) (by rw [a8]; exact halloc)]
  obtain ⟨p1, p2, p3, p4, p5, -, p7, p8, p9, p10⟩ :=
    Encode_padding_some enc.fmt_out_audio_i_channels s0 pad a2
  rw [a1, hpn] at p1 p2
  generalize Encode_padding enc.fmt_out_audio_i_channels s0 = sp at *
  have p1n : sp.sys.i_nb_samples = 812 := by rw [p1]; decide
  have p2n : sp.sys.padding = none := by
    rw [p2, if_pos (by decide)]
  obtain ⟨q1, q2, -, q4, q5, q6, q7, q8, q9, q10⟩ :=
    Encode_input_none enc.fmt_out_audio_i_channels sp p2n
  rw [p1n, p4, a4] at q1 q2
  generalize Encode_input enc.fmt_out_audio_i_channels sp = sq at *
  have q2n : sq.buf.i_nb_samples = 552 := by rw [q2]; decide
  obtain ⟨f1, f2, f3, f4, f5, -, f7, -, f9⟩ :=
    Encode_frame_accepted env enc.fmt_out_audio_i_channels enc.fmt_in_audio_i_rate sq
      (by rw [q9, p9, a8]; exact henc _)
  generalize Encode_frame env enc.fmt_out_audio_i_channels enc.fmt_in_audio_i_rate sq
    = sf at *
  have hbufn : sf.buf.i_nb_samples = 552 := by rw [f5, q2n]
  have hoom : sf.oom = false := by rw [f9, q10, p10, a9]
  rw [Encode_loop_done _ _ _ _ _ (by rw [f2, hbufn]; decide)]
  simp only
  rw [if_neg (by rw [hoom]; decide), if_pos (by rw [hbufn]; decide)]
  refine ⟨_, rfl, ?_, ?_, ?_, ?_, ?_⟩
  · show sf.result.map (fun b => b.i_pts) = _
    rw [f1, q7, p7, a6, q6, p5, a5]
    rfl
  · show sf.handed.length = 1
    rw [f7, q8, p8, a7]
    rfl
  · show sf.sys.padding = none
    rw [f4, q4]
  · show sf.sys.i_nb_samples + sf.buf.i_nb_samples = 552
    rw [f2, hbufn]
  · show sf.sys.i_samples_delay = 552
    rw [f3, q5, p3, a3]
    decide

theorem Encode_scenario_312 {α : Type} [Zero α] (oenv : OpenEncEnv) (enc0 : encoder_t α)
    (env1 env2 : EncEnv α) (b1 b2 : pcm_block_t α) (fuel1 fuel2 : Nat)
    (hopen : (OpenEncoder oenv enc0).1 = vlc_status.VLC_SUCCESS)
    (hlook : oenv.OPUS_GET_LOOKAHEAD.2 = 312)
    (h1 : b1.i_nb_samples = 500) (h2 : b2.i_nb_samples = 700)
    (halloc : env2.block_Alloc 0 = true)
    (henc : ∀ f, 0 ≤ env2.opus_multistream_encode_float 0 f)
    (hfuel : 0 < fuel2) :
    ∃ r1 r2, Encode env1 (OpenEncoder oenv enc0).2 (some b1) fuel1 = some r1 ∧
      r1.result = [] ∧ r1.handed = [] ∧
      Encode env2 r1.enc (some b2) fuel2 = some r2 ∧
      r2.result.map (fun b => b.i_pts) = [b2.i_pts - vlc_tick_from_samples 812 48000] ∧
      (b2.i_pts = b1.i_pts + vlc_tick_from_samples 500 48000 →
        r2.result.map (fun b => b.i_pts) = [b1.i_pts - vlc_tick_from_samples 312 48000]) ∧
      r2.handed.length = 1 ∧ r2.enc.p_sys.padding = none := by
  obtain ⟨o1, -, o3, o4, o5, -⟩ := OpenEncoder_success oenv enc0 hopen
  obtain ⟨pad, hpad, hpn, -⟩ := o5 (by rw [hlook]; decide)
  rw [hlook] at o4 hpn
  obtain ⟨r1, hr1, hres1, hh1, e1, -, e3, e4, e5⟩ :=
    Encode_short_block env1 (OpenEncoder oenv enc0).2 b1 fuel1
      (by rw [o3, h1]; decide) (by rw [h1]; decide)
  obtain ⟨fuel, rfl⟩ : ∃ k, fuel2 = k + 1 := ⟨fuel2 - 1, by omega⟩
  obtain ⟨r2, hr2, hres2, hh2, hp2, -, -⟩ :=
    Encode_after_500 env2 r1.enc b2 pad fuel (e1.trans o1)
      (by rw [e3, o3, h1]) (by rw [e4, o4, h1]; decide) (e5.trans hpad)
      (by simpa using hpn) h2 halloc henc
  refine ⟨r1, r2, hr1, hres1, hh1, hr2, hres2, ?_, hh2, hp2⟩
  intro hc
  rw [hres2, hc]
  have t1 : vlc_tick_from_samples 812 48000 = 16916 := by decide
  have t2 : vlc_tick_from_samples 500 48000 = 10416 := by decide
  have t3 : vlc_tick_from_samples 312 48000 = 6500 := by decide
  rw [t1, t2, t3]
  congr 1
  omega

set_option maxRecDepth 100000 in
/-- C19 (counterexample): lookahead 312, a first block of 500 samples stamped
1000000 and a second block of 700 samples stamped 1010417, that is 10417 ticks
later (500 samples last 10416.67 ticks); the first call emits nothing and the
first compressed frame, emitted by the second call, is stamped 993501, whereas
the timestamp of the first block minus the duration of 312 samples is
993500. -/
theorem C19_counterexample :
    (Encodes (opened_enc 312)
      [(enc_accepting, tone_block 1 500 1000000, 10),
       (enc_accepting, tone_block 1001 700 1010417, 10)]).map
        (fun rs => rs.map (fun r => r.result.map (fun b => b.i_pts)))
      = some [[], [993501]] ∧
    (1000000 : Int) - vlc_tick_from_samples 312 48000 = 993500 := by
  decide

/-- C19 (amended): with an encoder lookahead of 312 samples and first two input
blocks of 500 and then 700 samples, the first call emits no frame; the first
compressed frame is emitted by the second call, provided the codec accepts it,
and carries the timestamp of the second block minus the time equivalent of 812
samples (the lookahead plus the first block); this is the timestamp of the
first block minus the time equivalent of 312 samples when the second block is
stamped the duration of 500 samples (10416 ticks) after the first; one frame
is handed to the codec and the padding is consumed by then. -/
theorem C19_first_frame_timestamp {α : Type} [Zero α] (oenv : OpenEncEnv)
    (enc0 : encoder_t α) (env1 env2 : EncEnv α) (b1 b2 : pcm_block_t α)
    (fuel1 fuel2 : Nat)
    (hopen : (OpenEncoder oenv enc0).1 = vlc_status.VLC_SUCCESS)
    (hlook : oenv.OPUS_GET_LOOKAHEAD.2 = 312)
    (h1 : b1.i_nb_samples = 500) (h2 : b2.i_nb_samples = 700)
    (halloc : env2.block_Alloc 0 = true)
    (henc : ∀ f, 0 ≤ env2.opus_multistream_encode_float 0 f)
    (hfuel : 0 < fuel2) :
    ∃ r1 r2, Encode env1 (OpenEncoder oenv enc0).2 (some b1) fuel1 = some r1 ∧
      r1.result = [] ∧ r1.handed = [] ∧
      Encode env2 r1.enc (some b2) fuel2 = some r2 ∧
      r2.result.map (fun b => b.i_pts) = [b2.i_pts - vlc_tick_from_samples 812 48000] ∧
      (b2.i_pts = b1.i_pts + vlc_tick_from_samples 500 48000 →
        r2.result.map (fun b => b.i_pts) = [b1.i_pts - vlc_tick_from_samples 312 48000]) ∧
      r2.handed.length = 1 ∧ r2.enc.p_sys.padding = none :=
  Encode_scenario_312 oenv enc0 env1 env2 b1 b2 fuel1 fuel2 hopen hlook h1 h2 halloc henc
    hfuel

/-- C19 (amended), at a concrete input: blocks stamped 1000000 and 1010416; the
first frame is stamped 1010416 - 16916 = 993500 = 1000000 - 6500. -/
theorem C19_first_frame_timestamp_witness :
    ∃ r1 r2, Encode enc_accepting (OpenEncoder (open_env 312) closed_enc).2
        (some (tone_block 1 500 1000000)) 10 = some r1 ∧
      r1.result = [] ∧ r1.handed = [] ∧
      Encode enc_accepting r1.enc (some (tone_block 1001 700 1010416)) 10 = some r2 ∧
      r2.result.map (fun b => b.i_pts)
        = [(tone_block 1001 700 1010416).i_pts - vlc_tick_from_samples 812 48000] ∧
      ((tone_block 1001 700 1010416).i_pts
          = (tone_block 1 500 1000000).i_pts + vlc_tick_from_samples 500 48000 →
        r2.result.map (fun b => b.i_pts)
          = [(tone_block 1 500 1000000).i_pts - vlc_tick_from_samples 312 48000]) ∧
      r2.handed.length = 1 ∧ r2.enc.p_sys.padding = none :=
  C19_first_frame_timestamp (open_env 312) closed_enc enc_accepting enc_accepting
    (tone_block 1 500 1000000) (tone_block 1001 700 1010416) 10 10
    (by decide) rfl rfl rfl rfl (fun _ => by show (0 : Int) ≤ 100; decide) (by decide)

/-! ## The last claims on the decoder -/

/-- C26 (failing input): a running mono decoder, a codec that decodes 960
samples per packet and a block that declares 1920 samples.  The codec is asked
for 960 samples and decodes 960 into a buffer allocated for 960, yet the buffer
that `DecodePacket` emits declares 1920 samples and 7680 bytes, twice the 3840
bytes that were allocated and filled. -/
theorem C26_declared_count_exceeds_decoded :
    packet_spp env960 (declared_block 1000000 1920).p_buffer = 960 ∧
    decoded_samples env960 (declared_block 1000000 1920).p_buffer = 960 ∧
    ((DecodePacket env960 running_sys (declared_block 1000000 1920).p_buffer 1920 0).out.map
        (fun b => (b.i_nb_samples, b.i_buffer))) = some (1920, 7680) ∧
    ((ProcessPacket env960 running_sys (declared_block 1000000 1920)).out.map
        (fun b => (b.i_nb_samples, b.i_buffer))) = some (1920, 7680) := by
  decide

/-- C27: for every header that passed the validation of `ProcessInitialHeader`
(the codec decoder is created) with mapping family at most 1, the channel count
is at most 8 and so below the 9 entries of `pi_channels_maps`; when the reorder
branch is taken (more than 2 channels) the index `channels - 3` is below the 6
entries of `pi_ch`; and for every reorder table whose entries are below the
channel count, every index written in the 8-entry `new_stream_map` is below 8,
the array keeping its 8 entries. -/
theorem C27_table_accesses_in_bounds (env : HeaderEnv) (p_dec : decoder_t) (pkt : List Nat)
    (hpass : (ProcessInitialHeader env p_dec pkt).created = true)
    (hfam : (env.opus_header_parse pkt p_dec.p_sys.header).2.channel_mapping ≤ 1) :
    (env.opus_header_parse pkt p_dec.p_sys.header).2.channels ≤ 8 ∧
    pi_channels_maps.length = 9 ∧
    (env.opus_header_parse pkt p_dec.p_sys.header).2.channels < pi_channels_maps.length ∧
    pi_ch.length = 6 ∧
    ((env.opus_header_parse pkt p_dec.p_sys.header).2.channels > 2 →
      3 ≤ (env.opus_header_parse pkt p_dec.p_sys.header).2.channels ∧
      (env.opus_header_parse pkt p_dec.p_sys.header).2.channels - 3 < pi_ch.length) ∧
    (∀ pi_chan_table : List Nat,
      (∀ i, i < (env.opus_header_parse pkt p_dec.p_sys.header).2.channels →
        pi_chan_table.getD i 0 < (env.opus_header_parse pkt p_dec.p_sys.header).2.channels) →
      (∀ i, i < (env.opus_header_parse pkt p_dec.p_sys.header).2.channels →
        pi_chan_table.getD i 0 < 8 ∧
        pi_chan_table.getD i 0 < ((List.range 8).map env.uninitialised).length) ∧
      (new_stream_map ((List.range 8).map env.uninitialised) pi_chan_table
        (env.opus_header_parse pkt p_dec.p_sys.header).2.stream_map
        (env.opus_header_parse pkt p_dec.p_sys.header).2.channels).length = 8) := by
  have hparse : (env.opus_header_parse pkt p_dec.p_sys.header).1 ≠ 0 := by
    intro h0
    have := (ProcessInitialHeader_parse_failed env p_dec pkt h0).2
    rw [this] at hpass
    exact Bool.false_ne_true hpass
  have hsup : ¬ unsupported_channel_mapping (env.opus_header_parse pkt p_dec.p_sys.header).2 := by
    intro hu
    rw [ProcessInitialHeader_unsupported env p_dec pkt hparse hu] at hpass
    exact Bool.false_ne_true hpass
  have h8 : (env.opus_header_parse pkt p_dec.p_sys.header).2.channels ≤ 8 := by
    unfold unsupported_channel_mapping at hsup
    by_contra hc
    apply hsup
    rcases Nat.le_one_iff_eq_zero_or_eq_one.mp hfam with h0 | h1
    · exact Or.inl ⟨by omega, h0⟩
    · exact Or.inr (Or.inl ⟨by omega, h1⟩)
  refine ⟨h8, rfl, ?_, rfl, ?_, ?_⟩
  · show _ < 9
    omega
  · intro h2
    refine ⟨h2, ?_⟩
    show _ < 6
    omega
  · intro t ht
    refine ⟨fun i hi => ?_, ?_⟩
    · have := ht i hi
      simp only [List.length_map, List.length_range]
      omega
    · rw [new_stream_map_length]
      simp

/-- C27, at a concrete input: the 6-channel header of family 1 passes the
validation; its channel count 6 indexes the 9 channel masks, `6 - 3` the 6
reference orders, and the reorder table of the core writes below 8. -/
theorem C27_table_accesses_in_bounds_witness :
    (ProcessInitialHeader henv_ok (opened_dec [])
      (header_bytes 6 1 4 2 [0, 4, 1, 2, 3, 5])).created = true ∧
    (henv_ok.opus_header_parse (header_bytes 6 1 4 2 [0, 4, 1, 2, 3, 5])
      (opened_dec []).p_sys.header).2.channels = 6 ∧
    (henv_ok.opus_header_parse (header_bytes 6 1 4 2 [0, 4, 1, 2, 3, 5])
      (opened_dec []).p_sys.header).2.channels < pi_channels_maps.length ∧
    (henv_ok.opus_header_parse (header_bytes 6 1 4 2 [0, 4, 1, 2, 3, 5])
      (opened_dec []).p_sys.header).2.channels - 3 < pi_ch.length :=
  ⟨by decide, by decide,
   (C27_table_accesses_in_bounds henv_ok (opened_dec [])
      (header_bytes 6 1 4 2 [0, 4, 1, 2, 3, 5]) (by decide) (by decide)).2.2.1,
   ((C27_table_accesses_in_bounds henv_ok (opened_dec [])
      (header_bytes 6 1 4 2 [0, 4, 1, 2, 3, 5]) (by decide) (by decide)).2.2.2.2.1
        (by decide)).2⟩

theorem magic_at_0_not_at_2 (p_extra : List Nat) (h : p_extra.take 8 = OpusHead) :
    (p_extra.drop 2).take 8 ≠ OpusHead := by
  intro h2
  have a : (p_extra.take 8)[2]? = some 117 := by rw [h]; rfl
  have b : ((p_extra.drop 2).take 8)[0]? = some 79 := by rw [h2]; rfl
  rw [List.getElem?_take] at a b
  simp only [List.getElem?_drop] at b
  simp at a b
  rw [a] at b
  simp at b

theorem header_source_faithful (env : HeaderEnv) (fmt_in : es_format_t) :
    (header_source fmt_in = header_source_t.xiph →
      ProcessHeaders_packet env fmt_in =
        match env.xiph_SplitHeaders fmt_in.p_extra with
        | none => Except.error vlc_status.VLC_EGENERIC
        | some packets =>
          if packets.length < 2 then Except.error vlc_status.VLC_EGENERIC
          else Except.ok (packets.headD [])) ∧
    (header_source fmt_in = header_source_t.synthesized →
      ProcessHeaders_packet env fmt_in =
        if (env.opus_write_header (env.opus_prepare_header
              (if fmt_in.audio_i_channels ≠ 0 then fmt_in.audio_i_channels else 2)
              (if fmt_in.audio_i_rate ≠ 0 then fmt_in.audio_i_rate else 48000)
              opus_header_init)).1 ≠ 0 ∨
            (env.opus_write_header (env.opus_prepare_header
              (if fmt_in.audio_i_channels ≠ 0 then fmt_in.audio_i_channels else 2)
              (if fmt_in.audio_i_rate ≠ 0 then fmt_in.audio_i_rate else 48000)
              opus_header_init)).2.length < 21 then Except.error vlc_status.VLC_ENOMEM
        else Except.ok (((env.opus_write_header (env.opus_prepare_header
              (if fmt_in.audio_i_channels ≠ 0 then fmt_in.audio_i_channels else 2)
              (if fmt_in.audio_i_rate ≠ 0 then fmt_in.audio_i_rate else 48000)
              opus_header_init)).2.drop 2).take
            ((env.opus_write_header (env.opus_prepare_header
              (if fmt_in.audio_i_channels ≠ 0 then fmt_in.audio_i_channels else 2)
              (if fmt_in.audio_i_rate ≠ 0 then fmt_in.audio_i_rate else 48000)
              opus_header_init)).2.getD 1 0))) ∧
    (header_source fmt_in = header_source_t.raw →
      ProcessHeaders_packet env fmt_in = Except.ok fmt_in.p_extra) := by
  unfold header_source ProcessHeaders_packet
  simp only
  by_cases hx : fmt_in.p_extra.length > 21 ∧ (fmt_in.p_extra.drop 2).take 8 = OpusHead
  · rw [if_pos hx, if_pos hx]
    exact ⟨fun _ => rfl, fun h => (by cases h), fun h => (by cases h)⟩
  · rw [if_neg hx, if_neg hx]
    by_cases hs : fmt_in.p_extra.length < 19 ∨ fmt_in.p_extra.take 8 ≠ OpusHead
    · rw [if_pos hs, if_pos hs]
      exact ⟨fun h => (by cases h), fun _ => rfl, fun h => (by cases h)⟩
    · rw [if_neg hs, if_neg hs]
      exact ⟨fun h => (by cases h), fun h => (by cases h), fun _ => rfl⟩

/-- C29: `ProcessHeaders` takes the header packet from exactly one of three
sources, decided by the extradata alone.  Extradata of at least 19 bytes that
begins with "OpusHead" fails the Xiph test (the magic cannot also stand at
offset 2) and is handed over raw, as it is; extradata shorter than 19 bytes
also fails the Xiph test, which needs more than 21 bytes, and has its header
synthesized from the negotiated format. -/
theorem C29_one_header_source (env : HeaderEnv) (fmt_in : es_format_t) :
    (19 ≤ fmt_in.p_extra.length → fmt_in.p_extra.take 8 = OpusHead →
      ¬ (fmt_in.p_extra.length > 21 ∧ (fmt_in.p_extra.drop 2).take 8 = OpusHead) ∧
      header_source fmt_in = header_source_t.raw ∧
      ProcessHeaders_packet env fmt_in = Except.ok fmt_in.p_extra) ∧
    (fmt_in.p_extra.length < 19 →
      ¬ (fmt_in.p_extra.length > 21 ∧ (fmt_in.p_extra.drop 2).take 8 = OpusHead) ∧
      header_source fmt_in = header_source_t.synthesized ∧
      ProcessHeaders_packet env fmt_in =
        if (env.opus_write_header (env.opus_prepare_header
              (if fmt_in.audio_i_channels ≠ 0 then fmt_in.audio_i_channels else 2)
              (if fmt_in.audio_i_rate ≠ 0 then fmt_in.audio_i_rate else 48000)
              opus_header_init)).1 ≠ 0 ∨
            (env.opus_write_header (env.opus_prepare_header
              (if fmt_in.audio_i_channels ≠ 0 then fmt_in.audio_i_channels else 2)
              (if fmt_in.audio_i_rate ≠ 0 then fmt_in.audio_i_rate else 48000)
              opus_header_init)).2.length < 21 then Except.error vlc_status.VLC_ENOMEM
        else Except.ok (((env.opus_write_header (env.opus_prepare_header
              (if fmt_in.audio_i_channels ≠ 0 then fmt_in.audio_i_channels else 2)
              (if fmt_in.audio_i_rate ≠ 0 then fmt_in.audio_i_rate else 48000)
              opus_header_init)).2.drop 2).take
            ((env.opus_write_header (env.opus_prepare_header
              (if fmt_in.audio_i_channels ≠ 0 then fmt_in.audio_i_channels else 2)
              (if fmt_in.audio_i_rate ≠ 0 then fmt_in.audio_i_rate else 48000)
              opus_header_init)).2.getD 1 0))) := by
  constructor
  · intro hlen hmagic
    have hx : ¬ (fmt_in.p_extra.length > 21 ∧ (fmt_in.p_extra.drop 2).take 8 = OpusHead) :=
      fun h => magic_at_0_not_at_2 _ hmagic h.2
    have hs : header_source fmt_in = header_source_t.raw := by
      unfold header_source
      rw [if_neg hx, if_neg (by rintro (h | h); omega; exact h hmagic)]
    exact ⟨hx, hs, (header_source_faithful env fmt_in).2.2 hs⟩
  · intro hlen
    have hx : ¬ (fmt_in.p_extra.length > 21 ∧ (fmt_in.p_extra.drop 2).take 8 = OpusHead) :=
      fun h => by omega
    have hs : header_source fmt_in = header_source_t.synthesized := by
      unfold header_source
      rw [if_neg hx, if_pos (Or.inl hlen)]
    exact ⟨hx, hs, (header_source_faithful env fmt_in).2.1 hs⟩

/-! ## Invariants of the loop of `Encode` -/

theorem Encode_loop_failed_alloc {α : Type} (env : EncEnv α) (channels rate fuel : Nat)
    (st : EncodeLoop α)
    (h : st.sys.i_nb_samples + st.buf.i_nb_samples ≥ OPUS_FRAME_SIZE)
    (ha : env.block_Alloc st.iter = false) :
    Encode_loop env channels rate (fuel + 1) st = some { st with oom := true } := by
  conv_lhs => unfold Encode_loop
  rw [if_pos h]
  simp only [ha, if_true]

theorem Encode_input_none_source {α : Type} (channels : Nat) (st : EncodeLoop α)
    (hp : st.sys.padding = none) :
    (Encode_input channels st).src_start
      = st.src_start
        + min st.buf.i_nb_samples (OPUS_FRAME_SIZE - st.sys.i_nb_samples) * channels ∧
    (Encode_input channels st).buf.p_buffer = st.buf.p_buffer := by
  unfold Encode_input
  rw [hp]
  exact ⟨rfl, rfl⟩

theorem Encode_frame_frame {α : Type} (env : EncEnv α) (channels rate : Nat)
    (st : EncodeLoop α) :
    (Encode_frame env channels rate st).src_start = st.src_start ∧
    (Encode_frame env channels rate st).buf = st.buf ∧
    (Encode_frame env channels rate st).sys.padding = st.sys.padding ∧
    (Encode_frame env channels rate st).oom = st.oom ∧
    (Encode_frame env channels rate st).iter = st.iter + 1 ∧
    (Encode_frame env channels rate st).handed = st.handed ++ [frame_of channels st.sys] := by
  unfold Encode_frame
  simp only
  split_ifs <;> exact ⟨rfl, rfl, rfl, rfl, rfl, rfl⟩

theorem source_offset (src q n channels : Nat) (hq : q ≤ n) :
    src + q * channels + (n - q) * channels = src + n * channels := by
  have : q * channels + (n - q) * channels = n * channels := by
    rw [← Nat.add_mul, Nat.add_sub_cancel' hq]
  omega

/-- What the two filling parts of an iteration keep: the samples in the
accumulator, in the padding and in the input block together, the delay, the
frames returned, and the place in the input block up to which it is read. -/
theorem Encode_fill_facts {α : Type} (channels : Nat) (st : EncodeLoop α) :
    (Encode_input channels (Encode_padding channels st)).sys.i_nb_samples
        + padding_left (Encode_input channels (Encode_padding channels st)).sys
        + (Encode_input channels (Encode_padding channels st)).buf.i_nb_samples
      = st.sys.i_nb_samples + padding_left st.sys + st.buf.i_nb_samples ∧
    (Encode_input channels (Encode_padding channels st)).sys.i_samples_delay
      = st.sys.i_samples_delay ∧
    (Encode_input channels (Encode_padding channels st)).result = st.result ∧
    (Encode_input channels (Encode_padding channels st)).oom = st.oom ∧
    (Encode_input channels (Encode_padding channels st)).iter = st.iter ∧
    (Encode_input channels (Encode_padding channels st)).handed = st.handed ∧
    (Encode_input channels (Encode_padding channels st)).buf.i_nb_samples
      ≤ st.buf.i_nb_samples ∧
    (Encode_input channels (Encode_padding channels st)).buf.p_buffer = st.buf.p_buffer ∧
    (Encode_input channels (Encode_padding channels st)).src_start
        + (Encode_input channels (Encode_padding channels st)).buf.i_nb_samples * channels
      = st.src_start + st.buf.i_nb_samples * channels := by
  cases hp : st.sys.padding with
  | none =>
    rw [Encode_padding_none channels st hp]
    obtain ⟨a1, a2, -, a4, a5, -, a7, a8, a9, a10⟩ := Encode_input_none channels st hp
    obtain ⟨b1, b2⟩ := Encode_input_none_source channels st hp
    unfold OPUS_FRAME_SIZE at a1 a2 b1
    have hl : padding_left st.sys = 0 := by unfold padding_left; rw [hp]
    have hl2 : padding_left (Encode_input channels st).sys = 0 := by
      unfold padding_left; rw [a4]
    refine ⟨?_, a5, a7, a10, a9, a8, ?_, b2, ?_⟩
    · rw [a1, a2, hl, hl2]; omega
    · rw [a2]; omega
    · rw [b1, a2]
      exact source_offset _ _ _ _ (Nat.min_le_left _ _)
  | some pad =>
    obtain ⟨p1, p2, p3, p4, p5, p6, p7, p8, p9, p10⟩ := Encode_padding_some channels st pad hp
    unfold OPUS_FRAME_SIZE at p1 p2
    have hl : padding_left st.sys = pad.i_nb_samples := by unfold padding_left; rw [hp]
    have hl1 : padding_left (Encode_padding channels st).sys
        = pad.i_nb_samples - min pad.i_nb_samples (960 - st.sys.i_nb_samples) := by
      unfold padding_left
      rw [p2]
      split_ifs with hz
      · show 0 = _
        omega
      · rfl
    generalize Encode_padding channels st = P at *
    cases hq : P.sys.padding with
    | some pad2 =>
      rw [Encode_input_some channels P pad2 hq]
      refine ⟨?_, p3, p7, p10, p9, p8, by rw [p4], by rw [p4], by rw [p4, p6]⟩
      rw [p1, hl1, hl, p4]; omega
    | none =>
      obtain ⟨a1, a2, -, a4, a5, -, a7, a8, a9, a10⟩ := Encode_input_none channels P hq
      obtain ⟨b1, b2⟩ := Encode_input_none_source channels P hq
      unfold OPUS_FRAME_SIZE at a1 a2 b1
      have hl2 : padding_left (Encode_input channels P).sys = 0 := by
        unfold padding_left; rw [a4]
      have hl3 : padding_left P.sys = 0 := by unfold padding_left; rw [hq]
      refine ⟨?_, by rw [a5, p3], by rw [a7, p7], by rw [a10, p10], by rw [a9, p9],
        by rw [a8, p8], ?_, by rw [b2, p4], ?_⟩
      · rw [a1, a2, hl2, hl, p1, p4]
        rw [hl3] at hl1
        omega
      · rw [a2, p4]; omega
      · rw [b1, a2, p6, p4]
        exact source_offset _ _ _ _ (Nat.min_le_left _ _)

/-- What one iteration of the loop does when it starts with an accumulator
that is not over-full and the loop condition holds. -/
theorem Encode_iteration_facts {α : Type} (env : EncEnv α) (channels rate : Nat)
    (st : EncodeLoop α) (hle : st.sys.i_nb_samples ≤ OPUS_FRAME_SIZE)
    (h : st.sys.i_nb_samples + st.buf.i_nb_samples ≥ OPUS_FRAME_SIZE) :
    (Encode_iteration env channels rate st).sys.i_nb_samples ≤ OPUS_FRAME_SIZE ∧
    OPUS_FRAME_SIZE * (Encode_iteration env channels rate st).result.length
        + (Encode_iteration env channels rate st).sys.i_nb_samples
        + padding_left (Encode_iteration env channels rate st).sys
        + (Encode_iteration env channels rate st).buf.i_nb_samples
      = OPUS_FRAME_SIZE * st.result.length + st.sys.i_nb_samples + padding_left st.sys
        + st.buf.i_nb_samples ∧
    (Encode_iteration env channels rate st).sys.i_samples_delay
        + ((OPUS_FRAME_SIZE * (Encode_iteration env channels rate st).result.length : Nat) : Int)
      = st.sys.i_samples_delay + ((OPUS_FRAME_SIZE * st.result.length : Nat) : Int) ∧
    (Encode_iteration env channels rate st).oom = st.oom ∧
    (Encode_iteration env channels rate st).buf.i_nb_samples ≤ st.buf.i_nb_samples ∧
    (Encode_iteration env channels rate st).buf.p_buffer = st.buf.p_buffer ∧
    (Encode_iteration env channels rate st).src_start
        + (Encode_iteration env channels rate st).buf.i_nb_samples * channels
      = st.src_start + st.buf.i_nb_samples * channels ∧
    (Encode_iteration env channels rate st).handed
      = st.handed
        ++ [frame_of channels (Encode_input channels (Encode_padding channels st)).sys] ∧
    ((∀ k f, 0 ≤ env.opus_multistream_encode_float k f) →
      (Encode_iteration env channels rate st).sys.i_nb_samples = 0 ∧
      (Encode_iteration env channels rate st).result.length = st.result.length + 1) := by
  have hfull := Encode_fill_counts channels st hle h
  obtain ⟨f1, f2, f3, f4, f5, f6, f7, f8, f9⟩ := Encode_fill_facts channels st
  unfold Encode_iteration
  generalize Encode_input channels (Encode_padding channels st) = Q at *
  obtain ⟨g1, g2, g3, g4, g5, g6⟩ := Encode_frame_frame env channels rate Q
  have hpl : padding_left (Encode_frame env channels rate Q).sys = padding_left Q.sys := by
    unfold padding_left; rw [g3]
  by_cases hb : 0 ≤ env.opus_multistream_encode_float Q.iter (frame_of channels Q.sys)
  · obtain ⟨a1, a2, a3, -, -, -, -, -, -⟩ := Encode_frame_accepted env channels rate Q hb
    have hlen : (Encode_frame env channels rate Q).result.length = st.result.length + 1 := by
      rw [a1, List.length_append, f3]; rfl
    unfold OPUS_FRAME_SIZE at *
    refine ⟨by rw [a2]; omega, ?_, ?_, by rw [g4, f4], by rw [g2]; exact f7,
      by rw [g2]; exact f8, by rw [g1, g2]; exact f9, by rw [g6, f6],
      fun _ => ⟨a2, hlen⟩⟩
    · rw [hlen, a2, hpl, g2]; omega
    · rw [hlen, a3, f2]; push_cast; omega
  · have hr := Encode_frame_refused env channels rate Q (not_le.mp hb)
    have r1 : (Encode_frame env channels rate Q).sys = Q.sys := by rw [hr]
    have r2 : (Encode_frame env channels rate Q).result = Q.result := by rw [hr]
    unfold OPUS_FRAME_SIZE at *
    refine ⟨by rw [r1, hfull], ?_, ?_, by rw [g4, f4], by rw [g2]; exact f7,
      by rw [g2]; exact f8, by rw [g1, g2]; exact f9, by rw [g6, f6],
      fun hs => absurd (hs _ _) hb⟩
    · rw [r2, r1, g2, f3]; omega
    · rw [r2, r1, f2, f3]

/-- What the loop of `Encode` keeps from the state it starts in to the state
it ends in. -/
theorem Encode_loop_facts {α : Type} (env : EncEnv α) (channels rate : Nat) (fuel : Nat) :
    ∀ st st2 : EncodeLoop α, Encode_loop env channels rate fuel st = some st2 →
      st.sys.i_nb_samples ≤ OPUS_FRAME_SIZE →
      st2.sys.i_nb_samples ≤ OPUS_FRAME_SIZE ∧
      OPUS_FRAME_SIZE * st2.result.length + st2.sys.i_nb_samples + padding_left st2.sys
          + st2.buf.i_nb_samples
        = OPUS_FRAME_SIZE * st.result.length + st.sys.i_nb_samples + padding_left st.sys
          + st.buf.i_nb_samples ∧
      st2.sys.i_samples_delay + ((OPUS_FRAME_SIZE * st2.result.length : Nat) : Int)
        = st.sys.i_samples_delay + ((OPUS_FRAME_SIZE * st.result.length : Nat) : Int) ∧
      (st2.oom = false → st2.sys.i_nb_samples + st2.buf.i_nb_samples < OPUS_FRAME_SIZE) ∧
      ((∀ k, env.block_Alloc k = true) → st2.oom = st.oom) ∧
      st2.buf.i_nb_samples ≤ st.buf.i_nb_samples ∧
      st2.buf.p_buffer = st.buf.p_buffer ∧
      st2.src_start + st2.buf.i_nb_samples * channels
        = st.src_start + st.buf.i_nb_samples * channels ∧
      ((∀ k f, 0 ≤ env.opus_multistream_encode_float k f) →
        st.sys.i_nb_samples + st.buf.i_nb_samples ≥ OPUS_FRAME_SIZE →
        (∀ k, env.block_Alloc k = true) → st2.sys.i_nb_samples = 0) := by
  induction fuel with
  | zero =>
    intro st st2 hrun hle
    by_cases h : st.sys.i_nb_samples + st.buf.i_nb_samples ≥ OPUS_FRAME_SIZE
    · rw [Encode_loop_zero env channels rate st h] at hrun
      cases hrun
    · rw [Encode_loop_done env channels rate 0 st h] at hrun
      cases hrun
      exact ⟨hle, rfl, rfl, fun _ => not_le.mp h, fun _ => rfl, le_refl _, rfl, rfl,
        fun _ hc => absurd hc h⟩
  | succ fuel ih =>
    intro st st2 hrun hle
    by_cases h : st.sys.i_nb_samples + st.buf.i_nb_samples ≥ OPUS_FRAME_SIZE
    · by_cases ha : env.block_Alloc st.iter = true
      · rw [Encode_loop_step env channels rate fuel st h ha] at hrun
        obtain ⟨i1, i2, i3, i4, i5, i6, i7, -, i9⟩ :=
          Encode_iteration_facts env channels rate st hle h
        obtain ⟨j1, j2, j3, j4, j5, j6, j7, j8, j9⟩ :=
          ih (Encode_iteration env channels rate st) st2 hrun i1
        refine ⟨j1, j2.trans i2, j3.trans i3, j4, fun hall => (j5 hall).trans i4,
          le_trans j6 i5, j7.trans i6, j8.trans i7, fun hs _ hall => ?_⟩
        by_cases h2 : (Encode_iteration env channels rate st).sys.i_nb_samples
            + (Encode_iteration env channels rate st).buf.i_nb_samples ≥ OPUS_FRAME_SIZE
        · exact j9 hs h2 hall
        · have hdone := Encode_loop_done env channels rate fuel
            (Encode_iteration env channels rate st) h2
          have heq : st2 = Encode_iteration env channels rate st := by
            have := hrun.symm.trans hdone
            exact Option.some.inj this
          rw [heq]
          exact (i9 hs).1
      · have ha2 : env.block_Alloc st.iter = false := by
          cases hb : env.block_Alloc st.iter
          · rfl
          · exact absurd hb ha
        rw [Encode_loop_failed_alloc env channels rate fuel st h ha2] at hrun
        cases hrun
        refine ⟨hle, rfl, rfl, fun hf => ?_, fun hall => ?_, le_refl _, rfl, rfl,
          fun _ _ hall => ?_⟩
        · exact absurd hf (by simp)
        · exact absurd (hall st.iter) ha
        · exact absurd (hall st.iter) ha
    · rw [Encode_loop_done env channels rate (fuel + 1) st h] at hrun
      cases hrun
      exact ⟨hle, rfl, rfl, fun _ => not_le.mp h, fun _ => rfl, le_refl _, rfl, rfl,
        fun _ hc => absurd hc h⟩

/-- When every codec encode attempt succeeds, the loop of `Encode` ends within
as many iterations as there are whole frames in the samples at hand. -/
theorem Encode_loop_returns {α : Type} (env : EncEnv α) (channels rate : Nat)
    (hs : ∀ k f, 0 ≤ env.opus_multistream_encode_float k f) (fuel : Nat) :
    ∀ st : EncodeLoop α, st.sys.i_nb_samples ≤ OPUS_FRAME_SIZE →
      st.sys.i_nb_samples + padding_left st.sys + st.buf.i_nb_samples
        < OPUS_FRAME_SIZE * (fuel + 1) →
      ∃ st2, Encode_loop env channels rate fuel st = some st2 := by
  induction fuel with
  | zero =>
    intro st _ hT
    refine ⟨st, Encode_loop_done env channels rate 0 st ?_⟩
    unfold OPUS_FRAME_SIZE at *
    omega
  | succ fuel ih =>
    intro st hle hT
    by_cases h : st.sys.i_nb_samples + st.buf.i_nb_samples ≥ OPUS_FRAME_SIZE
    · by_cases ha : env.block_Alloc st.iter = true
      · rw [Encode_loop_step env channels rate fuel st h ha]
        obtain ⟨i1, i2, -, -, -, -, -, -, i9⟩ :=
          Encode_iteration_facts env channels rate st hle h
        obtain ⟨k1, k2⟩ := i9 hs
        apply ih (Encode_iteration env channels rate st) i1
        rw [k2] at i2
        unfold OPUS_FRAME_SIZE at *
        omega
      · have ha2 : env.block_Alloc st.iter = false := by
          cases hb : env.block_Alloc st.iter
          · rfl
          · exact absurd hb ha
        exact ⟨_, Encode_loop_failed_alloc env channels rate fuel st h ha2⟩
    · exact ⟨st, Encode_loop_done env channels rate (fuel + 1) st h⟩

/-- The frames handed to the codec during the loop are those of the iterations
listed by `Encode_heads`, in order. -/
theorem Encode_loop_handed {α : Type} (env : EncEnv α) (channels rate : Nat) (fuel : Nat) :
    ∀ st st2 : EncodeLoop α, Encode_loop env channels rate fuel st = some st2 →
      st2.handed = st.handed ++ (Encode_heads env channels rate fuel st).map
        (fun s => frame_of channels (Encode_input channels (Encode_padding channels s)).sys) := by
  induction fuel with
  | zero =>
    intro st st2 hrun
    by_cases h : st.sys.i_nb_samples + st.buf.i_nb_samples ≥ OPUS_FRAME_SIZE
    · rw [Encode_loop_zero env channels rate st h] at hrun
      cases hrun
    · rw [Encode_loop_done env channels rate 0 st h] at hrun
      cases hrun
      simp [Encode_heads]
  | succ fuel ih =>
    intro st st2 hrun
    unfold Encode_heads
    by_cases h : st.sys.i_nb_samples + st.buf.i_nb_samples ≥ OPUS_FRAME_SIZE
    · rw [if_pos h]
      by_cases ha : env.block_Alloc st.iter = true
      · rw [Encode_loop_step env channels rate fuel st h ha] at hrun
        have hh := ih (Encode_iteration env channels rate st) st2 hrun
        have hf := (Encode_frame_frame env channels rate
          (Encode_input channels (Encode_padding channels st))).2.2.2.2.2
        have hi := (Encode_fill_facts channels st).2.2.2.2.2.1
        have hne : ¬ (env.block_Alloc st.iter = false) := by rw [ha]; simp
        rw [if_neg hne, hh]
        unfold Encode_iteration
        rw [hf, hi]
        simp
      · have ha2 : env.block_Alloc st.iter = false := by
          cases hb : env.block_Alloc st.iter
          · rfl
          · exact absurd hb ha
        rw [Encode_loop_failed_alloc env channels rate fuel st h ha2] at hrun
        cases hrun
        rw [if_pos ha2]
        simp
    · rw [Encode_loop_done env channels rate (fuel + 1) st h] at hrun
      cases hrun
      rw [if_neg h]
      simp

/-- Every iteration of the loop starts with an accumulator that is not
over-full, provided the loop does. -/
theorem Encode_heads_bounded {α : Type} (env : EncEnv α) (channels rate : Nat) (fuel : Nat) :
    ∀ st : EncodeLoop α, st.sys.i_nb_samples ≤ OPUS_FRAME_SIZE →
      ∀ s ∈ Encode_heads env channels rate fuel st,
        s.sys.i_nb_samples ≤ OPUS_FRAME_SIZE ∧
        s.sys.i_nb_samples + s.buf.i_nb_samples ≥ OPUS_FRAME_SIZE := by
  induction fuel with
  | zero =>
    intro st _ s hs
    simp [Encode_heads] at hs
  | succ fuel ih =>
    intro st hle s hs
    unfold Encode_heads at hs
    by_cases h : st.sys.i_nb_samples + st.buf.i_nb_samples ≥ OPUS_FRAME_SIZE
    · rw [if_pos h] at hs
      by_cases ha : env.block_Alloc st.iter = false
      · rw [if_pos ha] at hs
        cases hs
      · rw [if_neg ha] at hs
        rcases List.mem_cons.mp hs with rfl | hrest
        · exact ⟨hle, h⟩
        · exact ih _ (Encode_iteration_facts env channels rate st hle h).1 s hrest
    · rw [if_neg h] at hs
      cases hs

/-- The calls of `fill_buffer` of an iteration never fill the accumulator
beyond one frame. -/
theorem Encode_fill_calls_bounded {α : Type} (channels : Nat) (st : EncodeLoop α)
    (hle : st.sys.i_nb_samples ≤ OPUS_FRAME_SIZE) :
    ∀ c ∈ Encode_fill_calls channels st, c.1 + c.2 ≤ OPUS_FRAME_SIZE := by
  intro c hc
  unfold Encode_fill_calls at hc
  have hP : (Encode_padding channels st).sys.i_nb_samples ≤ OPUS_FRAME_SIZE := by
    cases hp : st.sys.padding with
    | none => rw [Encode_padding_none channels st hp]; exact hle
    | some pad =>
      rw [(Encode_padding_some channels st pad hp).1]
      unfold OPUS_FRAME_SIZE at *
      omega
  rcases List.mem_append.mp hc with h1 | h2
  · cases hp : st.sys.padding with
    | none => rw [hp] at h1; cases h1
    | some pad =>
      rw [hp] at h1
      simp only [List.mem_singleton] at h1
      rw [h1]
      unfold OPUS_FRAME_SIZE at *
      show st.sys.i_nb_samples + min pad.i_nb_samples (960 - st.sys.i_nb_samples) ≤ 960
      omega
  · generalize Encode_padding channels st = P at *
    cases hq : P.sys.padding with
    | some pad2 => rw [hq] at h2; cases h2
    | none =>
      rw [hq] at h2
      simp only [List.mem_singleton] at h2
      rw [h2]
      unfold OPUS_FRAME_SIZE at *
      show P.sys.i_nb_samples + min P.buf.i_nb_samples (960 - P.sys.i_nb_samples) ≤ 960
      omega

/-- The calls listed by `Encode_fill_calls` are the ones the two filling parts
make: the first starts from the accumulator as the iteration finds it, and
together they copy what the accumulator gains. -/
theorem Encode_fill_calls_sum {α : Type} (channels : Nat) (st : EncodeLoop α) :
    (Encode_input channels (Encode_padding channels st)).sys.i_nb_samples
      = st.sys.i_nb_samples
        + ((Encode_fill_calls channels st).map (fun c => c.2)).sum ∧
    (∀ c, (Encode_fill_calls channels st).head? = some c → c.1 = st.sys.i_nb_samples) := by
  unfold Encode_fill_calls
  cases hp : st.sys.padding with
  | none =>
    rw [Encode_padding_none channels st hp]
    rw [hp]
    refine ⟨?_, ?_⟩
    · rw [(Encode_input_none channels st hp).1]
      simp
    · intro c hc
      simp only [List.nil_append, List.head?_cons, Option.some.injEq] at hc
      rw [← hc]
  | some pad =>
    obtain ⟨p1, -, -, p4, -, -, -, -, -, -⟩ := Encode_padding_some channels st pad hp
    refine ⟨?_, ?_⟩
    · cases hq : (Encode_padding channels st).sys.padding with
      | some pad2 =>
        rw [Encode_input_some channels _ pad2 hq, p1]
        simp
      | none =>
        rw [(Encode_input_none channels _ hq).1, p1]
        simp
        omega
    · intro c hc
      simp only [List.singleton_append, List.head?_cons, Option.some.injEq] at hc
      rw [← hc]

/-! ## One call of `Encode` -/

/-- What one `Encode` call that returns keeps: the accumulator is not
over-full afterwards; the frames returned, the accumulator and the pending
padding hold no more samples than the accumulator, the padding and the block
did; and when no allocation fails they hold exactly as many, the delay counter
moves by the samples of the block minus one frame per frame returned, the
accumulator ends below one frame, and the block is consumed. -/
theorem Encode_facts {α : Type} (env : EncEnv α) (enc : encoder_t α) (buf : pcm_block_t α)
    (fuel : Nat) (r : EncodeResult α) (hrun : Encode env enc (some buf) fuel = some r)
    (hle : enc.p_sys.i_nb_samples ≤ OPUS_FRAME_SIZE) :
    r.enc.p_sys.i_nb_samples ≤ OPUS_FRAME_SIZE ∧
    OPUS_FRAME_SIZE * r.result.length + r.enc.p_sys.i_nb_samples + padding_left r.enc.p_sys
      ≤ enc.p_sys.i_nb_samples + padding_left enc.p_sys + buf.i_nb_samples ∧
    ((∀ k, env.block_Alloc k = true) →
      OPUS_FRAME_SIZE * r.result.length + r.enc.p_sys.i_nb_samples
          + padding_left r.enc.p_sys
        = enc.p_sys.i_nb_samples + padding_left enc.p_sys + buf.i_nb_samples ∧
      r.enc.p_sys.i_samples_delay + ((OPUS_FRAME_SIZE * r.result.length : Nat) : Int)
        = enc.p_sys.i_samples_delay + (buf.i_nb_samples : Int) ∧
      r.enc.p_sys.i_nb_samples < OPUS_FRAME_SIZE ∧
      r.buf.map (fun b => b.i_nb_samples) = some 0) := by
  unfold Encode at hrun
  simp only at hrun
  cases hl : Encode_loop env enc.fmt_out_audio_i_channels enc.fmt_in_audio_i_rate fuel
      (Encode_start enc buf) with
  | none => rw [hl] at hrun; cases hrun
  | some st2 =>
    rw [hl] at hrun
    simp only at hrun
    obtain ⟨j1, j2, j3, j4, j5, -, -, -, -⟩ :=
      Encode_loop_facts env _ _ fuel (Encode_start enc buf) st2 hl hle
    have e1 : (Encode_start enc buf).sys.i_nb_samples = enc.p_sys.i_nb_samples := rfl
    have e2 : padding_left (Encode_start enc buf).sys = padding_left enc.p_sys := rfl
    have e3 : (Encode_start enc buf).buf.i_nb_samples = buf.i_nb_samples := rfl
    have e4 : (Encode_start enc buf).result.length = 0 := rfl
    have e5 : (Encode_start enc buf).sys.i_samples_delay
        = enc.p_sys.i_samples_delay + (buf.i_nb_samples : Int) := rfl
    have e6 : (Encode_start enc buf).oom = false := rfl
    rw [e1, e2, e3, e4] at j2
    rw [e4, e5] at j3
    rw [e6] at j5
    unfold OPUS_FRAME_SIZE at *
    by_cases ho : st2.oom = true
    · rw [if_pos ho] at hrun
      cases hrun
      refine ⟨j1, ?_, fun hall => ?_⟩
      · show 960 * 0 + st2.sys.i_nb_samples + padding_left st2.sys ≤ _
        omega
      · rw [j5 hall] at ho
        cases ho
    · rw [if_neg ho] at hrun
      have ho2 : st2.oom = false := by
        cases hb : st2.oom
        · rfl
        · exact absurd hb ho
      have j4 := j4 ho2
      by_cases hb : st2.buf.i_nb_samples > 0
      · rw [if_pos hb] at hrun
        cases hrun
        have hpl : padding_left (fill_buffer enc.fmt_out_audio_i_channels st2.sys
            st2.src_start st2.buf st2.buf.i_nb_samples).1 = padding_left st2.sys := rfl
        have hnb : (fill_buffer enc.fmt_out_audio_i_channels st2.sys
            st2.src_start st2.buf st2.buf.i_nb_samples).1.i_nb_samples
            = st2.sys.i_nb_samples + st2.buf.i_nb_samples := rfl
        have hd : (fill_buffer enc.fmt_out_audio_i_channels st2.sys
            st2.src_start st2.buf st2.buf.i_nb_samples).1.i_samples_delay
            = st2.sys.i_samples_delay := rfl
        refine ⟨?_, ?_, fun _ => ⟨?_, ?_, ?_, ?_⟩⟩
        · show (fill_buffer _ _ _ _ _).1.i_nb_samples ≤ 960
          rw [hnb]; omega
        · show 960 * st2.result.length + (fill_buffer _ _ _ _ _).1.i_nb_samples
            + padding_left (fill_buffer _ _ _ _ _).1 ≤ _
          rw [hnb, hpl]; omega
        · show 960 * st2.result.length + (fill_buffer _ _ _ _ _).1.i_nb_samples
            + padding_left (fill_buffer _ _ _ _ _).1 = _
          rw [hnb, hpl]; omega
        · show (fill_buffer _ _ _ _ _).1.i_samples_delay + _ = _
          rw [hd]
          push_cast at j3 ⊢
          omega
        · show (fill_buffer _ _ _ _ _).1.i_nb_samples < 960
          rw [hnb]; omega
        · show some (st2.buf.i_nb_samples - st2.buf.i_nb_samples) = some 0
          rw [Nat.sub_self]
      · rw [if_neg hb] at hrun
        cases hrun
        refine ⟨j1, ?_, fun _ => ⟨?_, ?_, ?_, ?_⟩⟩
        · show 960 * st2.result.length + st2.sys.i_nb_samples + padding_left st2.sys ≤ _
          omega
        · show 960 * st2.result.length + st2.sys.i_nb_samples + padding_left st2.sys = _
          omega
        · show st2.sys.i_samples_delay + _ = _
          push_cast at j3 ⊢
          omega
        · show st2.sys.i_nb_samples < 960
          omega
        · show some st2.buf.i_nb_samples = some 0
          congr 1
          omega

/-- When every codec encode attempt succeeds, `Encode` returns once it is
allowed one iteration per whole frame at hand. -/
theorem Encode_returns {α : Type} (env : EncEnv α) (enc : encoder_t α) (buf : pcm_block_t α)
    (fuel : Nat) (hs : ∀ k f, 0 ≤ env.opus_multistream_encode_float k f)
    (hle : enc.p_sys.i_nb_samples ≤ OPUS_FRAME_SIZE)
    (hfuel : enc.p_sys.i_nb_samples + padding_left enc.p_sys + buf.i_nb_samples
      < OPUS_FRAME_SIZE * (fuel + 1)) :
    ∃ r, Encode env enc (some buf) fuel = some r := by
  obtain ⟨st2, h2⟩ := Encode_loop_returns env enc.fmt_out_audio_i_channels
    enc.fmt_in_audio_i_rate hs fuel (Encode_start enc buf) hle hfuel
  unfold Encode
  simp only
  rw [h2]
  simp only
  split_ifs
  · exact ⟨_, rfl⟩
  · exact ⟨_, rfl⟩
  · exact ⟨_, rfl⟩

/-- The samples that stay in the accumulator after a call in which every
encode attempt and every allocation succeeds: a block that does not complete a
frame is appended whole to the samples already there; otherwise the accumulator
holds the last samples of the block, in their order. -/
theorem Encode_retained {α : Type} (env : EncEnv α) (enc : encoder_t α) (buf : pcm_block_t α)
    (fuel : Nat) (r : EncodeResult α) (hrun : Encode env enc (some buf) fuel = some r)
    (hle : enc.p_sys.i_nb_samples ≤ OPUS_FRAME_SIZE)
    (hs : ∀ k f, 0 ≤ env.opus_multistream_encode_float k f)
    (hall : ∀ k, env.block_Alloc k = true) :
    (enc.p_sys.i_nb_samples + buf.i_nb_samples < OPUS_FRAME_SIZE →
      r.enc.p_sys.i_nb_samples = enc.p_sys.i_nb_samples + buf.i_nb_samples ∧
      (∀ k, k < enc.p_sys.i_nb_samples * enc.fmt_out_audio_i_channels →
        r.enc.p_sys.buffer k = enc.p_sys.buffer k) ∧
      (∀ j, j < buf.i_nb_samples * enc.fmt_out_audio_i_channels →
        r.enc.p_sys.buffer (enc.p_sys.i_nb_samples * enc.fmt_out_audio_i_channels + j)
          = buf.p_buffer j)) ∧
    (OPUS_FRAME_SIZE ≤ enc.p_sys.i_nb_samples + buf.i_nb_samples →
      r.enc.p_sys.i_nb_samples ≤ buf.i_nb_samples ∧
      (∀ j, j < r.enc.p_sys.i_nb_samples * enc.fmt_out_audio_i_channels →
        r.enc.p_sys.buffer j
          = buf.p_buffer ((buf.i_nb_samples - r.enc.p_sys.i_nb_samples)
              * enc.fmt_out_audio_i_channels + j))) := by
  unfold Encode at hrun
  simp only at hrun
  cases hl : Encode_loop env enc.fmt_out_audio_i_channels enc.fmt_in_audio_i_rate fuel
      (Encode_start enc buf) with
  | none => rw [hl] at hrun; cases hrun
  | some st2 =>
    rw [hl] at hrun
    simp only at hrun
    obtain ⟨-, -, -, -, j5, j6, j7, j8, j9⟩ :=
      Encode_loop_facts env _ _ fuel (Encode_start enc buf) st2 hl hle
    have e1 : (Encode_start enc buf).sys.i_nb_samples = enc.p_sys.i_nb_samples := rfl
    have e3 : (Encode_start enc buf).buf = buf := rfl
    have e6 : (Encode_start enc buf).oom = false := rfl
    have e7 : (Encode_start enc buf).src_start = 0 := rfl
    have ho2 : st2.oom = false := (j5 hall).trans e6
    rw [e3] at j6 j7
    rw [e3, e7, Nat.zero_add] at j8
    rw [e1, e3] at j9
    have hsrc : st2.src_start
        = (buf.i_nb_samples - st2.buf.i_nb_samples) * enc.fmt_out_audio_i_channels := by
      rw [Nat.sub_mul]
      omega
    rw [if_neg (by rw [ho2]; simp)] at hrun
    constructor
    · intro hshort
      have hdone := Encode_loop_done env enc.fmt_out_audio_i_channels
        enc.fmt_in_audio_i_rate fuel (Encode_start enc buf)
        (by rw [e1, e3]; exact not_le.mpr hshort)
      have heq : st2 = Encode_start enc buf := Option.some.inj (hl.symm.trans hdone)
      subst heq
      by_cases hb : (Encode_start enc buf).buf.i_nb_samples > 0
      · rw [if_pos hb] at hrun
        cases hrun
        refine ⟨rfl, fun k hk => ?_, fun j hj => ?_⟩
        · show (if _ then _ else _) = _
          rw [if_neg]
          · rfl
          · intro hc
            have := hc.1
            have e : (Encode_start enc buf).sys.i_nb_samples * enc.fmt_out_audio_i_channels
                = enc.p_sys.i_nb_samples * enc.fmt_out_audio_i_channels := rfl
            omega
        · show (if _ then _ else _) = _
          rw [if_pos]
          · show buf.p_buffer (0 + _) = _
            congr 1
            show 0 + (enc.p_sys.i_nb_samples * enc.fmt_out_audio_i_channels + j
              - enc.p_sys.i_nb_samples * enc.fmt_out_audio_i_channels) = j
            omega
          · constructor
            · show enc.p_sys.i_nb_samples * enc.fmt_out_audio_i_channels ≤ _
              omega
            · show _ < enc.p_sys.i_nb_samples * enc.fmt_out_audio_i_channels
                + buf.i_nb_samples * enc.fmt_out_audio_i_channels
              omega
      · rw [if_neg hb] at hrun
        cases hrun
        have hz : buf.i_nb_samples = 0 := by
          have : (Encode_start enc buf).buf.i_nb_samples = buf.i_nb_samples := rfl
          omega
        refine ⟨?_, fun k _ => rfl, fun j hj => ?_⟩
        · show enc.p_sys.i_nb_samples = _
          omega
        · rw [hz, Nat.zero_mul] at hj
          omega
    · intro hlong
      have hzero := j9 hs hlong hall
      by_cases hb : st2.buf.i_nb_samples > 0
      · rw [if_pos hb] at hrun
        cases hrun
        have hnb : (fill_buffer enc.fmt_out_audio_i_channels st2.sys
            st2.src_start st2.buf st2.buf.i_nb_samples).1.i_nb_samples
            = st2.buf.i_nb_samples := by
          show st2.sys.i_nb_samples + st2.buf.i_nb_samples = _
          omega
        refine ⟨?_, fun j hj => ?_⟩
        · show (fill_buffer _ _ _ _ _).1.i_nb_samples ≤ _
          rw [hnb]; exact j6
        · have hj2 : j < st2.buf.i_nb_samples * enc.fmt_out_audio_i_channels := by
            rw [← hnb]; exact hj
          show (fill_buffer enc.fmt_out_audio_i_channels st2.sys
            st2.src_start st2.buf st2.buf.i_nb_samples).1.buffer j
            = buf.p_buffer ((buf.i_nb_samples - (fill_buffer enc.fmt_out_audio_i_channels
                st2.sys st2.src_start st2.buf st2.buf.i_nb_samples).1.i_nb_samples)
              * enc.fmt_out_audio_i_channels + j)
          rw [hnb, ← hsrc]
          show (if _ then _ else _) = _
          rw [hzero, Nat.zero_mul, if_pos ⟨Nat.zero_le _, by omega⟩, j7]
          rfl
      · rw [if_neg hb] at hrun
        cases hrun
        refine ⟨?_, fun j hj => ?_⟩
        · show st2.sys.i_nb_samples ≤ _
          omega
        · have : j < st2.sys.i_nb_samples * enc.fmt_out_audio_i_channels := hj
          rw [hzero, Nat.zero_mul] at this
          omega

theorem Encode_handed {α : Type} (env : EncEnv α) (enc : encoder_t α) (buf : pcm_block_t α)
    (fuel : Nat) (r : EncodeResult α) (hrun : Encode env enc (some buf) fuel = some r) :
    r.handed = (Encode_heads env enc.fmt_out_audio_i_channels enc.fmt_in_audio_i_rate fuel
      (Encode_start enc buf)).map (fun s => frame_of enc.fmt_out_audio_i_channels
        (Encode_input enc.fmt_out_audio_i_channels
          (Encode_padding enc.fmt_out_audio_i_channels s)).sys) := by
  unfold Encode at hrun
  simp only at hrun
  cases hl : Encode_loop env enc.fmt_out_audio_i_channels enc.fmt_in_audio_i_rate fuel
      (Encode_start enc buf) with
  | none => rw [hl] at hrun; cases hrun
  | some st2 =>
    rw [hl] at hrun
    simp only at hrun
    have hh := Encode_loop_handed env _ _ fuel (Encode_start enc buf) st2 hl
    have e : (Encode_start enc buf).handed = [] := rfl
    rw [e, List.nil_append] at hh
    rw [← hh]
    split_ifs at hrun <;> (cases hrun; rfl)

/-! ## Sequences of `Encode` calls -/

theorem OpenEncoder_padding_left {α : Type} [Zero α] (env : OpenEncEnv) (enc : encoder_t α)
    (h : (OpenEncoder env enc).1 = vlc_status.VLC_SUCCESS) :
    padding_left (OpenEncoder env enc).2.p_sys = env.OPUS_GET_LOOKAHEAD.2.toNat := by
  obtain ⟨-, -, -, -, h5, h6⟩ := OpenEncoder_success env enc h
  by_cases hp : 0 < env.OPUS_GET_LOOKAHEAD.2
  · obtain ⟨pad, hpad, hn, -⟩ := h5 hp
    unfold padding_left
    rw [hpad]
    exact hn
  · unfold padding_left
    rw [h6 (by omega)]
    show 0 = _
    omega

theorem Encodes_cons {α : Type} (enc : encoder_t α) (env : EncEnv α) (buf : pcm_block_t α)
    (fuel : Nat) (rest : List (EncEnv α × pcm_block_t α × Nat)) (rs : List (EncodeResult α))
    (h : Encodes enc ((env, buf, fuel) :: rest) = some rs) :
    ∃ r rs2, Encode env enc (some buf) fuel = some r ∧ Encodes r.enc rest = some rs2 ∧
      rs = r :: rs2 := by
  unfold Encodes at h
  cases h1 : Encode env enc (some buf) fuel with
  | none => rw [h1] at h; cases h
  | some r =>
    rw [h1] at h
    simp only at h
    cases h2 : Encodes r.enc rest with
    | none => rw [h2] at h; cases h
    | some rs2 =>
      rw [h2] at h
      cases h
      exact ⟨r, rs2, rfl, h2, rfl⟩

/-- The frames returned by a sequence of calls, with what the accumulator and
the pending padding hold in the end, never hold more samples than the
accumulator and the padding held at first plus the samples received. -/
theorem Encodes_frames {α : Type} (calls : List (EncEnv α × pcm_block_t α × Nat)) :
    ∀ (enc : encoder_t α) (rs : List (EncodeResult α)), Encodes enc calls = some rs →
      enc.p_sys.i_nb_samples ≤ OPUS_FRAME_SIZE →
      OPUS_FRAME_SIZE * frames_emitted rs
        ≤ enc.p_sys.i_nb_samples + padding_left enc.p_sys + samples_received calls := by
  induction calls with
  | nil =>
    intro enc rs h _
    unfold Encodes at h
    cases h
    simp [frames_emitted]
  | cons c rest ih =>
    intro enc rs h hle
    obtain ⟨env, buf, fuel⟩ := c
    obtain ⟨r, rs2, h1, h2, rfl⟩ := Encodes_cons enc env buf fuel rest rs h
    obtain ⟨f1, f2, -⟩ := Encode_facts env enc buf fuel r h1 hle
    have := ih r.enc rs2 h2 f1
    have e1 : frames_emitted (r :: rs2) = r.result.length + frames_emitted rs2 := by
      simp [frames_emitted]
    have e2 : samples_received ((env, buf, fuel) :: rest)
        = buf.i_nb_samples + samples_received rest := by
      simp [samples_received]
    rw [e1, e2]
    unfold OPUS_FRAME_SIZE at *
    omega

/-- The delay counter over a sequence of calls in which no allocation fails:
it moves by the samples received minus one frame per frame returned, and it
stays equal to the samples in the accumulator plus the pending padding when it
was so at first. -/
theorem Encodes_delay {α : Type} (calls : List (EncEnv α × pcm_block_t α × Nat)) :
    ∀ (enc : encoder_t α) (rs : List (EncodeResult α)), Encodes enc calls = some rs →
      enc.p_sys.i_nb_samples ≤ OPUS_FRAME_SIZE →
      (∀ c ∈ calls, ∀ k, c.1.block_Alloc k = true) →
      (final_enc enc rs).p_sys.i_samples_delay
          + ((OPUS_FRAME_SIZE * frames_emitted rs : Nat) : Int)
        = enc.p_sys.i_samples_delay + ((samples_received calls : Nat) : Int) ∧
      (enc.p_sys.i_samples_delay
          = ((enc.p_sys.i_nb_samples + padding_left enc.p_sys : Nat) : Int) →
        ∀ r ∈ rs, r.enc.p_sys.i_samples_delay
          = ((r.enc.p_sys.i_nb_samples + padding_left r.enc.p_sys : Nat) : Int)) := by
  induction calls with
  | nil =>
    intro enc rs h _ _
    unfold Encodes at h
    cases h
    simp [frames_emitted, samples_received, final_enc]
  | cons c rest ih =>
    intro enc rs h hle hall
    obtain ⟨env, buf, fuel⟩ := c
    obtain ⟨r, rs2, h1, h2, rfl⟩ := Encodes_cons enc env buf fuel rest rs h
    obtain ⟨f1, -, f3⟩ := Encode_facts env enc buf fuel r h1 hle
    obtain ⟨g1, g2, -, -⟩ := f3 (hall (env, buf, fuel) (List.mem_cons_self _ _))
    obtain ⟨i1, i2⟩ := ih r.enc rs2 h2 f1
      (fun c hc => hall c (List.mem_cons_of_mem _ hc))
    have e1 : frames_emitted (r :: rs2) = r.result.length + frames_emitted rs2 := by
      simp [frames_emitted]
    have e2 : samples_received ((env, buf, fuel) :: rest)
        = buf.i_nb_samples + samples_received rest := by
      simp [samples_received]
    have e3 : final_enc enc (r :: rs2) = final_enc r.enc rs2 := rfl
    rw [e1, e2, e3]
    unfold OPUS_FRAME_SIZE at *
    constructor
    · push_cast at g2 i1 ⊢
      omega
    · intro hJ r2 hr2
      have hJ2 : r.enc.p_sys.i_samples_delay
          = ((r.enc.p_sys.i_nb_samples + padding_left r.enc.p_sys : Nat) : Int) := by
        push_cast at g2 hJ ⊢
        omega
      rcases List.mem_cons.mp hr2 with rfl | hmem
      · exact hJ2
      · exact i2 hJ2 r2 hmem

/-! ## The claims on the accumulator and the delay counter -/

/-- C21: if the accumulator holds fewer than 960 samples when `Encode` is
entered, then in every iteration of its loop each call of `fill_buffer` finds
`accumulated + copied ≤ 960`, the calls together bring the accumulator to
exactly 960 samples, and the codec encoder is invoked with exactly 960 samples
per channel in the accumulator; the frames handed to the codec are those of
these iterations, each of 960 samples per channel; the last call of
`fill_buffer`, after the loop, brings the accumulator to fewer than 960
samples; and the accumulator holds at most 960 samples when the call
returns. -/
theorem C21_accumulator_never_overfull {α : Type} (env : EncEnv α) (enc : encoder_t α)
    (buf : pcm_block_t α) (fuel : Nat)
    (hlt : enc.p_sys.i_nb_samples < OPUS_FRAME_SIZE) :
    (∀ s ∈ Encode_heads env enc.fmt_out_audio_i_channels enc.fmt_in_audio_i_rate fuel
        (Encode_start enc buf),
      (∀ c ∈ Encode_fill_calls enc.fmt_out_audio_i_channels s,
        c.1 + c.2 ≤ OPUS_FRAME_SIZE) ∧
      s.sys.i_nb_samples
          + ((Encode_fill_calls enc.fmt_out_audio_i_channels s).map (fun c => c.2)).sum
        = OPUS_FRAME_SIZE ∧
      (Encode_input enc.fmt_out_audio_i_channels
        (Encode_padding enc.fmt_out_audio_i_channels s)).sys.i_nb_samples
        = OPUS_FRAME_SIZE) ∧
    (∀ st, Encode_loop env enc.fmt_out_audio_i_channels enc.fmt_in_audio_i_rate fuel
        (Encode_start enc buf) = some st → st.oom = false →
      st.sys.i_nb_samples + st.buf.i_nb_samples < OPUS_FRAME_SIZE) ∧
    (∀ r, Encode env enc (some buf) fuel = some r →
      r.handed = (Encode_heads env enc.fmt_out_audio_i_channels enc.fmt_in_audio_i_rate fuel
        (Encode_start enc buf)).map (fun s => frame_of enc.fmt_out_audio_i_channels
          (Encode_input enc.fmt_out_audio_i_channels
            (Encode_padding enc.fmt_out_audio_i_channels s)).sys) ∧
      (∀ f ∈ r.handed, f.length = OPUS_FRAME_SIZE * enc.fmt_out_audio_i_channels) ∧
      r.enc.p_sys.i_nb_samples ≤ OPUS_FRAME_SIZE) := by
  have hle : enc.p_sys.i_nb_samples ≤ OPUS_FRAME_SIZE := le_of_lt hlt
  refine ⟨fun s hs => ?_, fun st hst ho => ?_, fun r hr => ⟨?_, ?_, ?_⟩⟩
  · obtain ⟨b1, b2⟩ := Encode_heads_bounded env _ _ fuel (Encode_start enc buf) hle s hs
    refine ⟨Encode_fill_calls_bounded _ s b1, ?_, Encode_fill_counts _ s b1 b2⟩
    rw [← (Encode_fill_calls_sum _ s).1]
    exact Encode_fill_counts _ s b1 b2
  · exact (Encode_loop_facts env _ _ fuel (Encode_start enc buf) st hst hle).2.2.2.1 ho
  · exact Encode_handed env enc buf fuel r hr
  · intro f hf
    rw [Encode_handed env enc buf fuel r hr] at hf
    obtain ⟨s, -, rfl⟩ := List.mem_map.mp hf
    simp [frame_of]
  · exact (Encode_facts env enc buf fuel r hr hle).1

set_option maxRecDepth 100000 in
/-- C21, at a concrete input: an accumulator holding 500 samples, 312 samples
of padding pending and a block of 1700 samples.  The first iteration copies
312 samples of padding behind the 500 and then 148 samples of input behind the
812; the second copies 960 samples of input into the empty accumulator; both
hand a full accumulator to the codec. -/
theorem C21_accumulator_never_overfull_witness :
    (Encode_heads enc_accepting 1 48000 10
        (Encode_start
          { opened_enc 312 with
            p_sys := { (opened_enc 312).p_sys with i_nb_samples := 500 } }
          (tone_block 1 1700 1000000))).map
      (fun s => (Encode_fill_calls 1 s,
        (Encode_input 1 (Encode_padding 1 s)).sys.i_nb_samples))
      = [([(500, 312), (812, 148)], 960), ([(0, 960)], 960)] ∧
    (∀ s ∈ Encode_heads enc_accepting 1 48000 10
        (Encode_start
          { opened_enc 312 with
            p_sys := { (opened_enc 312).p_sys with i_nb_samples := 500 } }
          (tone_block 1 1700 1000000)),
      (∀ c ∈ Encode_fill_calls 1 s, c.1 + c.2 ≤ OPUS_FRAME_SIZE) ∧
      s.sys.i_nb_samples + ((Encode_fill_calls 1 s).map (fun c => c.2)).sum
        = OPUS_FRAME_SIZE ∧
      (Encode_input 1 (Encode_padding 1 s)).sys.i_nb_samples = OPUS_FRAME_SIZE) :=
  ⟨by decide,
   (C21_accumulator_never_overfull enc_accepting
      { opened_enc 312 with p_sys := { (opened_enc 312).p_sys with i_nb_samples := 500 } }
      (tone_block 1 1700 1000000) 10 (by decide)).1⟩

/-- C22: over any sequence of `Encode` calls on a freshly opened encoder, the
number of compressed frames returned is at most the padding samples (the
lookahead reported at open, when it is positive) plus the input samples
received, divided by 960 and rounded down. -/
theorem C22_frames_bounded {α : Type} [Zero α] (oenv : OpenEncEnv) (enc0 : encoder_t α)
    (calls : List (EncEnv α × pcm_block_t α × Nat)) (rs : List (EncodeResult α))
    (hopen : (OpenEncoder oenv enc0).1 = vlc_status.VLC_SUCCESS)
    (hrun : Encodes (OpenEncoder oenv enc0).2 calls = some rs) :
    padding_left (OpenEncoder oenv enc0).2.p_sys = oenv.OPUS_GET_LOOKAHEAD.2.toNat ∧
    frames_emitted rs
      ≤ (padding_left (OpenEncoder oenv enc0).2.p_sys + samples_received calls)
          / OPUS_FRAME_SIZE := by
  have h0 := (OpenEncoder_success oenv enc0 hopen).2.2.1
  have hb := Encodes_frames calls (OpenEncoder oenv enc0).2 rs hrun (by rw [h0]; decide)
  refine ⟨OpenEncoder_padding_left oenv enc0 hopen, ?_⟩
  rw [h0, Nat.zero_add] at hb
  rw [Nat.le_div_iff_mul_le (by decide)]
  rw [Nat.mul_comm]
  exact hb

set_option maxRecDepth 100000 in
/-- C22, at a concrete input: lookahead 312 and blocks of 500 and 700 samples
give one frame, and (312 + 1200) / 960 = 1. -/
theorem C22_frames_bounded_witness :
    ∃ rs, Encodes (OpenEncoder (open_env 312) closed_enc).2
        [(enc_accepting, tone_block 1 500 1000000, 10),
         (enc_accepting, tone_block 1001 700 1010416, 10)] = some rs ∧
      frames_emitted rs = 1 ∧
      frames_emitted rs
        ≤ (padding_left (OpenEncoder (open_env 312) closed_enc).2.p_sys
            + samples_received [(enc_accepting, tone_block 1 500 1000000, 10),
                (enc_accepting, tone_block 1001 700 1010416, 10)]) / OPUS_FRAME_SIZE := by
  have hsome : (Encodes (OpenEncoder (open_env 312) closed_enc).2
        [(enc_accepting, tone_block 1 500 1000000, 10),
         (enc_accepting, tone_block 1001 700 1010416, 10)]).map frames_emitted = some 1 := by
    decide
  obtain ⟨rs, hrs, hf⟩ := Option.map_eq_some'.mp hsome
  exact ⟨rs, hrs, hf,
    (C22_frames_bounded (open_env 312) closed_enc _ rs (by decide) hrs).2⟩

set_option maxRecDepth 100000 in
/-- C23 (counterexample): a fresh encoder without lookahead, a block of 2000
samples, a codec that accepts every frame, and an outside world in which only
the first output block can be allocated.  The one encode attempt succeeds, yet
`Encode` returns NULL with 1040 samples of the block not consumed. -/
theorem C23_counterexample :
    (∀ k f, 0 ≤ enc_memory_once.opus_multistream_encode_float k f) ∧
    (Encode enc_memory_once (opened_enc 0) (some (tone_block 1 2000 1000000)) 10).map
        (fun r => (r.result.length, r.handed.length, r.buf.map (fun b => b.i_nb_samples)))
      = some (0, 1, some 1040) :=
  ⟨fun _ _ => by show (0 : Int) ≤ 100; decide, by decide⟩

/-- C23 (amended): when every codec encode attempt succeeds and every output
block can be allocated, `Encode`, entered with at most 960 samples in the
accumulator, returns with the whole input block consumed (its remaining sample
count is 0) and with fewer than 960 samples in the accumulator; no sample is
lost (the frames returned, the accumulator and the pending padding hold what
the accumulator, the padding and the block held); a block that does not
complete a frame is appended whole, in order, behind the samples already in the
accumulator; otherwise the accumulator holds the last samples of the block, in
their original order. -/
theorem C23_block_consumed_tail_retained {α : Type} (env : EncEnv α) (enc : encoder_t α)
    (buf : pcm_block_t α) (fuel : Nat)
    (hs : ∀ k f, 0 ≤ env.opus_multistream_encode_float k f)
    (hall : ∀ k, env.block_Alloc k = true)
    (hle : enc.p_sys.i_nb_samples ≤ OPUS_FRAME_SIZE)
    (hfuel : enc.p_sys.i_nb_samples + padding_left enc.p_sys + buf.i_nb_samples
      < OPUS_FRAME_SIZE * (fuel + 1)) :
    ∃ r, Encode env enc (some buf) fuel = some r ∧
      r.buf.map (fun b => b.i_nb_samples) = some 0 ∧
      r.enc.p_sys.i_nb_samples < OPUS_FRAME_SIZE ∧
      OPUS_FRAME_SIZE * r.result.length + r.enc.p_sys.i_nb_samples
          + padding_left r.enc.p_sys
        = enc.p_sys.i_nb_samples + padding_left enc.p_sys + buf.i_nb_samples ∧
      (enc.p_sys.i_nb_samples + buf.i_nb_samples < OPUS_FRAME_SIZE →
        r.enc.p_sys.i_nb_samples = enc.p_sys.i_nb_samples + buf.i_nb_samples ∧
        (∀ k, k < enc.p_sys.i_nb_samples * enc.fmt_out_audio_i_channels →
          r.enc.p_sys.buffer k = enc.p_sys.buffer k) ∧
        (∀ j, j < buf.i_nb_samples * enc.fmt_out_audio_i_channels →
          r.enc.p_sys.buffer (enc.p_sys.i_nb_samples * enc.fmt_out_audio_i_channels + j)
            = buf.p_buffer j)) ∧
      (OPUS_FRAME_SIZE ≤ enc.p_sys.i_nb_samples + buf.i_nb_samples →
        r.enc.p_sys.i_nb_samples ≤ buf.i_nb_samples ∧
        (∀ j, j < r.enc.p_sys.i_nb_samples * enc.fmt_out_audio_i_channels →
          r.enc.p_sys.buffer j
            = buf.p_buffer ((buf.i_nb_samples - r.enc.p_sys.i_nb_samples)
                * enc.fmt_out_audio_i_channels + j))) := by
  obtain ⟨r, hr⟩ := Encode_returns env enc buf fuel hs hle hfuel
  obtain ⟨g1, g2, g3, g4⟩ := (Encode_facts env enc buf fuel r hr hle).2.2 hall
  obtain ⟨k1, k2⟩ := Encode_retained env enc buf fuel r hr hle hs hall
  exact ⟨r, hr, g4, g3, g1, k1, k2⟩

set_option maxRecDepth 100000 in
/-- C23 (amended), at a concrete input: a fresh encoder without lookahead and a
block of 1000 samples holding the values 1 to 1000; one frame is returned and
the accumulator keeps the last 40 samples, which begin with 961, 962, 963. -/
theorem C23_block_consumed_tail_retained_witness :
    (Encode enc_accepting (opened_enc 0) (some (tone_block 1 1000 1000000)) 10).map
        (fun r => (r.result.length, r.enc.p_sys.i_nb_samples,
          (List.range 3).map r.enc.p_sys.buffer, r.buf.map (fun b => b.i_nb_samples)))
      = some (1, 40, [961, 962, 963], some 0) ∧
    ∃ r, Encode enc_accepting (opened_enc 0) (some (tone_block 1 1000 1000000)) 10 = some r ∧
      r.buf.map (fun b => b.i_nb_samples) = some 0 ∧
      r.enc.p_sys.i_nb_samples < OPUS_FRAME_SIZE :=
  ⟨by decide,
   (C23_block_consumed_tail_retained enc_accepting (opened_enc 0)
      (tone_block 1 1000 1000000) 10 (fun _ _ => by show (0 : Int) ≤ 100; decide)
      (fun _ => rfl) (by decide) (by decide)).imp
        (fun _ h => ⟨h.1, h.2.1, h.2.2.1⟩)⟩

set_option maxRecDepth 100000 in
/-- C24 (counterexample): a fresh encoder without lookahead is given one block
of 1920 samples while only the first output block can be allocated.  One frame
is encoded and then released, the call returns NULL, no frame is emitted, and
the delay counter is 960, whereas the lookahead plus the samples received is
1920. -/
theorem C24_counterexample :
    (Encodes (opened_enc 0) [(enc_memory_once, tone_block 1 1920 1000000, 10)]).map
        (fun rs => (frames_emitted rs,
          (final_enc (opened_enc 0) rs).p_sys.i_samples_delay))
      = some (0, 960) ∧
    (open_env 0).OPUS_GET_LOOKAHEAD.2
        + ((samples_received [(enc_memory_once, tone_block 1 1920 1000000, 10)] : Nat) : Int)
        - 960 * 0 = 1920 := by
  decide

/-- C24 (amended): after any sequence of `Encode` calls on a freshly opened
encoder in which no allocation of an output block fails, the delay counter
equals the lookahead value set at open plus the total number of input samples
received minus 960 for every frame returned. -/
theorem C24_delay_counter {α : Type} [Zero α] (oenv : OpenEncEnv) (enc0 : encoder_t α)
    (calls : List (EncEnv α × pcm_block_t α × Nat)) (rs : List (EncodeResult α))
    (hopen : (OpenEncoder oenv enc0).1 = vlc_status.VLC_SUCCESS)
    (hrun : Encodes (OpenEncoder oenv enc0).2 calls = some rs)
    (hall : ∀ c ∈ calls, ∀ k, c.1.block_Alloc k = true) :
    (final_enc (OpenEncoder oenv enc0).2 rs).p_sys.i_samples_delay
      = oenv.OPUS_GET_LOOKAHEAD.2 + ((samples_received calls : Nat) : Int)
        - 960 * ((frames_emitted rs : Nat) : Int) := by
  obtain ⟨-, -, h0, hd, -, -⟩ := OpenEncoder_success oenv enc0 hopen
  have h := (Encodes_delay calls (OpenEncoder oenv enc0).2 rs hrun
    (by rw [h0]; decide) hall).1
  rw [hd] at h
  unfold OPUS_FRAME_SIZE at h
  push_cast at h
  omega

set_option maxRecDepth 100000 in
/-- C24 (amended), at a concrete input: lookahead 312, blocks of 500 and 700
samples, one frame returned; the delay counter ends at 312 + 1200 - 960 =
552. -/
theorem C24_delay_counter_witness :
    ∃ rs, Encodes (OpenEncoder (open_env 312) closed_enc).2
        [(enc_accepting, tone_block 1 500 1000000, 10),
         (enc_accepting, tone_block 1001 700 1010416, 10)] = some rs ∧
      frames_emitted rs = 1 ∧
      (final_enc (OpenEncoder (open_env 312) closed_enc).2 rs).p_sys.i_samples_delay
        = (open_env 312).OPUS_GET_LOOKAHEAD.2
          + ((samples_received [(enc_accepting, tone_block 1 500 1000000, 10),
                (enc_accepting, tone_block 1001 700 1010416, 10)] : Nat) : Int)
          - 960 * ((frames_emitted rs : Nat) : Int) := by
  have hsome : (Encodes (OpenEncoder (open_env 312) closed_enc).2
        [(enc_accepting, tone_block 1 500 1000000, 10),
         (enc_accepting, tone_block 1001 700 1010416, 10)]).map frames_emitted = some 1 := by
    decide
  obtain ⟨rs, hrs, hf⟩ := Option.map_eq_some'.mp hsome
  exact ⟨rs, hrs, hf,
    C24_delay_counter (open_env 312) closed_enc _ rs (by decide) hrs
      (by
        intro c hc k
        simp only [List.mem_cons, List.mem_singleton, List.not_mem_nil, or_false] at hc
        rcases hc with rfl | rfl <;> rfl)⟩

set_option maxRecDepth 100000 in
/-- C28 (counterexample): a fresh encoder without lookahead is given a block of
960 samples while no output block can be allocated.  No encode attempt is made,
so none fails; the call returns NULL with the delay counter at 960, the
accumulator empty and no padding pending. -/
theorem C28_counterexample :
    (Encode enc_no_memory (opened_enc 0) (some (tone_block 1 960 1000000)) 10).map
        (fun r => (r.handed.length, r.enc.p_sys.i_samples_delay,
          r.enc.p_sys.i_nb_samples, padding_left r.enc.p_sys))
      = some (0, 960, 0, 0) := by
  decide

/-- C28 (amended): after `OpenEncoder` with a non-negative lookahead, and after
every `Encode` call of a sequence in which no allocation of an output block
fails, the delay counter equals the number of samples held in the accumulator
plus the number of padding samples not yet consumed. -/
theorem C28_delay_balance {α : Type} [Zero α] (oenv : OpenEncEnv) (enc0 : encoder_t α)
    (calls : List (EncEnv α × pcm_block_t α × Nat)) (rs : List (EncodeResult α))
    (hopen : (OpenEncoder oenv enc0).1 = vlc_status.VLC_SUCCESS)
    (hlook : 0 ≤ oenv.OPUS_GET_LOOKAHEAD.2)
    (hrun : Encodes (OpenEncoder oenv enc0).2 calls = some rs)
    (hall : ∀ c ∈ calls, ∀ k, c.1.block_Alloc k = true) :
    (OpenEncoder oenv enc0).2.p_sys.i_samples_delay
      = (((OpenEncoder oenv enc0).2.p_sys.i_nb_samples
          + padding_left (OpenEncoder oenv enc0).2.p_sys : Nat) : Int) ∧
    (∀ r ∈ rs, r.enc.p_sys.i_samples_delay
      = ((r.enc.p_sys.i_nb_samples + padding_left r.enc.p_sys : Nat) : Int)) := by
  obtain ⟨-, -, h0, hd, -, -⟩ := OpenEncoder_success oenv enc0 hopen
  have hp := OpenEncoder_padding_left oenv enc0 hopen
  have hbase : (OpenEncoder oenv enc0).2.p_sys.i_samples_delay
      = (((OpenEncoder oenv enc0).2.p_sys.i_nb_samples
          + padding_left (OpenEncoder oenv enc0).2.p_sys : Nat) : Int) := by
    rw [h0, hd, hp]
    push_cast
    omega
  exact ⟨hbase, (Encodes_delay calls (OpenEncoder oenv enc0).2 rs hrun
    (by rw [h0]; decide) hall).2 hbase⟩

set_option maxRecDepth 100000 in
/-- C28 (amended), at a concrete input: lookahead 312 and blocks of 500 and 700
samples; after the first call the delay counter is 812 = 500 + 312, after the
second it is 552 = 552 + 0. -/
theorem C28_delay_balance_witness :
    ∃ rs, Encodes (OpenEncoder (open_env 312) closed_enc).2
        [(enc_accepting, tone_block 1 500 1000000, 10),
         (enc_accepting, tone_block 1001 700 1010416, 10)] = some rs ∧
      rs.map (fun r => (r.enc.p_sys.i_samples_delay, r.enc.p_sys.i_nb_samples,
          padding_left r.enc.p_sys)) = [(812, 500, 312), (552, 552, 0)] ∧
      (∀ r ∈ rs, r.enc.p_sys.i_samples_delay
        = ((r.enc.p_sys.i_nb_samples + padding_left r.enc.p_sys : Nat) : Int)) := by
  have hsome : (Encodes (OpenEncoder (open_env 312) closed_enc).2
        [(enc_accepting, tone_block 1 500 1000000, 10),
         (enc_accepting, tone_block 1001 700 1010416, 10)]).map
        (fun rs => rs.map (fun r => (r.enc.p_sys.i_samples_delay, r.enc.p_sys.i_nb_samples,
          padding_left r.enc.p_sys))) = some [(812, 500, 312), (552, 552, 0)] := by
    decide
  obtain ⟨rs, hrs, hf⟩ := Option.map_eq_some'.mp hsome
  exact ⟨rs, hrs, hf,
    (C28_delay_balance (open_env 312) closed_enc _ rs (by decide) (by decide) hrs
      (by
        intro c hc k
        simp only [List.mem_cons, List.mem_singleton, List.not_mem_nil, or_false] at hc
        rcases hc with rfl | rfl <;> rfl)).2⟩

end Opus

/-! ## The claim on the gesture interface -/

namespace Gestures

theorem find_choice_le (val : Int) (p_values : List Int) :
    find_choice val p_values ≤ p_values.length :=
  List.findIdx_le_length _

theorem find_choice_absent (val : Int) (p_values : List Int) (h : val ∉ p_values) :
    find_choice val p_values = p_values.length := by
  unfold find_choice
  rw [List.findIdx_eq_length]
  intro x hx
  by_cases hv : val = x
  · exact absurd (hv ▸ hx) h
  · simpa using hv

/-- C25: when the gesture handler cycles the audio or the subtitle track, that
is when more than one choice is published, a current track value that is not
among the choices makes it select choice 0, and the index it selects always
lies below the number of choices, so the selection never fails or reads outside
the list; with at most one choice it selects nothing. -/
theorem C25_track_index_in_range (val : Int) (p_values : List Int) :
    (1 < p_values.length →
      (val ∉ p_values →
        next_audio_es val p_values = some 0 ∧ next_spu_es val p_values = some 0) ∧
      (∃ i, next_audio_es val p_values = some i ∧ i < p_values.length) ∧
      (∃ i, next_spu_es val p_values = some i ∧ i < p_values.length)) ∧
    (p_values.length ≤ 1 →
      next_audio_es val p_values = none ∧ next_spu_es val p_values = none) := by
  have hle := find_choice_le val p_values
  refine ⟨fun hcount => ⟨fun habs => ?_, ?_, ?_⟩, fun hone => ?_⟩
  · have := find_choice_absent val p_values habs
    simp [next_audio_es, next_spu_es, this, not_le.mpr hcount]
  · simp only [next_audio_es, if_neg (not_le.mpr hcount)]
    split_ifs with h1 h2
    · exact ⟨0, rfl, by omega⟩
    · exact ⟨1, rfl, by omega⟩
    · exact ⟨_, rfl, by omega⟩
  · simp only [next_spu_es, if_neg (not_le.mpr hcount)]
    split_ifs with h1 h2
    · exact ⟨0, rfl, by omega⟩
    · exact ⟨0, rfl, by omega⟩
    · exact ⟨_, rfl, by omega⟩
  · simp [next_audio_es, next_spu_es, hone]

/-- C25, at a concrete input: with the choices -1, 1, 2, a current value 7
that is not published selects index 0; from the last choice the audio track
goes to index 1 and the subtitle track to index 0; from the middle choice both
go to index 2. -/
theorem C25_track_index_in_range_witness :
    (next_audio_es 7 [-1, 1, 2] = some 0 ∧ next_spu_es 7 [-1, 1, 2] = some 0) ∧
    next_audio_es 2 [-1, 1, 2] = some 1 ∧ next_spu_es 2 [-1, 1, 2] = some 0 ∧
    next_audio_es 1 [-1, 1, 2] = some 2 ∧ next_spu_es 1 [-1, 1, 2] = some 2 :=
  ⟨((C25_track_index_in_range 7 [-1, 1, 2]).1 (by decide)).1 (by decide),
   by decide, by decide, by decide, by decide⟩

end Gestures
